import Mathlib

/-!
# Agora (millipede) baseband: data generator and packet sender

A shallow embedding of the parts of the repository that the specification
talks about:

* `src/data/data_generator/data_generator.cpp`: `bitreverse8`,
  `adapt_bits_for_mod`, `select_base_matrix_entry`;
* `src/simulator/sender_dpdk.cpp`: `Sender::tag_to_tx_buffers_index`,
  `Sender::get_max_symbol_id`, `Sender::delay_for_symbol`,
  `Sender::delay_for_frame`, `Sender::master_thread`.

Machine integers are natural numbers; every C++ operation that can leave the
range of its type is followed by an explicit reduction modulo `2 ^ w`.
Bytes (`int8_t` / `uint8_t` storage) are represented by their unsigned bit
pattern, a number below 256.
-/

namespace Agora

/-! ## Machine arithmetic -/

/-- Number of values of a `size_t` / `uint64_t`. -/
def SIZE_RANGE : Nat := 2 ^ 64

/-- Reduction of a mathematical result to `size_t` / `uint64_t`. -/
def to_size_t (n : Nat) : Nat := n % SIZE_RANGE

/-- Reduction to `uint32_t` (the width of `gen_tag_t::frame_id`). -/
def to_uint32 (n : Nat) : Nat := n % 2 ^ 32

/-- Reduction to `uint16_t`. -/
def to_uint16 (n : Nat) : Nat := n % 2 ^ 16

/-- Reduction to `uint8_t`; also the bit pattern kept by a store to `int8_t`. -/
def to_uint8 (n : Nat) : Nat := n % 2 ^ 8

/-! ## data_generator.cpp -/

/-- The function `bitreverse8`, in the branch that is compiled: the guard of the other branch
asks for `__builtin_bireverse8`, which no compiler has.  Each assignment to
the `uint8_t x` truncates the `int` result to eight bits. -/
def bitreverse8 (x : Nat) : Nat :=
  let x0 := to_uint8 x
  let x1 := to_uint8 ((x0 <<< 4) ||| (x0 >>> 4))
  let x2 := to_uint8 (((x1 &&& 0x33) <<< 2) ||| ((x1 >>> 2) &&& 0x33))
  let x3 := to_uint8 (((x2 &&& 0x55) <<< 1) ||| ((x2 >>> 1) &&& 0x55))
  x3

/-- Loop state of `adapt_bits_for_mod`: the `uint16_t bits` accumulator, the
`int bits_avail` counter and the bytes stored through `vec_out` so far, in
the order of the stores (`*vec_out++`). -/
structure AdaptState where
  bits : Nat
  bits_avail : Nat
  vec_out : List Nat
deriving DecidableEq, Repr

/-- The inner `while (bits_avail >= mod_type)` loop of `adapt_bits_for_mod`.
`none` stands for the executions that have no result: `mod_type = 0` never
leaves the loop, and `mod_type > 16` shifts by a negative count. -/
def adapt_while (mod_type : Nat) (st : AdaptState) : Option AdaptState :=
  if mod_type ≤ st.bits_avail then
    if mod_type = 0 ∨ 16 < mod_type then none
    else
      adapt_while mod_type
        { bits := to_uint16 (st.bits <<< mod_type)
          bits_avail := st.bits_avail - mod_type
          vec_out := st.vec_out ++ [to_uint8 (st.bits >>> (16 - mod_type))] }
  else some st
termination_by st.bits_avail
decreasing_by
  simp_wf
  omega

/-- The outer `for` loop of `adapt_bits_for_mod` over the bytes still to be
read.  The shift count `8 - bits_avail` must not be negative. -/
def adapt_for (mod_type : Nat) : List Nat → AdaptState → Option AdaptState
  | [], st => some st
  | x :: rest, st =>
    if 8 < st.bits_avail then none
    else
      match adapt_while mod_type
          { bits := to_uint16 (st.bits ||| (bitreverse8 x <<< (8 - st.bits_avail)))
            bits_avail := st.bits_avail + 8
            vec_out := st.vec_out } with
      | none => none
      | some st1 => adapt_for mod_type rest st1

/-- The function `adapt_bits_for_mod(vec_in, vec_out, len, mod_type)`: the bytes written
through `vec_out`, first store first.  `vec_in` must hold `len` bytes.  The
two `int` parameters are taken non-negative: a negative `len` runs no
iteration, a negative `mod_type` behaves like `mod_type = 0`. -/
def adapt_bits_for_mod (vec_in : List Nat) (len : Nat) (mod_type : Nat) :
    Option (List Nat) :=
  if vec_in.length < len then none
  else (adapt_for mod_type (vec_in.take len) ⟨0, 0, []⟩).map AdaptState.vec_out

/-- The function `select_base_matrix_entry(Zc)` for a `uint16_t Zc`. -/
def select_base_matrix_entry (Zc : Nat) : Nat :=
  if Zc % 15 = 0 then 7
  else if Zc % 13 = 0 then 6
  else if Zc % 11 = 0 then 5
  else if Zc % 9 = 0 then 4
  else if Zc % 7 = 0 then 3
  else if Zc % 5 = 0 then 2
  else if Zc % 3 = 0 then 1
  else 0

/-! ## Tags -/

/-- The discriminator of a tag. -/
inductive TagType where
  | kAntennas
  | kUsers
  | kSubcarriers
  | kNone
deriving DecidableEq, Repr

/-- Modelled from the spec: `gen_tag_t`, whose declaration is not among the
sources.  A tag packs `frame_id` (32 bits), `symbol_id` (16 bits) and one
16-bit field shared by antenna, user and subcarrier id, with a discriminator
saying which of them it is.  The model keeps the decoded fields. -/
structure gen_tag_t where
  frame_id : Nat
  symbol_id : Nat
  ant_id : Nat
  tag_type : TagType
deriving DecidableEq, Repr

/-- Modelled from the spec: `gen_tag_t::frm_sym_ant(frame_id, symbol_id,
ant_id)`; each `size_t` argument is stored in a field of the stated width. -/
def gen_tag_t.frm_sym_ant (frame_id symbol_id ant_id : Nat) : gen_tag_t :=
  { frame_id := to_uint32 frame_id
    symbol_id := to_uint16 symbol_id
    ant_id := to_uint16 ant_id
    tag_type := TagType.kAntennas }

/-- Modelled from the spec: `gen_tag_t::frm_sym(frame_id, symbol_id)`, a tag
without an antenna, user or subcarrier. -/
def gen_tag_t.frm_sym (frame_id symbol_id : Nat) : gen_tag_t :=
  { frame_id := to_uint32 frame_id
    symbol_id := to_uint16 symbol_id
    ant_id := 0
    tag_type := TagType.kNone }

/-! ## sender_dpdk.cpp -/

/-- The fields of `Config` that the sender's scheduling code reads (all
`size_t`, `downlink_mode` a `bool`). -/
structure Config where
  BS_ANT_NUM : Nat
  pilot_symbol_num_perframe : Nat
  data_symbol_num_perframe : Nat
  downlink_mode : Bool
  frames_to_test : Nat
deriving DecidableEq, Repr

/-- The members of `Sender` that the scheduling code reads.  The two
compile-time constants `SOCKET_BUFFER_FRAME_NUM` and `kNumStatsFrames` are
declared in a header that is not among the sources, so they are carried here
as parameters.  The tick budgets are the `uint64_t` members computed once in
the constructor. -/
structure Sender where
  cfg : Config
  SOCKET_BUFFER_FRAME_NUM : Nat
  kNumStatsFrames : Nat
  thread_num : Nat
  enable_slow_start : Bool
  ticks_all : Nat
  ticks_5 : Nat
  ticks_100 : Nat
  ticks_200 : Nat
  ticks_500 : Nat
deriving DecidableEq, Repr

/-- The method `Sender::get_max_symbol_id()`. -/
def Sender.get_max_symbol_id (s : Sender) : Nat :=
  if s.cfg.downlink_mode then s.cfg.pilot_symbol_num_perframe
  else to_size_t (s.cfg.pilot_symbol_num_perframe + s.cfg.data_symbol_num_perframe)

/-- The method `Sender::tag_to_tx_buffers_index(tag)`, in `size_t` arithmetic. -/
def Sender.tag_to_tx_buffers_index (s : Sender) (tag : gen_tag_t) : Nat :=
  let frame_slot := tag.frame_id % s.SOCKET_BUFFER_FRAME_NUM
  to_size_t
    (to_size_t
        (to_size_t (frame_slot * to_size_t (s.get_max_symbol_id * s.cfg.BS_ANT_NUM))
          + to_size_t (tag.symbol_id * s.cfg.BS_ANT_NUM))
      + tag.ant_id)

/-- The row count handed to `tx_buffers_.calloc` in the constructor:
`SOCKET_BUFFER_FRAME_NUM * get_max_symbol_id() * cfg->BS_ANT_NUM`, in
`size_t` arithmetic. -/
def Sender.tx_buffers_rows (s : Sender) : Nat :=
  to_size_t (to_size_t (s.SOCKET_BUFFER_FRAME_NUM * s.get_max_symbol_id) * s.cfg.BS_ANT_NUM)

/-- The method `Sender::delay_for_symbol(tx_frame_count, tick_start)`: the tick count it
hands to `delay_ticks`, which spins until that many cycles have passed since
`tick_start`. -/
def Sender.delay_for_symbol (s : Sender) (tx_frame_count : Nat) : Nat :=
  if s.enable_slow_start then
    if tx_frame_count ≤ 5 then s.ticks_5
    else if tx_frame_count < 100 then s.ticks_100
    else if tx_frame_count < 200 then s.ticks_200
    else if tx_frame_count < 500 then s.ticks_500
    else s.ticks_all
  else s.ticks_all

/-- The method `Sender::delay_for_frame(tx_frame_count, tick_start)`: the tick count it
hands to `delay_ticks`, or `none` when it returns without calling it.  The
products are taken in 64-bit unsigned arithmetic. -/
def Sender.delay_for_frame (s : Sender) (tx_frame_count : Nat) : Option Nat :=
  if s.cfg.downlink_mode then
    if tx_frame_count < 500 then
      some (to_size_t (to_size_t (2 * s.cfg.data_symbol_num_perframe) * s.ticks_all))
    else some (to_size_t (s.cfg.data_symbol_num_perframe * s.ticks_all))
  else none

/-! ### The master thread -/

/-- A `for (size_t i = from; i < bound; i++) acc = body(i, acc)` loop;
`fuel` counts the iterations that remain at most. -/
def for_loop {σ : Type} (bound : Nat) (body : Nat → σ → σ) : Nat → Nat → σ → σ
  | 0, _, acc => acc
  | fuel + 1, i, acc =>
    if i < bound then for_loop bound body fuel (i + 1) (body i acc) else acc

/-- What one stretch of `Sender::master_thread` hands to its collaborators:
the `(k, tag)` pairs of the calls `send_queue_.enqueue(*task_ptok[k], tag)`,
the tags given to `data_update_queue_.try_enqueue`, and the tick counts given
to `delay_ticks`, each in program order; `stop` says that the `while` loop
was left through `break`. -/
structure MasterOut where
  sends : List (Nat × gen_tag_t)
  updates : List gen_tag_t
  delays : List Nat
  stop : Bool
deriving DecidableEq, Repr

/-- The arrays that `Sender::master_thread` updates.  The counters are
`size_t`; `frame_start` and `frame_end` hold readings of `get_time()`, which
the model treats as abstract values. -/
structure MasterState where
  packet_count_per_symbol : Nat → Nat → Nat
  packet_count_per_frame : Nat → Nat
  frame_start : Nat → Nat
  frame_end : Nat → Nat

/-- The state the constructor and `startTX` leave: all arrays zeroed. -/
def MasterState.zero : MasterState :=
  { packet_count_per_symbol := fun _ _ => 0
    packet_count_per_frame := fun _ => 0
    frame_start := fun _ => 0
    frame_end := fun _ => 0 }

/-- Store `v` at `a[i]`. -/
def store1 (a : Nat → Nat) (i v : Nat) : Nat → Nat :=
  fun i' => if i' = i then v else a i'

/-- Store `v` at `a[i][j]`. -/
def store2 (a : Nat → Nat → Nat) (i j v : Nat) : Nat → Nat → Nat :=
  fun i' j' => if i' = i ∧ j' = j then v else a i' j'

/-- The loop `for (size_t i = 0; i < cfg->BS_ANT_NUM; i++)` that enqueues
`frm_sym_ant(frame, symbol, i)` through `task_ptok[i % thread_num]`
(lines 188-192 and 242-248), appending to the calls made so far. -/
def Sender.enqueue_send_tasks (s : Sender) (frame symbol : Nat)
    (q : List (Nat × gen_tag_t)) : List (Nat × gen_tag_t) :=
  for_loop s.cfg.BS_ANT_NUM
    (fun i acc => acc ++ [(i % s.thread_num, gen_tag_t.frm_sym_ant frame symbol i)])
    s.cfg.BS_ANT_NUM 0 q

/-- The part of `Sender::master_thread` before its `while` loop: one
data-update request per symbol of frame 0, the send tasks of frame 0,
symbol 0, and `frame_start[0] = get_time()` (reading `t_start`). -/
def Sender.master_prologue (s : Sender) (st : MasterState) (t_start : Nat) :
    MasterState × MasterOut :=
  let max_symbol_id := s.get_max_symbol_id
  let updates := for_loop max_symbol_id
    (fun i acc => acc ++ [gen_tag_t.frm_sym 0 i]) max_symbol_id 0 []
  let sends := s.enqueue_send_tasks 0 0 []
  ({ st with frame_start := store1 st.frame_start 0 t_start },
   { sends := sends, updates := updates, delays := [], stop := false })

/-- One iteration of the `while (keep_running)` loop of
`Sender::master_thread` in which `try_dequeue` delivered the completion tag
`ctag`.  `t_end` and `t_start` are the readings of `get_time()` stored to
`frame_end` and `frame_start` should the iteration reach those stores. -/
def Sender.master_step (s : Sender) (st : MasterState) (ctag : gen_tag_t)
    (t_end t_start : Nat) : MasterState × MasterOut :=
  let max_symbol_id := s.get_max_symbol_id
  let comp_frame_slot := ctag.frame_id % s.SOCKET_BUFFER_FRAME_NUM
  let count := to_size_t (st.packet_count_per_symbol comp_frame_slot ctag.symbol_id + 1)
  if count = s.cfg.BS_ANT_NUM then
    let per_symbol := store2 st.packet_count_per_symbol comp_frame_slot ctag.symbol_id 0
    let frame_count := to_size_t (st.packet_count_per_frame comp_frame_slot + 1)
    let per_frame := store1 st.packet_count_per_frame comp_frame_slot frame_count
    let delay_symbol := s.delay_for_symbol ctag.frame_id
    let next_symbol_id := (ctag.symbol_id + 1) % max_symbol_id
    let req_tag_for_data := gen_tag_t.frm_sym (to_uint32 (ctag.frame_id + 1)) ctag.symbol_id
    if frame_count = max_symbol_id then
      let next_frame_id := to_uint32 (ctag.frame_id + 1)
      if next_frame_id = s.cfg.frames_to_test then
        ({ st with packet_count_per_symbol := per_symbol,
                   packet_count_per_frame := per_frame },
         { sends := [], updates := [], delays := [delay_symbol], stop := true })
      else
        ({ packet_count_per_symbol := per_symbol
           packet_count_per_frame := store1 per_frame comp_frame_slot 0
           frame_end := store1 st.frame_end (ctag.frame_id % s.kNumStatsFrames) t_end
           frame_start := store1 st.frame_start (next_frame_id % s.kNumStatsFrames) t_start },
         { sends := s.enqueue_send_tasks next_frame_id next_symbol_id []
           updates := [req_tag_for_data]
           delays := delay_symbol :: (s.delay_for_frame ctag.frame_id).toList
           stop := false })
    else
      ({ st with packet_count_per_symbol := per_symbol,
                 packet_count_per_frame := per_frame },
       { sends := s.enqueue_send_tasks ctag.frame_id next_symbol_id []
         updates := [req_tag_for_data]
         delays := [delay_symbol]
         stop := false })
  else
    ({ st with
        packet_count_per_symbol :=
          store2 st.packet_count_per_symbol comp_frame_slot ctag.symbol_id count },
     { sends := [], updates := [], delays := [], stop := false })

/-- One iteration of the `while (keep_running)` loop for either outcome of
`completion_queue_.try_dequeue`: an empty queue (`none`) takes the
`continue` and changes nothing. -/
def Sender.master_iteration (s : Sender) (st : MasterState) (ret : Option gen_tag_t)
    (t_end t_start : Nat) : MasterState × MasterOut :=
  match ret with
  | none => (st, { sends := [], updates := [], delays := [], stop := false })
  | some ctag => s.master_step st ctag t_end t_start

/-! ## Bit windows -/

/-- The number spelled by the `n` bits `b p, b (p+1), ..., b (p+n-1)`, the
earliest bit most significant. -/
def window (b : Nat → Nat) (p : Nat) : Nat → Nat
  | 0 => 0
  | n + 1 => 2 * window b p n + b (p + n)

/-- Bit `n` of the input of `adapt_bits_for_mod`, as the specification counts them:
bit `n % 8`, from the least significant, of byte `vec_in[n / 8]`. -/
def input_bit (vec_in : List Nat) (n : Nat) : Nat :=
  to_uint8 (vec_in.getD (n / 8) 0) / 2 ^ (n % 8) % 2

/-- The `k`-th `m`-bit field of the input bit stream, earliest bit most
significant: the sum over `t < m` of `b (k*m + t) * 2 ^ (m-1-t)`. -/
def mbit_field (vec_in : List Nat) (m k : Nat) : Nat :=
  ∑ t in Finset.range m, input_bit vec_in (k * m + t) * 2 ^ (m - 1 - t)

/-- The accumulator state of `adapt_bits_for_mod` that holds, in its top
bits, the `a` pending bits that start at stream position `p`. -/
def acc_of (b : Nat → Nat) (p a : Nat) (out : List Nat) : AdaptState :=
  { bits := window b p a * 2 ^ (16 - a), bits_avail := a, vec_out := out }

/-- The residue table as the specification lists it, in its order: a divisor
and the value paired with it. -/
def base_matrix_table : List (Nat × Nat) :=
  [(15, 7), (13, 6), (11, 5), (9, 4), (7, 3), (5, 2), (3, 1)]

/-- The value paired with the first divisor of `Zc` in `base_matrix_table`,
and 0 when no divisor of the table divides `Zc`. -/
def first_divisor_entry (Zc : Nat) : Nat :=
  match base_matrix_table.find? (fun e => Zc % e.1 = 0) with
  | some e => e.2
  | none => 0

/-- The canonical frame-slot offset of the specification:
`((frame_id mod F) * S + symbol_index) * D + element`. -/
def canonical_offset (F S D frame_id symbol_index element : Nat) : Nat :=
  ((frame_id % F) * S + symbol_index) * D + element

/-! ### Runs of the master thread -/

/-- One dequeued completion of a run of `Sender::master_thread`: the
completion tag and the two readings of `get_time()` that the iteration stores
to `frame_end` and `frame_start` if it reaches those stores. -/
structure Completion where
  tag : gen_tag_t
  t_end : Nat
  t_start : Nat
deriving DecidableEq, Repr

/-- What two consecutive stretches of the master thread hand out, in order. -/
def MasterOut.append (a b : MasterOut) : MasterOut :=
  { sends := a.sends ++ b.sends
    updates := a.updates ++ b.updates
    delays := a.delays ++ b.delays
    stop := b.stop }

/-- The `while (keep_running)` loop of `Sender::master_thread` fed with the
completions `cs` in the order `try_dequeue` delivers them: it processes them
one by one and leaves at the first iteration that takes the `break`. -/
def Sender.master_run (s : Sender) : MasterState → List Completion → MasterState × MasterOut
  | st, [] => (st, { sends := [], updates := [], delays := [], stop := false })
  | st, c :: cs =>
    let r := s.master_step st c.tag c.t_end c.t_start
    if r.2.stop = true then r
    else
      let r2 := s.master_run r.1 cs
      (r2.1, r.2.append r2.2)

/-- A run of the master thread together with the workers: `st` is the
master's state, `pending` the send tasks enqueued and not yet completed,
`sends` and `updates` every call to `send_queue_.enqueue` and to
`data_update_queue_.try_enqueue` so far, `stopped` whether the loop was left. -/
structure RunState where
  st : MasterState
  pending : List gen_tag_t
  sends : List (Nat × gen_tag_t)
  updates : List gen_tag_t
  stopped : Bool

/-- The run after the part of `master_thread` that precedes the loop, started
on zeroed arrays: the tasks of frame 0, symbol 0 are pending. -/
def Sender.run_init (s : Sender) (t_start : Nat) : RunState :=
  let r := s.master_prologue MasterState.zero t_start
  { st := r.1
    pending := r.2.sends.map Prod.snd
    sends := r.2.sends
    updates := r.2.updates
    stopped := false }

/-- One more completion in a run in which every send task is completed
exactly once: a worker completes a task that is pending (the tag it enqueues
on `completion_queue_` is the tag it dequeued), which takes that task off the
pending ones, and the master processes the completion.  `none` when the
completion is of no pending task or the master has left its loop. -/
def Sender.run_step (s : Sender) (rs : RunState) (c : Completion) : Option RunState :=
  if rs.stopped = true then none
  else if c.tag ∈ rs.pending then
    let r := s.master_step rs.st c.tag c.t_end c.t_start
    some
      { st := r.1
        pending := rs.pending.erase c.tag ++ r.2.sends.map Prod.snd
        sends := rs.sends ++ r.2.sends
        updates := rs.updates ++ r.2.updates
        stopped := r.2.stop }
  else none

/-- A run over the completions `cs`, in order. -/
def Sender.run (s : Sender) : RunState → List Completion → Option RunState
  | rs, [] => some rs
  | rs, c :: cs =>
    match s.run_step rs c with
    | none => none
    | some rs2 => s.run rs2 cs

/-- The send tasks of the first `n` waves of a run, wave `w` being that of
frame `w / S` and symbol `w % S` with `S = get_max_symbol_id()`. -/
def Sender.waves (s : Sender) : Nat → List (Nat × gen_tag_t)
  | 0 => []
  | n + 1 =>
    s.waves n ++ (List.range s.cfg.BS_ANT_NUM).map
      (fun i => (i % s.thread_num,
        gen_tag_t.frm_sym_ant (n / s.get_max_symbol_id) (n % s.get_max_symbol_id) i))

/-- The state of a run in which `j` tasks of the wave of frame `f`, symbol `y`
are completed and all earlier waves are completed in full. -/
structure RunInv (s : Sender) (f y j : Nat) (rs : RunState) : Prop where
  not_stopped : rs.stopped = false
  pending_length : rs.pending.length = s.cfg.BS_ANT_NUM - j
  pending_tags : ∀ t ∈ rs.pending, t.frame_id = f ∧ t.symbol_id = y
  per_symbol : ∀ a b, rs.st.packet_count_per_symbol a b
    = if a = f % s.SOCKET_BUFFER_FRAME_NUM ∧ b = y then j else 0
  per_frame : ∀ a, rs.st.packet_count_per_frame a
    = if a = f % s.SOCKET_BUFFER_FRAME_NUM then y else 0
  sends_eq : rs.sends = s.waves (f * s.get_max_symbol_id + y + 1)

/-- The state of a run after `n` completions: before the last completion it
is in the middle of the wave that `n` falls into, and after
`frames_to_test * S * D` completions the loop is left and every wave of the
`frames_to_test` frames, and no other send task, has been emitted. -/
def RunAt (s : Sender) (n : Nat) (rs : RunState) : Prop :=
  (∃ f y j, f < s.cfg.frames_to_test ∧ y < s.get_max_symbol_id ∧ j < s.cfg.BS_ANT_NUM
      ∧ (f * s.get_max_symbol_id + y) * s.cfg.BS_ANT_NUM + j = n ∧ RunInv s f y j rs)
  ∨ (n = s.cfg.frames_to_test * s.get_max_symbol_id * s.cfg.BS_ANT_NUM
      ∧ rs.stopped = true ∧ rs.pending = []
      ∧ rs.sends = s.waves (s.cfg.frames_to_test * s.get_max_symbol_id))

/-- The values `Sender::write_stats_to_file(tx_frame_count)` prints, one per
line, in order: `frame_end[i % kNumStatsFrames]` for `i < tx_frame_count`. -/
def Sender.write_stats_to_file (s : Sender) (st : MasterState) (tx_frame_count : Nat) :
    List Nat :=
  for_loop tx_frame_count
    (fun i acc => acc ++ [st.frame_end (i % s.kNumStatsFrames)]) tx_frame_count 0 []

/-- The completions with tags `tags`, in that order, the `k`-th of them
processed under the clock readings `times[k]`. -/
def with_times (tags : List gen_tag_t) (times : List (Nat × Nat)) : List Completion :=
  List.zipWith (fun t x => { tag := t, t_end := x.1, t_start := x.2 }) tags times

/-- The sizes under which a run of the sender is described: at least one
frame slot, antenna, symbol and frame, and counts that fit their types
(`size_t` for `BS_ANT_NUM`, the 16-bit `symbol_id` and the 32-bit `frame_id`
of a tag for the symbols per frame and for `frames_to_test`). -/
structure Sender.well_sized (s : Sender) : Prop where
  slots_pos : 0 < s.SOCKET_BUFFER_FRAME_NUM
  ants_pos : 0 < s.cfg.BS_ANT_NUM
  ants_fit : s.cfg.BS_ANT_NUM < 2 ^ 64
  syms_pos : 0 < s.get_max_symbol_id
  syms_fit : s.get_max_symbol_id ≤ 2 ^ 16
  frames_pos : 0 < s.cfg.frames_to_test
  frames_fit : s.cfg.frames_to_test < 2 ^ 32

/-- The completions of the send tasks `tags`, in that order, each processed
under the clock readings 0. -/
def completions_of (tags : List gen_tag_t) : List Completion :=
  tags.map (fun t => { tag := t, t_end := 0, t_start := 0 })

/-! ### The data-update thread -/

/-- Modelled from the spec: `Packet`, whose declaration is not among the
sources: a header of the four 32-bit fields `frame_id`, `symbol_id`,
`cell_id`, `ant_id`, followed by the payload of 16-bit samples.  One row of
`tx_buffers_` holds one packet. -/
structure Packet where
  frame_id : Nat
  symbol_id : Nat
  cell_id : Nat
  ant_id : Nat
  data : List Nat
deriving DecidableEq, Repr

/-- What `Sender::update_tx_buffer` reads besides the tag: `Config::getSymbolId`
(not among the sources), the rows of `IQ_data_coded` and `OFDM_FRAME_LEN`. -/
structure TxSource where
  getSymbolId : Nat → Nat
  IQ_data_coded : Nat → List Nat
  OFDM_FRAME_LEN : Nat

/-- The method `Sender::update_tx_buffer(tag)` on the rows of `tx_buffers_`:
it writes the header of the row `tag_to_tx_buffers_index(tag)` and copies
`2 * OFDM_FRAME_LEN` samples of `IQ_data_coded[data_index]` over the start of
its payload. -/
def Sender.update_tx_buffer (s : Sender) (src : TxSource) (tx_buffers_ : Nat → Packet)
    (tag : gen_tag_t) : Nat → Packet :=
  let index := s.tag_to_tx_buffers_index tag
  let pkt := tx_buffers_ index
  let data_index := to_size_t (to_size_t (tag.symbol_id * s.cfg.BS_ANT_NUM) + tag.ant_id)
  let copied := 2 * src.OFDM_FRAME_LEN
  fun row =>
    if row = index then
      { frame_id := tag.frame_id
        symbol_id := to_uint32 (src.getSymbolId tag.symbol_id)
        cell_id := 0
        ant_id := tag.ant_id
        data := (src.IQ_data_coded data_index).take copied ++ pkt.data.drop copied }
    else tx_buffers_ row

/-- One iteration of the loop of `Sender::data_update_thread` in which
`try_dequeue` delivered `tag`: the rows of `tx_buffers_` afterwards, and the
arguments of its calls of `update_tx_buffer`, in order. -/
def Sender.data_update_iteration (s : Sender) (src : TxSource) (tx_buffers_ : Nat → Packet)
    (tag : gen_tag_t) : (Nat → Packet) × List gen_tag_t :=
  for_loop s.cfg.BS_ANT_NUM
    (fun i acc =>
      let tag_for_ant := gen_tag_t.frm_sym_ant tag.frame_id tag.symbol_id i
      (s.update_tx_buffer src acc.1 tag_for_ant, acc.2 ++ [tag_for_ant]))
    s.cfg.BS_ANT_NUM 0 (tx_buffers_, [])

/-! ## Signed machine integers -/

/-- Conversion of a `size_t` value to `int` (32 bits, two's complement). -/
def to_int (n : Nat) : Int :=
  if n % 2 ^ 32 < 2 ^ 31 then ((n % 2 ^ 32 : Nat) : Int)
  else ((n % 2 ^ 32 : Nat) : Int) - 2 ^ 32

/-- Conversion of an `int` or `ssize_t` value to `size_t`. -/
def int_to_size_t (x : Int) : Nat := (x % 2 ^ 64).toNat

/-! ## Events -/

/-- Modelled from the spec: `EventType`, whose declaration is not among the
sources; the kinds of event the specification lists. -/
inductive EventType where
  | kPacketRX
  | kPacketTX
  | kFFT
  | kCSI
  | kZF
  | kDemul
  | kDecode
  | kEncode
  | kModulate
  | kIFFT
deriving DecidableEq, Repr

/-- Modelled from the spec: `Event_data`, whose declaration is not among the
sources: the kind of the event and its first tag, `tags[0]`. -/
structure Event_data where
  event_type : EventType
  tag : gen_tag_t
deriving DecidableEq, Repr

/-- Modelled from the spec: `gen_tag_t::frm_sym_ue(frame_id, symbol_id,
ue_id)`; the user id shares the 16-bit field of the antenna id. -/
def gen_tag_t.frm_sym_ue (frame_id symbol_id ue_id : Nat) : gen_tag_t :=
  { frame_id := to_uint32 frame_id
    symbol_id := to_uint16 symbol_id
    ant_id := to_uint16 ue_id
    tag_type := TagType.kUsers }

/-- Modelled from the spec: `gen_tag_t::frm_sc(frame_id, sc_id)`; the
subcarrier id shares the 16-bit field of the antenna id. -/
def gen_tag_t.frm_sc (frame_id sc_id : Nat) : gen_tag_t :=
  { frame_id := to_uint32 frame_id
    symbol_id := 0
    ant_id := to_uint16 sc_id
    tag_type := TagType.kSubcarriers }

/-- The field `sc_id` of a tag: the 16-bit field it shares with `ant_id`. -/
def gen_tag_t.sc_id (t : gen_tag_t) : Nat := t.ant_id

/-! ## channel_sim.cpp -/

/-- What the channel simulator reads of a `Config` (`bscfg` or `uecfg`): the
packet length and the symbol-index methods, which are not among the sources
and return `SIZE_MAX` for a symbol that is not of the kind asked for. -/
structure SimConfig where
  packet_length : Nat
  get_ul_symbol_idx : Nat → Nat → Nat
  get_dl_symbol_idx : Nat → Nat → Nat
  get_pilot_symbol_idx : Nat → Nat → Nat

/-- The members of `ChannelSim` that its loops read.  The compile-time
constant `TASK_BUFFER_FRAME_NUM` is declared in a header that is not among
the sources, so it is carried here as a parameter. -/
structure ChannelSim where
  bscfg : SimConfig
  uecfg : SimConfig
  TASK_BUFFER_FRAME_NUM : Nat
  bs_thread_num : Nat
  user_thread_num : Nat
  bs_socket_num : Nat
  user_socket_num : Nat
  numAntennas : Nat
  nUEs : Nat
  dl_symbol_perframe : Nat
  ul_data_symbol_perframe : Nat
  pilot_symbol_perframe : Nat
  ul_symbol_perframe : Nat
  payload_len : Nat

/-- The lower end `tid * N / T` of the range of sockets (or radios) of the
shard with thread id `tid`, as `bs_rx_loop`, `ue_rx_loop` and
`Sender::worker_thread` compute it: the `int tid` is converted to `size_t`,
the product and the quotient are taken in `size_t`, and the result is stored
in an `int`. -/
def shard_lo (tid : Int) (N T : Nat) : Int :=
  to_int (to_size_t (int_to_size_t tid * N) / T)

/-- The upper end `(tid + 1) * N / T` of the range of the shard `tid`. -/
def shard_hi (tid : Int) (N T : Nat) : Int :=
  to_int (to_size_t (int_to_size_t (tid + 1) * N) / T)

/-- The variable `socket_lo` of `ChannelSim::bs_rx_loop(tid)`. -/
def ChannelSim.bs_socket_lo (cs : ChannelSim) (tid : Int) : Int :=
  shard_lo tid cs.bs_socket_num cs.bs_thread_num

/-- The variable `socket_hi` of `ChannelSim::bs_rx_loop(tid)`. -/
def ChannelSim.bs_socket_hi (cs : ChannelSim) (tid : Int) : Int :=
  shard_hi tid cs.bs_socket_num cs.bs_thread_num

/-- The variable `socket_lo` of `ChannelSim::ue_rx_loop(tid)`. -/
def ChannelSim.ue_socket_lo (cs : ChannelSim) (tid : Int) : Int :=
  shard_lo tid cs.user_socket_num cs.user_thread_num

/-- The variable `socket_hi` of `ChannelSim::ue_rx_loop(tid)`. -/
def ChannelSim.ue_socket_hi (cs : ChannelSim) (tid : Int) : Int :=
  shard_hi tid cs.user_socket_num cs.user_thread_num

/-- The variable `radio_lo` of `Sender::worker_thread(tid)`, for `nRadios`
radios. -/
def Sender.radio_lo (s : Sender) (nRadios : Nat) (tid : Int) : Int :=
  shard_lo tid nRadios s.thread_num

/-- The variable `radio_hi` of `Sender::worker_thread(tid)`. -/
def Sender.radio_hi (s : Sender) (nRadios : Nat) (tid : Int) : Int :=
  shard_hi tid nRadios s.thread_num

/-- The thread id `ChannelSim::start` gives the `i`-th BS-side RX shard
(`bs_context->id = i`). -/
def ChannelSim.bs_rx_tid (_cs : ChannelSim) (i : Nat) : Int :=
  to_int i

/-- The thread id `ChannelSim::start` gives the `i`-th UE-side RX shard
(`ue_context->id = i + bs_thread_num`). -/
def ChannelSim.ue_rx_tid (cs : ChannelSim) (i : Nat) : Int :=
  to_int (to_size_t (i + cs.bs_thread_num))

/-- The ranges `[lo t, hi t)` of the shards `t < T` cut `[0, N)` into
consecutive pieces: they start at 0, end at `N`, each begins where the one
before ends, they are pairwise disjoint and every index below `N` is in one
of them. -/
def RangesPartition (lo hi : Int → Int) (T N : Nat) : Prop :=
  lo 0 = 0
  ∧ hi ((T - 1 : Nat) : Int) = N
  ∧ (∀ t : Nat, t < T → hi t = lo ((t : Int) + 1))
  ∧ (∀ t : Nat, t < T → 0 ≤ lo t ∧ lo t ≤ hi t ∧ hi t ≤ N)
  ∧ (∀ t1 t2 : Nat, t1 < t2 → t2 < T → hi t1 ≤ lo t2)
  ∧ (∀ x : Int, 0 ≤ x → x < N → ∃ t : Nat, t < T ∧ lo t ≤ x ∧ x < hi t)

/-- The counters of the master loop of `ChannelSim::start`.  The two RX
arrays are indexed with an `int`. -/
structure SimCounters where
  user_rx_counter_ : Int → Nat
  bs_rx_counter_ : Int → Nat
  user_tx_counter_ : Nat → Nat
  bs_tx_counter_ : Nat → Nat

/-- The counters as the constructor leaves them. -/
def SimCounters.zero : SimCounters :=
  { user_rx_counter_ := fun _ => 0
    bs_rx_counter_ := fun _ => 0
    user_tx_counter_ := fun _ => 0
    bs_tx_counter_ := fun _ => 0 }

/-- Store `v` at `a[i]` for an `int` index. -/
def store_int (a : Int → Nat) (i : Int) (v : Nat) : Int → Nat :=
  fun k => if k = i then v else a k

/-- What the master loop of `ChannelSim::start` schedules: the events it puts
on `task_queue_bs` and on `task_queue_user`, in order. -/
structure SimOut where
  task_queue_bs : List Event_data
  task_queue_user : List Event_data
deriving DecidableEq, Repr

/-- The body of the `for` loop of `ChannelSim::start` for one dequeued
event: the `switch` on the event type. -/
def ChannelSim.handle_event (cs : ChannelSim) (st : SimCounters) (event : Event_data) :
    SimCounters × SimOut :=
  match event.event_type with
  | EventType.kPacketRX =>
    let frame_id := event.tag.frame_id
    let symbol_id := event.tag.symbol_id
    if event.tag.tag_type = TagType.kUsers then
      let ul_symbol_id := to_int (cs.bscfg.get_ul_symbol_idx frame_id symbol_id)
      let frame_offset := to_int
        (to_size_t ((frame_id % cs.TASK_BUFFER_FRAME_NUM) * int_to_size_t ul_symbol_id))
      let count := to_size_t (st.user_rx_counter_ frame_offset + 1)
      if count = cs.nUEs then
        ({ st with user_rx_counter_ := store_int st.user_rx_counter_ frame_offset 0 },
         { task_queue_bs := [{ event_type := EventType.kPacketTX, tag := event.tag }]
           task_queue_user := [] })
      else
        ({ st with user_rx_counter_ := store_int st.user_rx_counter_ frame_offset count },
         { task_queue_bs := [], task_queue_user := [] })
    else if event.tag.tag_type = TagType.kAntennas then
      let dl_symbol_id := to_int (cs.bscfg.get_dl_symbol_idx frame_id symbol_id)
      let frame_offset := to_int
        (to_size_t ((frame_id % cs.TASK_BUFFER_FRAME_NUM) * int_to_size_t dl_symbol_id))
      let count := to_size_t (st.bs_rx_counter_ frame_offset + 1)
      if count = cs.numAntennas then
        ({ st with bs_rx_counter_ := store_int st.bs_rx_counter_ frame_offset 0 },
         { task_queue_bs := []
           task_queue_user := [{ event_type := EventType.kPacketTX, tag := event.tag }] })
      else
        ({ st with bs_rx_counter_ := store_int st.bs_rx_counter_ frame_offset count },
         { task_queue_bs := [], task_queue_user := [] })
    else (st, { task_queue_bs := [], task_queue_user := [] })
  | EventType.kPacketTX =>
    let offset := event.tag.frame_id % cs.TASK_BUFFER_FRAME_NUM
    if event.tag.tag_type = TagType.kUsers then
      let count := to_size_t (st.user_tx_counter_ offset + 1)
      ({ st with
          user_tx_counter_ :=
            store1 st.user_tx_counter_ offset (if count = cs.nUEs then 0 else count) },
       { task_queue_bs := [], task_queue_user := [] })
    else if event.tag.tag_type = TagType.kAntennas then
      let count := to_size_t (st.bs_tx_counter_ offset + 1)
      ({ st with
          bs_tx_counter_ :=
            store1 st.bs_tx_counter_ offset (if count = cs.numAntennas then 0 else count) },
       { task_queue_bs := [], task_queue_user := [] })
    else (st, { task_queue_bs := [], task_queue_user := [] })
  | _ => (st, { task_queue_bs := [], task_queue_user := [] })

/-- The master loop of `ChannelSim::start` over the events `events`, in the
order it dequeues them: the counters afterwards and, for each event, what
handling it scheduled. -/
def ChannelSim.handle_events (cs : ChannelSim) :
    SimCounters → List Event_data → SimCounters × List SimOut
  | st, [] => (st, [])
  | st, e :: rest =>
    let r := cs.handle_event st e
    let r2 := cs.handle_events r.1 rest
    (r2.1, r.2 :: r2.2)

/-- A call made by `ChannelSim::taskThread`. -/
inductive TxCall where
  | do_tx_bs (tid : Int) (tag : gen_tag_t)
  | do_tx_user (tid : Int) (tag : gen_tag_t)
deriving DecidableEq, Repr

/-- What an iteration of `ChannelSim::taskThread` works on: the two task
queues, oldest task first, and the local variable `event`, which
`try_dequeue` overwrites only when it succeeds. -/
structure TaskThreadState where
  task_queue_bs : List Event_data
  task_queue_user : List Event_data
  event : Event_data
deriving DecidableEq, Repr

/-- One iteration of the `while (running)` loop of `ChannelSim::taskThread`:
the state afterwards and the calls of `do_tx_bs` and `do_tx_user`, in order.
The `else` governs only the statement that dequeues from `task_queue_user`;
the call of `do_tx_user` follows the `if` statement. -/
def ChannelSim.taskThread_iteration (_cs : ChannelSim) (tid : Int) (st : TaskThreadState) :
    TaskThreadState × List TxCall :=
  match st.task_queue_bs with
  | e :: rest =>
    ({ st with task_queue_bs := rest, event := e },
     [TxCall.do_tx_bs tid e.tag, TxCall.do_tx_user tid e.tag])
  | [] =>
    match st.task_queue_user with
    | e :: rest =>
      ({ st with task_queue_user := rest, event := e }, [TxCall.do_tx_user tid e.tag])
    | [] => (st, [TxCall.do_tx_user tid st.event.tag])

/-! ## dodemul.cpp -/

/-- Modelled from the spec: `kSCsPerCacheline`, declared in a header that is
not among the sources; the specification gives its value, 8. -/
def kSCsPerCacheline : Nat := 8

/-- The fields of `Config` that `DoDemul::launch` reads to bound its loop. -/
structure DemulConfig where
  demul_block_size : Nat
  OFDM_DATA_NUM : Nat
deriving DecidableEq, Repr

/-- The value `max_sc_ite` of `DoDemul::launch`:
`std::min(cfg->demul_block_size, cfg->OFDM_DATA_NUM - base_sc_id)`, the
difference taken in `size_t`. -/
def DoDemul.max_sc_ite (cfg : DemulConfig) (base_sc_id : Nat) : Nat :=
  min cfg.demul_block_size
    (to_size_t (cfg.OFDM_DATA_NUM + (SIZE_RANGE - to_size_t base_sc_id)))

/-- The method `DoDemul::launch(tag)`: the event it returns, `none` when it
returns none.  `assertions` says whether `assert` is compiled in (no
`NDEBUG`); a failing `assert(max_sc_ite % kSCsPerCacheline == 0)` aborts.
The loop `for (i = 0; i < max_sc_ite; i += kSCsPerCacheline)` ends unless its
`size_t` counter wraps first, which takes `max_sc_ite` above
`SIZE_MAX + 1 - kSCsPerCacheline`.  The numeric work of the loops
(equalisation and demodulation into the shared buffers) does not enter the
returned event. -/
def DoDemul.launch (assertions : Bool) (cfg : DemulConfig) (tag : gen_tag_t) :
    Option Event_data :=
  let base_sc_id := tag.sc_id
  let max_sc_ite := DoDemul.max_sc_ite cfg base_sc_id
  if assertions = true ∧ max_sc_ite % kSCsPerCacheline ≠ 0 then none
  else if SIZE_RANGE - kSCsPerCacheline < max_sc_ite then none
  else some { event_type := EventType.kDemul, tag := tag }

/-! ## packageSender.cpp -/

/-- The tick budgets that `PackageSender::startTX` and
`PackageSender::loopSend_main` compute before their loops (`uint64_t`
locals). -/
structure LegacyTicks where
  ticks_5 : Nat
  ticks_100 : Nat
  ticks_200 : Nat
  ticks_500 : Nat
  ticks_all : Nat
deriving DecidableEq, Repr

/-- The tick count the master loop of `PackageSender::startTX` spins for
after the last packet of a subframe (lines 288-307), for the `int
tx_frame_count` of that moment, which counts up from 0. -/
def PackageSender.startTX_wait (t : LegacyTicks) (tx_frame_count : Nat) : Nat :=
  if tx_frame_count = 5 then t.ticks_5
  else if tx_frame_count < 100 then t.ticks_100
  else if tx_frame_count < 200 then t.ticks_200
  else if tx_frame_count < 500 then t.ticks_500
  else t.ticks_all

/-- The tick count the master loop of `PackageSender::loopSend_main` spins
for after the last packet of a subframe (lines 549-568). -/
def PackageSender.loopSend_main_wait (t : LegacyTicks) (tx_frame_count : Nat) : Nat :=
  if tx_frame_count = 5 then t.ticks_5
  else if tx_frame_count < 100 then t.ticks_100
  else if tx_frame_count < 200 then t.ticks_200
  else if tx_frame_count < 500 then t.ticks_500
  else t.ticks_all

/-- The tick budgets of a `Sender`, taken as those of the legacy loops. -/
def Sender.legacy_ticks (s : Sender) : LegacyTicks :=
  { ticks_5 := s.ticks_5
    ticks_100 := s.ticks_100
    ticks_200 := s.ticks_200
    ticks_500 := s.ticks_500
    ticks_all := s.ticks_all }

/-! ### Worker threads of the sender -/

/-- The value `ant_num_this_thread` of `Sender::worker_thread(tid)`:
`cfg->BS_ANT_NUM / thread_num + ((size_t)tid < cfg->BS_ANT_NUM % thread_num
? 1 : 0)`. -/
def Sender.ant_num_this_thread (s : Sender) (tid : Int) : Nat :=
  to_size_t (s.cfg.BS_ANT_NUM / s.thread_num
    + (if int_to_size_t tid < s.cfg.BS_ANT_NUM % s.thread_num then 1 else 0))

/-- The 3GPP list of the odd factors (and 2) of the lifting sizes, in the
order of their set index. -/
def lifting_set_factors : List Nat := [2, 3, 5, 7, 9, 11, 13, 15]

/-! ### Counters of the master thread -/

/-- Every entry of `packet_count_per_symbol` is below `BS_ANT_NUM` and every
entry of `packet_count_per_frame` is below `get_max_symbol_id()`. -/
def MasterState.counters_below (s : Sender) (st : MasterState) : Prop :=
  (∀ a b, st.packet_count_per_symbol a b < s.cfg.BS_ANT_NUM)
  ∧ (∀ a, st.packet_count_per_frame a < s.get_max_symbol_id)

/-- How one iteration may change a counter with the given target: not at
all, by `+1`, or by a reset to 0 in the iteration in which `old + 1` is the
target. -/
def counter_change (target old new : Nat) : Prop :=
  new = old ∨ new = old + 1 ∨ (new = 0 ∧ old + 1 = target)

/-- Between the states `st` and `st2` every counter changes as
`counter_change` allows. -/
def MasterState.counters_step (s : Sender) (st st2 : MasterState) : Prop :=
  (∀ a b, counter_change s.cfg.BS_ANT_NUM
      (st.packet_count_per_symbol a b) (st2.packet_count_per_symbol a b))
  ∧ (∀ a, counter_change s.get_max_symbol_id
      (st.packet_count_per_frame a) (st2.packet_count_per_frame a))

/-! ### The gather of `DoDemul::launch` -/

/-- The value `partial_transpose_block_base` of `DoDemul::launch` at the
cache-line step `i`, in `size_t` arithmetic.  `kTransposeBlockSize` is
declared in a header that is not among the sources and is a parameter here;
`BS_ANT_NUM` is `cfg->BS_ANT_NUM`. -/
def DoDemul.partial_transpose_block_base (kTransposeBlockSize BS_ANT_NUM base_sc_id i : Nat) :
    Nat :=
  to_size_t (to_size_t (base_sc_id + i) / kTransposeBlockSize
    * to_size_t (kTransposeBlockSize * BS_ANT_NUM))

/-- The index into `data_buf` that the gather without SIMD reads for the
subcarrier `base_sc_id + i + j` and the antenna `ant_i` (lines 98-100), in
`size_t` arithmetic. -/
def DoDemul.gather_index (kTransposeBlockSize BS_ANT_NUM base_sc_id i j ant_i : Nat) : Nat :=
  to_size_t
    (to_size_t
        (DoDemul.partial_transpose_block_base kTransposeBlockSize BS_ANT_NUM base_sc_id i
          + to_size_t (ant_i * kTransposeBlockSize))
      + to_size_t (to_size_t (base_sc_id + i) + j) % kTransposeBlockSize)

/-- The gather of `DoDemul::launch` when `kUseSIMDGather` is false (lines
95-102), at the cache-line step `i`: the indices into `data_buf` of the
elements stored through `*dst++`, first store first, so that entry `p` of
the list is the index of the element stored to `spm_buffer[p]`. -/
def DoDemul.gather (kTransposeBlockSize BS_ANT_NUM base_sc_id i : Nat) : List Nat :=
  for_loop kSCsPerCacheline
    (fun j dst =>
      for_loop BS_ANT_NUM
        (fun ant_i dst2 =>
          dst2 ++ [DoDemul.gather_index kTransposeBlockSize BS_ANT_NUM base_sc_id i j ant_i])
        BS_ANT_NUM 0 dst)
    kSCsPerCacheline 0 []

/-! ### The RX buffers of the channel simulator -/

/-- The element count `rx_buffer_bs_size` handed to `alloc_buffer_1d` for
`rx_buffer_bs` (lines 59-61), in `size_t` arithmetic. -/
def ChannelSim.rx_buffer_bs_size (cs : ChannelSim) : Nat :=
  to_size_t (to_size_t (to_size_t (cs.TASK_BUFFER_FRAME_NUM * cs.dl_symbol_perframe)
    * cs.numAntennas) * cs.payload_len)

/-- The element count `rx_buffer_ue_size` handed to `alloc_buffer_1d` for
`rx_buffer_ue` (lines 55-57), in `size_t` arithmetic. -/
def ChannelSim.rx_buffer_ue_size (cs : ChannelSim) : Nat :=
  to_size_t (to_size_t (to_size_t (cs.TASK_BUFFER_FRAME_NUM * cs.ul_symbol_perframe)
    * cs.nUEs) * cs.payload_len)

/-- The value `offset` that `ChannelSim::bs_rx_loop` computes for a packet
with the header `(frame_id, symbol_id, ant_id)` (lines 271-276).  The two
strides are stored in `int` variables and converted back to `size_t` in the
products. -/
def ChannelSim.bs_rx_offset (cs : ChannelSim) (frame_id symbol_id ant_id : Nat) : Nat :=
  let frame_samp_size : Int :=
    to_int (to_size_t (to_size_t (cs.payload_len * cs.numAntennas) * cs.dl_symbol_perframe))
  let symbol_samp_size : Int := to_int (to_size_t (cs.payload_len * cs.numAntennas))
  let dl_symbol_id := cs.bscfg.get_dl_symbol_idx frame_id symbol_id
  let frame_offset := frame_id % cs.TASK_BUFFER_FRAME_NUM
  to_size_t
    (to_size_t
        (to_size_t (frame_offset * int_to_size_t frame_samp_size)
          + to_size_t (dl_symbol_id * int_to_size_t symbol_samp_size))
      + to_size_t (ant_id * cs.payload_len))

/-- The position in `rx_buffer_bs`, counted in elements from its start, to
which `ChannelSim::bs_rx_loop` copies the payload of the packet:
`rx_buffer_bs + offset * payload_len` (line 277). -/
def ChannelSim.bs_rx_position (cs : ChannelSim) (frame_id symbol_id ant_id : Nat) : Nat :=
  to_size_t (cs.bs_rx_offset frame_id symbol_id ant_id * cs.payload_len)

/-- The value `total_offset_bs` of `ChannelSim::do_tx_user` for the tag of
`(frame_id, symbol_id)` (lines 407-418): where in `rx_buffer_bs` it reads the
`payload_len` by `numAntennas` samples of the symbol. -/
def ChannelSim.do_tx_user_total_offset_bs (cs : ChannelSim) (frame_id symbol_id : Nat) : Nat :=
  let sym_id := cs.bscfg.get_dl_symbol_idx frame_id symbol_id
  let frame_offset := frame_id % cs.TASK_BUFFER_FRAME_NUM
  let frame_samp_bs :=
    to_size_t (to_size_t (cs.payload_len * cs.numAntennas) * cs.dl_symbol_perframe)
  let symbol_samp_bs := to_size_t (cs.payload_len * cs.numAntennas)
  to_size_t (to_size_t (frame_offset * frame_samp_bs) + to_size_t (sym_id * symbol_samp_bs))

/-- The frame stride `frame_samp_size` of `ChannelSim::ue_rx_loop` (lines
296-297): the local `ul_symbol_perframe`, set to `ul_data_symbol_perframe`,
hides the member of that name. -/
def ChannelSim.ue_rx_frame_samp_size (cs : ChannelSim) : Nat :=
  let ul_symbol_perframe := cs.ul_data_symbol_perframe
  to_size_t (to_size_t (cs.payload_len * cs.nUEs) * ul_symbol_perframe)

/-- The symbol index `sym_id` that `ue_rx_loop` and `do_tx_bs` compute from
the configuration `cfg` they consult: the pilot index, or for a symbol that
is no pilot (`SIZE_MAX`) the uplink index after the pilots. -/
def ChannelSim.ul_sym_id (cs : ChannelSim) (cfg : SimConfig) (frame_id symbol_id : Nat) : Nat :=
  let pilot_symbol_id := cfg.get_pilot_symbol_idx frame_id symbol_id
  let ul_symbol_id := cfg.get_ul_symbol_idx frame_id symbol_id
  if pilot_symbol_id = SIZE_RANGE - 1 then to_size_t (ul_symbol_id + cs.pilot_symbol_perframe)
  else pilot_symbol_id

/-- The position in `rx_buffer_ue`, counted in elements from its start, to
which `ChannelSim::ue_rx_loop` copies the payload of the packet with the
header `(frame_id, symbol_id, ant_id)`:
`rx_buffer_ue + offset * uecfg->packet_length` (lines 321-336). -/
def ChannelSim.ue_rx_position (cs : ChannelSim) (frame_id symbol_id ant_id : Nat) : Nat :=
  let frame_samp_size := cs.ue_rx_frame_samp_size
  let symbol_samp_size := to_size_t (cs.payload_len * cs.nUEs)
  let sym_id := cs.ul_sym_id cs.uecfg frame_id symbol_id
  let frame_offset := frame_id % cs.TASK_BUFFER_FRAME_NUM
  let offset :=
    to_size_t
      (to_size_t
          (to_size_t (frame_offset * frame_samp_size) + to_size_t (sym_id * symbol_samp_size))
        + to_size_t (ant_id * cs.payload_len))
  to_size_t (offset * cs.uecfg.packet_length)

/-- The frame stride `frame_samp_ue` of `ChannelSim::do_tx_bs` (line 365),
with the member `ul_symbol_perframe`. -/
def ChannelSim.do_tx_bs_frame_samp_ue (cs : ChannelSim) : Nat :=
  to_size_t (to_size_t (cs.payload_len * cs.nUEs) * cs.ul_symbol_perframe)

/-- The value `total_offset_ue` of `ChannelSim::do_tx_bs` for the tag of
`(frame_id, symbol_id)` (lines 357-368): where in `rx_buffer_ue` it reads the
`payload_len` by `nUEs` samples of the symbol. -/
def ChannelSim.do_tx_bs_total_offset_ue (cs : ChannelSim) (frame_id symbol_id : Nat) : Nat :=
  let sym_id := cs.ul_sym_id cs.bscfg frame_id symbol_id
  let frame_offset := frame_id % cs.TASK_BUFFER_FRAME_NUM
  let frame_samp_ue := cs.do_tx_bs_frame_samp_ue
  let symbol_samp_ue := to_size_t (cs.payload_len * cs.nUEs)
  to_size_t (to_size_t (frame_offset * frame_samp_ue) + to_size_t (sym_id * symbol_samp_ue))

/-! ## Sample configurations -/

/-- A sender with 40 frame slots, 2 symbols per frame, 3 antennas and 2
worker threads. -/
def example_sender : Sender :=
  { cfg := { BS_ANT_NUM := 3, pilot_symbol_num_perframe := 1,
             data_symbol_num_perframe := 1, downlink_mode := false,
             frames_to_test := 2 }
    SOCKET_BUFFER_FRAME_NUM := 40
    kNumStatsFrames := 10000
    thread_num := 2
    enable_slow_start := true
    ticks_all := 10
    ticks_5 := 5000
    ticks_100 := 1500
    ticks_200 := 200
    ticks_500 := 100 }

/-- A downlink sender: 1 pilot symbol, 3 data symbols per frame and a budget
of 10 ticks per symbol. -/
def example_downlink_sender : Sender :=
  { example_sender with
    cfg := { example_sender.cfg with
             downlink_mode := true, data_symbol_num_perframe := 3 } }

/-- A run of `example_sender` to its end: 2 frames of 2 symbols and 3
antennas, the completions of each wave in a different order. -/
def example_run : List Completion :=
  completions_of
    [gen_tag_t.frm_sym_ant 0 0 2, gen_tag_t.frm_sym_ant 0 0 0, gen_tag_t.frm_sym_ant 0 0 1,
     gen_tag_t.frm_sym_ant 0 1 0, gen_tag_t.frm_sym_ant 0 1 1, gen_tag_t.frm_sym_ant 0 1 2,
     gen_tag_t.frm_sym_ant 1 0 1, gen_tag_t.frm_sym_ant 1 0 0, gen_tag_t.frm_sym_ant 1 0 2,
     gen_tag_t.frm_sym_ant 1 1 2, gen_tag_t.frm_sym_ant 1 1 1, gen_tag_t.frm_sym_ant 1 1 0]

/-- A run of `example_sender` to its end in which the `k`-th completion
(counted from 1) is processed under the clock readings `100 + k` for
`frame_end` and `200 + k` for `frame_start`. -/
def example_timed_run : List Completion :=
  with_times (example_run.map Completion.tag)
    ((List.range 12).map (fun k => (101 + k, 201 + k)))

/-- A source of IQ data for `example_sender`: 4 samples per packet. -/
def example_source : TxSource :=
  { getSymbolId := fun symbol_id => symbol_id
    IQ_data_coded := fun row => [row, row + 1, row + 2, row + 3]
    OFDM_FRAME_LEN := 2 }

/-- TX buffers that hold zeroes, as `calloc` leaves them. -/
def zero_buffers : Nat → Packet :=
  fun _ => { frame_id := 0, symbol_id := 0, cell_id := 0, ant_id := 0, data := [0, 0, 0, 0] }

/-- A frame schedule "PUU": symbol 0 is a pilot, symbols 1 and 2 are uplink
data symbols 0 and 1, and there is no downlink symbol. -/
def example_sim_config : SimConfig :=
  { packet_length := 80
    get_ul_symbol_idx := fun _ symbol_id => if symbol_id = 0 then 2 ^ 64 - 1 else symbol_id - 1
    get_dl_symbol_idx := fun _ _ => 2 ^ 64 - 1
    get_pilot_symbol_idx := fun _ symbol_id => if symbol_id = 0 then 0 else 2 ^ 64 - 1 }

/-- A channel simulator with one BS-side and one UE-side RX shard, one socket
on each side, 2 users and 4 antennas. -/
def example_sim : ChannelSim :=
  { bscfg := example_sim_config
    uecfg := example_sim_config
    TASK_BUFFER_FRAME_NUM := 40
    bs_thread_num := 1
    user_thread_num := 1
    bs_socket_num := 1
    user_socket_num := 1
    numAntennas := 4
    nUEs := 2
    dl_symbol_perframe := 0
    ul_data_symbol_perframe := 2
    pilot_symbol_perframe := 1
    ul_symbol_perframe := 3
    payload_len := 64 }

/-- A channel simulator with 3 BS-side RX shards for 7 sockets. -/
def example_sim_three_shards : ChannelSim :=
  { example_sim with bs_thread_num := 3, bs_socket_num := 7 }

/-- A frame schedule "PD": symbol 0 is a pilot and symbol 1 is downlink
symbol 0. -/
def example_downlink_sim_config : SimConfig :=
  { packet_length := 80
    get_ul_symbol_idx := fun _ _ => 2 ^ 64 - 1
    get_dl_symbol_idx := fun _ symbol_id => if symbol_id = 1 then 0 else 2 ^ 64 - 1
    get_pilot_symbol_idx := fun _ symbol_id => if symbol_id = 0 then 0 else 2 ^ 64 - 1 }

/-- A channel simulator with 40 frame slots, one downlink symbol per frame,
4 antennas, 2 users and payloads of 64 elements. -/
def example_downlink_sim : ChannelSim :=
  { example_sim with
    bscfg := example_downlink_sim_config
    uecfg := example_downlink_sim_config
    dl_symbol_perframe := 1
    ul_data_symbol_perframe := 0
    ul_symbol_perframe := 1 }

/-! ## Proofs -/

theorem window_add (b : Nat → Nat) (p n k : Nat) :
    window b p (n + k) = window b p n * 2 ^ k + window b (p + n) k := by
  induction k with
  | zero => simp [window]
  | succ k ih =>
    rw [← Nat.add_assoc, window, ih, window, pow_succ, Nat.add_assoc p n k]
    ring

theorem window_lt (b : Nat → Nat) (hb : ∀ n, b n < 2) (p n : Nat) :
    window b p n < 2 ^ n := by
  induction n with
  | zero => simp [window]
  | succ n ih =>
    have := hb (p + n)
    rw [window, pow_succ]
    omega

theorem window_congr (b c : Nat → Nat) (p q n : Nat)
    (h : ∀ t, t < n → b (p + t) = c (q + t)) : window b p n = window c q n := by
  induction n with
  | zero => simp [window]
  | succ n ih =>
    rw [window, window, ih (fun t ht => h t (by omega)), h n (by omega)]

theorem window_eq_sum (b : Nat → Nat) (p n : Nat) :
    window b p n = ∑ t in Finset.range n, b (p + t) * 2 ^ (n - 1 - t) := by
  induction n with
  | zero => simp [window]
  | succ n ih =>
    rw [window, ih, Finset.sum_range_succ, Finset.mul_sum]
    congr 1
    · apply Finset.sum_congr rfl
      intro t ht
      have ht2 : t < n := Finset.mem_range.mp ht
      have : n + 1 - 1 - t = (n - 1 - t) + 1 := by omega
      rw [this, pow_succ]
      ring
    · simp

set_option maxRecDepth 100000 in
theorem bitreverse8_window_small :
    ∀ x < 256, bitreverse8 x = window (fun t => x / 2 ^ t % 2) 0 8 := by
  decide

theorem bitreverse8_window (x : Nat) :
    bitreverse8 x = window (fun t => to_uint8 x / 2 ^ t % 2) 0 8 := by
  have h : to_uint8 x < 256 := Nat.mod_lt _ (by norm_num)
  have h2 : bitreverse8 x = bitreverse8 (to_uint8 x) := by
    simp [bitreverse8, to_uint8]
  rw [h2]
  exact bitreverse8_window_small _ h

theorem bitreverse8_lt (x : Nat) : bitreverse8 x < 256 := by
  unfold bitreverse8 to_uint8
  exact Nat.mod_lt _ (by norm_num)

/-- Shifting the accumulator right by `16 - m` yields its top `m`-bit field. -/
theorem acc_shift_right (A W m r : Nat) (hW : W < 2 ^ r) (h : m + r ≤ 16) :
    ((A * 2 ^ r + W) * 2 ^ (16 - (m + r))) >>> (16 - m) = A := by
  have e : 16 - m = r + (16 - (m + r)) := by omega
  rw [Nat.shiftRight_eq_div_pow, e, pow_add,
    Nat.mul_div_mul_right _ _ (Nat.pos_pow_of_pos _ (by norm_num)),
    Nat.mul_comm A, Nat.mul_add_div (Nat.pos_pow_of_pos _ (by norm_num)),
    Nat.div_eq_of_lt hW]
  rfl

/-- Shifting the accumulator left by `m` drops its top `m`-bit field. -/
theorem acc_shift_left (A W m r : Nat) (hW : W < 2 ^ r) (h : m + r ≤ 16) :
    to_uint16 (((A * 2 ^ r + W) * 2 ^ (16 - (m + r))) <<< m) = W * 2 ^ (16 - r) := by
  have e : 16 - r = (16 - (m + r)) + m := by omega
  have e16 : (2 : Nat) ^ 16 = 2 ^ r * 2 ^ (16 - r) := by
    rw [← pow_add]; congr 1; omega
  have hlt : W * 2 ^ (16 - r) < 2 ^ 16 := by
    rw [e16]
    exact Nat.mul_lt_mul_of_pos_right hW (Nat.pos_pow_of_pos _ (by norm_num))
  unfold to_uint16
  rw [Nat.shiftLeft_eq, Nat.mul_assoc, ← pow_add, ← e, Nat.add_mul, Nat.mul_assoc, ← e16,
    Nat.add_comm, Nat.add_mul_mod_self_right, Nat.mod_eq_of_lt hlt]

/-- Or-ing a byte below the pending bits of the accumulator appends its bits. -/
theorem acc_or_byte (P R a : Nat) (hR : R < 2 ^ 8) (hP : P < 2 ^ a) (ha : a ≤ 8) :
    to_uint16 ((P * 2 ^ (16 - a)) ||| (R <<< (8 - a)))
      = (P * 2 ^ 8 + R) * 2 ^ (16 - (a + 8)) := by
  have e : 16 - a = (8 - a) + 8 := by omega
  have e2 : 16 - (a + 8) = 8 - a := by omega
  have hpos : 0 < 2 ^ (8 - a) := Nat.pos_pow_of_pos _ (by norm_num)
  have hlt : R * 2 ^ (8 - a) < 2 ^ (16 - a) := by
    rw [e, pow_add, Nat.mul_comm (2 ^ (8 - a))]
    exact Nat.mul_lt_mul_of_pos_right hR hpos
  have hor : (P * 2 ^ (16 - a)) ||| (R <<< (8 - a)) = P * 2 ^ (16 - a) + R * 2 ^ (8 - a) := by
    rw [Nat.shiftLeft_eq, Nat.mul_comm P, ← Nat.mul_add_lt_is_or hlt]
  have hval : P * 2 ^ (16 - a) + R * 2 ^ (8 - a) = (P * 2 ^ 8 + R) * 2 ^ (8 - a) := by
    rw [e, pow_add]; ring
  have htot : (P * 2 ^ 8 + R) * 2 ^ (8 - a) < 2 ^ 16 := by
    have h1 : P * 2 ^ 8 + R < 2 ^ a * 2 ^ 8 := by
      have : (P + 1) * 2 ^ 8 ≤ 2 ^ a * 2 ^ 8 := Nat.mul_le_mul_right _ hP
      omega
    have h2 : (2 : Nat) ^ 16 = (2 ^ a * 2 ^ 8) * 2 ^ (8 - a) := by
      rw [← pow_add, ← pow_add]; congr 1; omega
    rw [h2]
    exact Nat.mul_lt_mul_of_pos_right h1 hpos
  unfold to_uint16
  rw [hor, hval, e2, Nat.mod_eq_of_lt htot]

/-- The inner loop emits the complete `m`-bit fields among the pending bits. -/
theorem adapt_while_spec (b : Nat → Nat) (hb : ∀ n, b n < 2) (m : Nat)
    (hm1 : 1 ≤ m) (hm8 : m ≤ 8) :
    ∀ (a p : Nat) (out : List Nat), a ≤ 16 →
      adapt_while m (acc_of b p a out)
        = some (acc_of b (p + a / m * m) (a % m)
            (out ++ (List.range (a / m)).map (fun k => window b (p + k * m) m))) := by
  intro a
  induction a using Nat.strong_induction_on with
  | _ a ih =>
    intro p out ha
    rw [adapt_while]
    by_cases hlt : m ≤ a
    · have hr : a = m + (a - m) := by omega
      have hW := window_lt b hb (p + m) (a - m)
      have hA := window_lt b hb p m
      have hA8 : window b p m < 2 ^ 8 :=
        lt_of_lt_of_le hA (Nat.pow_le_pow_right (by norm_num) hm8)
      have hbits : (acc_of b p a out).bits
          = (window b p m * 2 ^ (a - m) + window b (p + m) (a - m))
              * 2 ^ (16 - (m + (a - m))) := by
        show window b p a * 2 ^ (16 - a) = _
        rw [← window_add, ← hr]
      have hnot : ¬ (m = 0 ∨ 16 < m) := by omega
      have hq : a / m = (a - m) / m + 1 := by
        conv_lhs => rw [hr]
        rw [Nat.add_div_left _ (by omega)]
      have hmod : a % m = (a - m) % m := by
        conv_lhs => rw [hr]
        rw [Nat.add_mod_left]
      simp only [show (acc_of b p a out).bits_avail = a from rfl, hlt, if_true, hnot, if_false,
        show (acc_of b p a out).vec_out = out from rfl]
      rw [hbits, acc_shift_left _ _ _ _ hW (by omega), acc_shift_right _ _ _ _ hW (by omega)]
      have hu8 : to_uint8 (window b p m) = window b p m := Nat.mod_eq_of_lt hA8
      rw [hu8]
      have key := ih (a - m) (by omega) (p + m) (out ++ [window b p m]) (by omega)
      have hpos : p + m + (a - m) / m * m = p + ((a - m) / m + 1) * m := by ring
      have hlist : out ++ [window b p m]
            ++ (List.range ((a - m) / m)).map (fun k => window b (p + m + k * m) m)
          = out ++ (List.range ((a - m) / m + 1)).map (fun k => window b (p + k * m) m) := by
        have h0 : window b (p + 0 * m) m = window b p m := by simp
        have hmap : (List.range ((a - m) / m)).map (fun k => window b (p + m + k * m) m)
            = (List.range ((a - m) / m)).map
                ((fun k => window b (p + k * m) m) ∘ Nat.succ) := by
          apply List.map_congr_left
          intro k _
          have hk : p + m + k * m = p + (k + 1) * m := by ring
          simp only [Function.comp, Nat.succ_eq_add_one, hk]
        rw [List.range_succ_eq_map, List.map_cons, List.map_map, List.append_assoc, h0, hmap]
        rfl
      unfold acc_of at key
      rw [key, hq, hmod, hpos, hlist]
      rfl
    · have hq : a / m = 0 := Nat.div_eq_of_lt (by omega)
      have hmod : a % m = a := Nat.mod_eq_of_lt (by omega)
      simp only [show (acc_of b p a out).bits_avail = a from rfl, hlt, if_false]
      rw [hq, hmod]
      simp

theorem input_bit_lt (vec_in : List Nat) (n : Nat) : input_bit vec_in n < 2 :=
  Nat.mod_lt _ (by norm_num)

/-- The outer loop emits the complete `m`-bit fields of the pending bits
followed by the bits of the bytes still to be read. -/
theorem adapt_for_spec (b : Nat → Nat) (hb : ∀ n, b n < 2) (m : Nat)
    (hm1 : 1 ≤ m) (hm8 : m ≤ 8) :
    ∀ (xs : List Nat) (i p a : Nat) (out : List Nat),
      p + a = 8 * i → a < m →
      (∀ j, j < xs.length → ∀ t, t < 8 →
        b (8 * (i + j) + t) = to_uint8 (xs.getD j 0) / 2 ^ t % 2) →
      adapt_for m xs (acc_of b p a out)
        = some (acc_of b (p + (a + 8 * xs.length) / m * m) ((a + 8 * xs.length) % m)
            (out ++ (List.range ((a + 8 * xs.length) / m)).map
              (fun k => window b (p + k * m) m))) := by
  intro xs
  induction xs with
  | nil =>
    intro i p a out _ ha _
    have hq : a / m = 0 := Nat.div_eq_of_lt ha
    have hmod : a % m = a := Nat.mod_eq_of_lt ha
    simp [adapt_for, hq, hmod]
  | cons x rest ih =>
    intro i p a out hpa ha hbits
    have ha8 : ¬ 8 < a := by omega
    have hR : bitreverse8 x = window b (p + a) 8 := by
      rw [bitreverse8_window]
      apply window_congr
      intro t ht
      have := hbits 0 (by simp) t ht
      simp only [List.getD_cons_zero, Nat.add_zero] at this
      rw [Nat.zero_add, hpa, this]
    have hstep : ({ bits := to_uint16 ((acc_of b p a out).bits
                      ||| (bitreverse8 x <<< (8 - (acc_of b p a out).bits_avail)))
                    bits_avail := (acc_of b p a out).bits_avail + 8
                    vec_out := (acc_of b p a out).vec_out } : AdaptState)
        = acc_of b p (a + 8) out := by
      show ({ bits := to_uint16 ((window b p a * 2 ^ (16 - a)) ||| (bitreverse8 x <<< (8 - a)))
              bits_avail := a + 8, vec_out := out } : AdaptState) = _
      rw [acc_or_byte _ _ _ (bitreverse8_lt x) (window_lt b hb p a) (by omega), hR,
        ← window_add]
      rfl
    rw [adapt_for]
    simp only [show (acc_of b p a out).bits_avail = a from rfl, ha8, if_false]
    have hst := hstep
    simp only [show (acc_of b p a out).bits_avail = a from rfl] at hst
    rw [hst, adapt_while_spec b hb m hm1 hm8 (a + 8) p out (by omega)]
    simp only []
    have hdm := Nat.div_add_mod (a + 8) m
    have hlen : (x :: rest).length = rest.length + 1 := rfl
    have hsum : a + 8 * (x :: rest).length = (a + 8) / m * m + ((a + 8) % m + 8 * rest.length) := by
      rw [hlen, Nat.mul_comm ((a + 8) / m)]
      omega
    have hq : (a + 8 * (x :: rest).length) / m
        = (a + 8) / m + ((a + 8) % m + 8 * rest.length) / m := by
      rw [hsum, Nat.add_comm, Nat.add_mul_div_right _ _ (by omega), Nat.add_comm]
    have hmod : (a + 8 * (x :: rest).length) % m = ((a + 8) % m + 8 * rest.length) % m := by
      rw [hsum, Nat.add_comm, Nat.add_mul_mod_self_right]
    have key := ih (i + 1) (p + (a + 8) / m * m) ((a + 8) % m)
      (out ++ (List.range ((a + 8) / m)).map (fun k => window b (p + k * m) m))
      (by rw [Nat.mul_comm ((a + 8) / m)]; omega)
      (Nat.mod_lt _ (by omega))
      (by
        intro j hj t ht
        have := hbits (j + 1) (by simp [hj]) t ht
        simp only [List.getD_cons_succ] at this
        rw [← this]
        congr 1
        omega)
    rw [key, hq, hmod, List.range_add, List.map_append, List.map_map, List.append_assoc,
      Nat.add_mul, Nat.add_assoc p]
    congr 3
    apply congrArg
    apply List.map_congr_left
    intro k _
    have hk : p + (a + 8) / m * m + k * m = p + ((a + 8) / m + k) * m := by ring
    simp only [Function.comp, hk]

/-- The bytes `adapt_bits_for_mod` writes: the `8 * len / m` consecutive
`m`-bit fields of the input bit stream. -/
theorem adapt_bits_for_mod_eq (m : Nat) (hm1 : 1 ≤ m) (hm8 : m ≤ 8)
    (vec_in : List Nat) (len : Nat) (hlen : vec_in.length = len) :
    adapt_bits_for_mod vec_in len m
      = some ((List.range (8 * len / m)).map
          (fun k => window (input_bit vec_in) (k * m) m)) := by
  unfold adapt_bits_for_mod
  have h1 : ¬ vec_in.length < len := by omega
  have h2 : vec_in.take len = vec_in := by rw [← hlen]; exact List.take_length vec_in
  have h3 : (⟨0, 0, []⟩ : AdaptState) = acc_of (input_bit vec_in) 0 0 [] := by
    simp [acc_of, window]
  rw [if_neg h1, h2, h3,
    adapt_for_spec (input_bit vec_in) (input_bit_lt vec_in) m hm1 hm8 vec_in 0 0 0 []
      rfl (by omega) (by
        intro j _ t ht
        unfold input_bit
        have e1 : (8 * (0 + j) + t) / 8 = j := by omega
        have e2 : (8 * (0 + j) + t) % 8 = t := by omega
        rw [e1, e2])]
  simp [acc_of, hlen]

/-! ## Claims on the data generator -/

/-- C1: for every `Zc`, `select_base_matrix_entry Zc` is the value paired with
the first divisor of `Zc` in the ordered list 15->7, 13->6, 11->5, 9->4, 7->3,
5->2, 3->1, and 0 when none of them divides `Zc`; it returns 7, 6, 5, 4, 3, 2,
1, 0 for `Zc` = 15, 13, 11, 9, 7, 5, 3, 2, and 7 for 30, 6 for 26, 0 for 16. -/
theorem select_base_matrix_entry_first_divisor (Zc : Nat) :
    select_base_matrix_entry Zc = first_divisor_entry Zc
    ∧ (List.map select_base_matrix_entry [15, 13, 11, 9, 7, 5, 3, 2]
        = [7, 6, 5, 4, 3, 2, 1, 0])
    ∧ select_base_matrix_entry 30 = 7
    ∧ select_base_matrix_entry 26 = 6
    ∧ select_base_matrix_entry 16 = 0 := by
  refine ⟨?_, by decide, by decide, by decide, by decide⟩
  unfold select_base_matrix_entry first_divisor_entry base_matrix_table
  split_ifs <;> simp [List.find?, *]

theorem mbit_field_eq_window (vec_in : List Nat) (m k : Nat) :
    mbit_field vec_in m k = window (input_bit vec_in) (k * m) m := by
  rw [window_eq_sum]
  rfl

theorem window_byte (vec_in : List Nat) (k : Nat) :
    window (input_bit vec_in) (k * 8) 8 = bitreverse8 (vec_in.getD k 0) := by
  rw [bitreverse8_window]
  apply window_congr
  intro t ht
  unfold input_bit
  have e1 : (k * 8 + t) / 8 = k := by omega
  have e2 : (k * 8 + t) % 8 = t := by omega
  rw [e1, e2, Nat.zero_add]

/-- C2: for `1 ≤ m ≤ 8`, a byte array `vec_in` of length `len` and
`k < 8 * len / m`, the call `adapt_bits_for_mod vec_in len m` returns, and the
`k`-th byte it writes is the `m`-bit field
`∑ t < m, b (k*m + t) * 2 ^ (m-1-t)` of the input bits `b`, where `b n` is
bit `n % 8` (from the least significant) of `vec_in[n / 8]`; for `m = 8` this
is the bit-reversed `k`-th input byte. -/
theorem adapt_bits_for_mod_field (m : Nat) (hm1 : 1 ≤ m) (hm8 : m ≤ 8)
    (vec_in : List Nat) (len : Nat) (hlen : vec_in.length = len)
    (k : Nat) (hk : k < 8 * len / m) :
    ∃ out, adapt_bits_for_mod vec_in len m = some out
      ∧ out[k]? = some (mbit_field vec_in m k)
      ∧ (m = 8 → out[k]? = some (bitreverse8 (vec_in.getD k 0))) := by
  refine ⟨_, adapt_bits_for_mod_eq m hm1 hm8 vec_in len hlen, ?_, ?_⟩
  · rw [List.getElem?_map, List.getElem?_range hk, mbit_field_eq_window]
    rfl
  · intro h8
    subst h8
    rw [List.getElem?_map, List.getElem?_range hk, ← window_byte]
    rfl

/-- Witness of C2: three input bytes cut into 4-bit fields, third field. -/
theorem adapt_bits_for_mod_field_witness :
    (1 ≤ 4 ∧ 4 ≤ 8 ∧ [1, 255, 165].length = 3 ∧ 2 < 8 * 3 / 4)
    ∧ ∃ out, adapt_bits_for_mod [1, 255, 165] 3 4 = some out
      ∧ out[2]? = some (mbit_field [1, 255, 165] 4 2)
      ∧ (4 = 8 → out[2]? = some (bitreverse8 ([1, 255, 165].getD 2 0))) :=
  ⟨by decide, adapt_bits_for_mod_field 4 (by decide) (by decide) [1, 255, 165] 3 rfl 2
    (by decide)⟩

/-- C3: for `1 ≤ m ≤ 8` and every `len`, `adapt_bits_for_mod` on `len` input
bytes returns and writes exactly `8 * len / m` bytes, one after the other from
`vec_out[0]` on; nothing is stored past that many entries. -/
theorem adapt_bits_for_mod_length (m : Nat) (hm1 : 1 ≤ m) (hm8 : m ≤ 8)
    (vec_in : List Nat) (len : Nat) (hlen : vec_in.length = len) :
    ∃ out, adapt_bits_for_mod vec_in len m = some out ∧ out.length = 8 * len / m := by
  refine ⟨_, adapt_bits_for_mod_eq m hm1 hm8 vec_in len hlen, ?_⟩
  simp

/-- Witness of C3: three input bytes, 6-bit fields, four bytes written. -/
theorem adapt_bits_for_mod_length_witness :
    (1 ≤ 6 ∧ 6 ≤ 8 ∧ [1, 255, 165].length = 3)
    ∧ ∃ out, adapt_bits_for_mod [1, 255, 165] 3 6 = some out ∧ out.length = 8 * 3 / 6 :=
  ⟨by decide, adapt_bits_for_mod_length 6 (by decide) (by decide) [1, 255, 165] 3 rfl⟩


/-! ## Claims on the sender's buffer index -/

theorem tag_to_tx_buffers_index_mod (s : Sender) (tag : gen_tag_t) :
    s.tag_to_tx_buffers_index tag
      = to_size_t (canonical_offset s.SOCKET_BUFFER_FRAME_NUM s.get_max_symbol_id
          s.cfg.BS_ANT_NUM tag.frame_id tag.symbol_id tag.ant_id) := by
  unfold Sender.tag_to_tx_buffers_index canonical_offset to_size_t
  simp only [Nat.mod_add_mod, Nat.add_mod_mod, Nat.mul_mod_mod, Nat.mod_mul_mod]
  congr 1
  ring

theorem canonical_offset_lt (F S D f sym el : Nat) (hF : 0 < F) (hs : sym < S)
    (he : el < D) : canonical_offset F S D f sym el < F * S * D := by
  unfold canonical_offset
  have h1 : f % F < F := Nat.mod_lt _ hF
  have h2 : f % F * S + sym + 1 ≤ F * S := by
    have : (f % F + 1) * S ≤ F * S := Nat.mul_le_mul_right _ h1
    rw [Nat.add_mul] at this
    omega
  have h3 : (f % F * S + sym + 1) * D ≤ F * S * D := Nat.mul_le_mul_right _ h2
  rw [Nat.add_mul] at h3
  omega

theorem canonical_offset_inj (F S D f1 s1 e1 f2 s2 e2 : Nat)
    (hs1 : s1 < S) (he1 : e1 < D) (hs2 : s2 < S) (he2 : e2 < D) :
    canonical_offset F S D f1 s1 e1 = canonical_offset F S D f2 s2 e2
      ↔ (f1 % F = f2 % F ∧ s1 = s2 ∧ e1 = e2) := by
  unfold canonical_offset
  constructor
  · intro h
    have hD : 0 < D := by omega
    have hS : 0 < S := by omega
    have hm := congrArg (· % D) h
    simp only [Nat.add_comm _ e1, Nat.add_comm _ e2, Nat.add_mul_mod_self_right,
      Nat.mod_eq_of_lt he1, Nat.mod_eq_of_lt he2] at hm
    have hd := congrArg (· / D) h
    simp only [Nat.add_comm _ e1, Nat.add_comm _ e2, Nat.add_mul_div_right _ _ hD,
      Nat.div_eq_of_lt he1, Nat.div_eq_of_lt he2, Nat.zero_add] at hd
    have hm2 := congrArg (· % S) hd
    simp only [Nat.add_comm _ s1, Nat.add_comm _ s2, Nat.add_mul_mod_self_right,
      Nat.mod_eq_of_lt hs1, Nat.mod_eq_of_lt hs2] at hm2
    have hd2 := congrArg (· / S) hd
    simp only [Nat.add_comm _ s1, Nat.add_comm _ s2, Nat.add_mul_div_right _ _ hS,
      Nat.div_eq_of_lt hs1, Nat.div_eq_of_lt hs2, Nat.zero_add] at hd2
    exact ⟨hd2, hm2, hm⟩
  · rintro ⟨h1, h2, h3⟩
    rw [h1, h2, h3]

/-- C4: for every tag, `tag_to_tx_buffers_index tag` is the canonical
frame-slot offset `((tag.frame_id mod F) * S + tag.symbol_id) * D + tag.ant_id`
with `F = SOCKET_BUFFER_FRAME_NUM`, `S = get_max_symbol_id()` and
`D = BS_ANT_NUM`, as a `size_t`: equal modulo `2 ^ 64` always, and equal
outright whenever the offset is below `2 ^ 64`. -/
theorem tag_to_tx_buffers_index_canonical (s : Sender) (tag : gen_tag_t) :
    s.tag_to_tx_buffers_index tag
      = (((tag.frame_id % s.SOCKET_BUFFER_FRAME_NUM) * s.get_max_symbol_id
            + tag.symbol_id) * s.cfg.BS_ANT_NUM + tag.ant_id) % 2 ^ 64
    ∧ ((((tag.frame_id % s.SOCKET_BUFFER_FRAME_NUM) * s.get_max_symbol_id
            + tag.symbol_id) * s.cfg.BS_ANT_NUM + tag.ant_id) < 2 ^ 64 →
        s.tag_to_tx_buffers_index tag
          = ((tag.frame_id % s.SOCKET_BUFFER_FRAME_NUM) * s.get_max_symbol_id
              + tag.symbol_id) * s.cfg.BS_ANT_NUM + tag.ant_id) := by
  have h := tag_to_tx_buffers_index_mod s tag
  unfold canonical_offset to_size_t SIZE_RANGE at h
  exact ⟨h, fun hlt => by rw [h, Nat.mod_eq_of_lt hlt]⟩

/-- Witness of C4: frame 41, symbol 1, antenna 2 lands at offset 11. -/
theorem tag_to_tx_buffers_index_canonical_witness :
    example_sender.tag_to_tx_buffers_index ⟨41, 1, 2, TagType.kAntennas⟩ = 11 :=
  ((tag_to_tx_buffers_index_canonical example_sender ⟨41, 1, 2, TagType.kAntennas⟩).2
    (by decide)).trans (by decide)

/-- C5: for every tag with `symbol_id < get_max_symbol_id()` and
`ant_id < BS_ANT_NUM` (any `frame_id`), `tag_to_tx_buffers_index tag` is
strictly below `SOCKET_BUFFER_FRAME_NUM * get_max_symbol_id() * BS_ANT_NUM`;
that product is the number of rows the constructor allocates for
`tx_buffers_` (it is, as soon as it fits a `size_t`), so the lookup is in
range.  The constant `SOCKET_BUFFER_FRAME_NUM` is positive. -/
theorem tag_to_tx_buffers_index_in_range (s : Sender) (tag : gen_tag_t)
    (hF : 0 < s.SOCKET_BUFFER_FRAME_NUM)
    (hsym : tag.symbol_id < s.get_max_symbol_id)
    (hant : tag.ant_id < s.cfg.BS_ANT_NUM) :
    s.tag_to_tx_buffers_index tag
      < s.SOCKET_BUFFER_FRAME_NUM * s.get_max_symbol_id * s.cfg.BS_ANT_NUM
    ∧ (s.SOCKET_BUFFER_FRAME_NUM * s.get_max_symbol_id * s.cfg.BS_ANT_NUM < 2 ^ 64 →
        s.tx_buffers_rows
            = s.SOCKET_BUFFER_FRAME_NUM * s.get_max_symbol_id * s.cfg.BS_ANT_NUM
          ∧ s.tag_to_tx_buffers_index tag < s.tx_buffers_rows) := by
  have hlt := canonical_offset_lt s.SOCKET_BUFFER_FRAME_NUM s.get_max_symbol_id
    s.cfg.BS_ANT_NUM tag.frame_id tag.symbol_id tag.ant_id hF hsym hant
  have hidx : s.tag_to_tx_buffers_index tag
      < s.SOCKET_BUFFER_FRAME_NUM * s.get_max_symbol_id * s.cfg.BS_ANT_NUM := by
    rw [tag_to_tx_buffers_index_mod]
    exact lt_of_le_of_lt (Nat.mod_le _ _) hlt
  refine ⟨hidx, fun hfit => ?_⟩
  have hrows : s.tx_buffers_rows
      = s.SOCKET_BUFFER_FRAME_NUM * s.get_max_symbol_id * s.cfg.BS_ANT_NUM := by
    unfold Sender.tx_buffers_rows to_size_t SIZE_RANGE
    rw [Nat.mod_mul_mod, Nat.mod_eq_of_lt hfit]
  exact ⟨hrows, by rw [hrows]; exact hidx⟩

/-- Witness of C5: frame 41, symbol 1, antenna 2 in a buffer of 240 rows. -/
theorem tag_to_tx_buffers_index_in_range_witness :
    example_sender.tag_to_tx_buffers_index ⟨41, 1, 2, TagType.kAntennas⟩ < 40 * 2 * 3
    ∧ example_sender.tx_buffers_rows = 40 * 2 * 3 :=
  have h := tag_to_tx_buffers_index_in_range example_sender ⟨41, 1, 2, TagType.kAntennas⟩
    (by decide) (by decide) (by decide)
  ⟨h.1, (h.2 (by decide)).1⟩

/-- C6: when the row count `F * S * D` of `tx_buffers_` fits a `size_t` (with
`F = SOCKET_BUFFER_FRAME_NUM > 0`), two tags whose `symbol_id` is below
`S = get_max_symbol_id()` and whose `ant_id` is below `D = BS_ANT_NUM` have the
same `tag_to_tx_buffers_index` if and only if they agree in
`(frame_id mod F, symbol_id, ant_id)`: tasks that differ in slot, symbol or
antenna never address the same TX buffer. -/
theorem tag_to_tx_buffers_index_eq_iff (s : Sender) (t1 t2 : gen_tag_t)
    (hF : 0 < s.SOCKET_BUFFER_FRAME_NUM)
    (hfit : s.SOCKET_BUFFER_FRAME_NUM * s.get_max_symbol_id * s.cfg.BS_ANT_NUM ≤ 2 ^ 64)
    (hs1 : t1.symbol_id < s.get_max_symbol_id) (ha1 : t1.ant_id < s.cfg.BS_ANT_NUM)
    (hs2 : t2.symbol_id < s.get_max_symbol_id) (ha2 : t2.ant_id < s.cfg.BS_ANT_NUM) :
    s.tag_to_tx_buffers_index t1 = s.tag_to_tx_buffers_index t2
      ↔ (t1.frame_id % s.SOCKET_BUFFER_FRAME_NUM, t1.symbol_id, t1.ant_id)
          = (t2.frame_id % s.SOCKET_BUFFER_FRAME_NUM, t2.symbol_id, t2.ant_id) := by
  have e1 : s.tag_to_tx_buffers_index t1
      = canonical_offset s.SOCKET_BUFFER_FRAME_NUM s.get_max_symbol_id s.cfg.BS_ANT_NUM
          t1.frame_id t1.symbol_id t1.ant_id := by
    rw [tag_to_tx_buffers_index_mod]
    exact Nat.mod_eq_of_lt (lt_of_lt_of_le (canonical_offset_lt _ _ _ _ _ _ hF hs1 ha1) hfit)
  have e2 : s.tag_to_tx_buffers_index t2
      = canonical_offset s.SOCKET_BUFFER_FRAME_NUM s.get_max_symbol_id s.cfg.BS_ANT_NUM
          t2.frame_id t2.symbol_id t2.ant_id := by
    rw [tag_to_tx_buffers_index_mod]
    exact Nat.mod_eq_of_lt (lt_of_lt_of_le (canonical_offset_lt _ _ _ _ _ _ hF hs2 ha2) hfit)
  rw [e1, e2, canonical_offset_inj _ _ _ _ _ _ _ _ _ hs1 ha1 hs2 ha2]
  simp only [Prod.mk.injEq]

/-- Witness of C6: frames 1 and 41 share slot 1, so equal symbol and antenna
give the same buffer. -/
theorem tag_to_tx_buffers_index_eq_iff_witness :
    example_sender.tag_to_tx_buffers_index ⟨1, 1, 2, TagType.kAntennas⟩
      = example_sender.tag_to_tx_buffers_index ⟨41, 1, 2, TagType.kAntennas⟩ :=
  (tag_to_tx_buffers_index_eq_iff example_sender ⟨1, 1, 2, TagType.kAntennas⟩
    ⟨41, 1, 2, TagType.kAntennas⟩ (by decide) (by decide) (by decide) (by decide)
    (by decide) (by decide)).mpr (by decide)


/-! ## Claims on the sender's pacing -/

/-- C7: the tick budget `delay_for_symbol n` waits for.  With
`enable_slow_start` set it is `ticks_5` for `n ≤ 5`, else `ticks_100` for
`n < 100`, else `ticks_200` for `n < 200`, else `ticks_500` for `n < 500`,
else `ticks_all`; without it, always `ticks_all`.  So frames 0..5 use
`ticks_5`, frame 99 uses `ticks_100` and frame 100 uses `ticks_200`. -/
theorem delay_for_symbol_schedule (s : Sender) (n : Nat) :
    (s.enable_slow_start = true →
      (n ≤ 5 → s.delay_for_symbol n = s.ticks_5)
      ∧ (5 < n → n < 100 → s.delay_for_symbol n = s.ticks_100)
      ∧ (100 ≤ n → n < 200 → s.delay_for_symbol n = s.ticks_200)
      ∧ (200 ≤ n → n < 500 → s.delay_for_symbol n = s.ticks_500)
      ∧ (500 ≤ n → s.delay_for_symbol n = s.ticks_all)
      ∧ (∀ k, k ≤ 5 → s.delay_for_symbol k = s.ticks_5)
      ∧ s.delay_for_symbol 99 = s.ticks_100
      ∧ s.delay_for_symbol 100 = s.ticks_200)
    ∧ (s.enable_slow_start = false → s.delay_for_symbol n = s.ticks_all) := by
  constructor
  · intro h
    simp only [Sender.delay_for_symbol, h, if_true]
    refine ⟨?_, ?_, ?_, ?_, ?_, ?_, ?_, ?_⟩
    · intro h1; simp [h1]
    · intro h1 h2
      rw [if_neg (by omega), if_pos h2]
    · intro h1 h2
      rw [if_neg (by omega), if_neg (by omega), if_pos h2]
    · intro h1 h2
      rw [if_neg (by omega), if_neg (by omega), if_neg (by omega), if_pos h2]
    · intro h1
      rw [if_neg (by omega), if_neg (by omega), if_neg (by omega), if_neg (by omega)]
    · intro k hk; simp [hk]
    · simp
    · simp
  · intro h
    simp [Sender.delay_for_symbol, h]

/-- Witness of C7: with slow start, frame 150 waits `ticks_200`. -/
theorem delay_for_symbol_schedule_witness :
    (example_sender.enable_slow_start = true ∧ 100 ≤ 150 ∧ 150 < 200)
    ∧ example_sender.delay_for_symbol 150 = example_sender.ticks_200 :=
  ⟨by decide,
    ((delay_for_symbol_schedule example_sender 150).1 (by decide)).2.2.1
      (by decide) (by decide)⟩

/-- C8: the tick budget `delay_for_frame n` waits for, in 64-bit unsigned
arithmetic: `2 * data_symbol_num_perframe * ticks_all` in downlink mode when
`n < 500`, `data_symbol_num_perframe * ticks_all` in downlink mode when
`n ≥ 500`, and no wait at all outside downlink mode.  The products are the
mathematical ones whenever those fit 64 bits. -/
theorem delay_for_frame_budget (s : Sender) (n : Nat) :
    (s.cfg.downlink_mode = true → n < 500 →
      s.delay_for_frame n
          = some ((2 * s.cfg.data_symbol_num_perframe * s.ticks_all) % 2 ^ 64)
      ∧ (2 * s.cfg.data_symbol_num_perframe * s.ticks_all < 2 ^ 64 →
          s.delay_for_frame n = some (2 * s.cfg.data_symbol_num_perframe * s.ticks_all)))
    ∧ (s.cfg.downlink_mode = true → 500 ≤ n →
      s.delay_for_frame n = some ((s.cfg.data_symbol_num_perframe * s.ticks_all) % 2 ^ 64)
      ∧ (s.cfg.data_symbol_num_perframe * s.ticks_all < 2 ^ 64 →
          s.delay_for_frame n = some (s.cfg.data_symbol_num_perframe * s.ticks_all)))
    ∧ (s.cfg.downlink_mode = false → s.delay_for_frame n = none) := by
  refine ⟨?_, ?_, ?_⟩
  · intro h hn
    have e : s.delay_for_frame n
        = some ((2 * s.cfg.data_symbol_num_perframe * s.ticks_all) % 2 ^ 64) := by
      simp only [Sender.delay_for_frame, h, if_true, if_pos hn, to_size_t, SIZE_RANGE,
        Nat.mod_mul_mod]
    exact ⟨e, fun hfit => by rw [e, Nat.mod_eq_of_lt hfit]⟩
  · intro h hn
    have e : s.delay_for_frame n
        = some ((s.cfg.data_symbol_num_perframe * s.ticks_all) % 2 ^ 64) := by
      simp only [Sender.delay_for_frame, h, if_true, if_neg (Nat.not_lt.mpr hn), to_size_t,
        SIZE_RANGE]
    exact ⟨e, fun hfit => by rw [e, Nat.mod_eq_of_lt hfit]⟩
  · intro h
    simp [Sender.delay_for_frame, h]

/-- Witness of C8: in downlink mode frame 7 is followed by a wait of
`2 * 3 * 10` ticks. -/
theorem delay_for_frame_budget_witness :
    (example_downlink_sender.cfg.downlink_mode = true ∧ 7 < 500
      ∧ 2 * example_downlink_sender.cfg.data_symbol_num_perframe
          * example_downlink_sender.ticks_all < 2 ^ 64)
    ∧ example_downlink_sender.delay_for_frame 7
        = some (2 * example_downlink_sender.cfg.data_symbol_num_perframe
            * example_downlink_sender.ticks_all) :=
  ⟨by decide,
    ((delay_for_frame_budget example_downlink_sender 7).1 (by decide) (by decide)).2
      (by decide)⟩


/-! ## Claims on the sender's master thread -/

theorem for_loop_append {α : Type} (n : Nat) (g : Nat → α) :
    ∀ (fuel i : Nat) (acc : List α), i + fuel = n →
      for_loop n (fun i acc => acc ++ [g i]) fuel i acc
        = acc ++ (List.range' i fuel).map g := by
  intro fuel
  induction fuel with
  | zero => intro i acc _; simp [for_loop]
  | succ fuel ih =>
    intro i acc h
    have hi : i < n := by omega
    rw [for_loop, if_pos hi, ih (i + 1) (acc ++ [g i]) (by omega)]
    simp [List.range'_succ]

theorem enqueue_send_tasks_eq (s : Sender) (frame symbol : Nat)
    (q : List (Nat × gen_tag_t)) :
    s.enqueue_send_tasks frame symbol q
      = q ++ (List.range s.cfg.BS_ANT_NUM).map
          (fun i => (i % s.thread_num, gen_tag_t.frm_sym_ant frame symbol i)) := by
  unfold Sender.enqueue_send_tasks
  rw [for_loop_append _ (fun i => (i % s.thread_num, gen_tag_t.frm_sym_ant frame symbol i))
    _ 0 q (by omega), List.range_eq_range']

/-- The sends of one master iteration: nothing, or the wave of the next
symbol. -/
theorem master_step_sends (s : Sender) (st : MasterState) (ctag : gen_tag_t)
    (t_end t_start : Nat) :
    (s.master_step st ctag t_end t_start).2.sends = []
    ∨ ((s.master_step st ctag t_end t_start).2.stop = false
        ∧ to_size_t (st.packet_count_per_symbol
              (ctag.frame_id % s.SOCKET_BUFFER_FRAME_NUM) ctag.symbol_id + 1)
            = s.cfg.BS_ANT_NUM
        ∧ ∃ f, (s.master_step st ctag t_end t_start).2.sends
            = (List.range s.cfg.BS_ANT_NUM).map
                (fun i => (i % s.thread_num,
                  gen_tag_t.frm_sym_ant f ((ctag.symbol_id + 1) % s.get_max_symbol_id) i))) := by
  unfold Sender.master_step
  simp only []
  split_ifs with h1 h2 h3
  · left; rfl
  · right
    exact ⟨rfl, h1, _, by rw [enqueue_send_tasks_eq]; rfl⟩
  · right
    exact ⟨rfl, h1, _, by rw [enqueue_send_tasks_eq]; rfl⟩
  · left; rfl

/-- C9: one iteration of the master loop on a completion tag `(f, s, a)`.
The counter `packet_count_per_symbol[f mod F][s]` is incremented by one (as a
`size_t`); if the incremented value equals `BS_ANT_NUM` the counter is 0 after
the iteration and, unless the loop is left in this iteration, exactly
`BS_ANT_NUM` send tasks are emitted; if the incremented value differs from
`BS_ANT_NUM` (above it as well as below it) the counter keeps that value and
neither a send task nor a data-update request is emitted. -/
theorem master_step_counter (s : Sender) (st : MasterState) (ctag : gen_tag_t)
    (t_end t_start : Nat) :
    (st.packet_count_per_symbol (ctag.frame_id % s.SOCKET_BUFFER_FRAME_NUM) ctag.symbol_id + 1
        < 2 ^ 64 →
      to_size_t (st.packet_count_per_symbol
          (ctag.frame_id % s.SOCKET_BUFFER_FRAME_NUM) ctag.symbol_id + 1)
        = st.packet_count_per_symbol
            (ctag.frame_id % s.SOCKET_BUFFER_FRAME_NUM) ctag.symbol_id + 1)
    ∧ (to_size_t (st.packet_count_per_symbol
          (ctag.frame_id % s.SOCKET_BUFFER_FRAME_NUM) ctag.symbol_id + 1)
        = s.cfg.BS_ANT_NUM →
      (s.master_step st ctag t_end t_start).1.packet_count_per_symbol
          (ctag.frame_id % s.SOCKET_BUFFER_FRAME_NUM) ctag.symbol_id = 0
      ∧ ((s.master_step st ctag t_end t_start).2.stop = false →
          (s.master_step st ctag t_end t_start).2.sends.length = s.cfg.BS_ANT_NUM))
    ∧ (to_size_t (st.packet_count_per_symbol
          (ctag.frame_id % s.SOCKET_BUFFER_FRAME_NUM) ctag.symbol_id + 1)
        ≠ s.cfg.BS_ANT_NUM →
      (s.master_step st ctag t_end t_start).1.packet_count_per_symbol
          (ctag.frame_id % s.SOCKET_BUFFER_FRAME_NUM) ctag.symbol_id
        = to_size_t (st.packet_count_per_symbol
            (ctag.frame_id % s.SOCKET_BUFFER_FRAME_NUM) ctag.symbol_id + 1)
      ∧ (s.master_step st ctag t_end t_start).2.sends = []
      ∧ (s.master_step st ctag t_end t_start).2.updates = []
      ∧ (s.master_step st ctag t_end t_start).2.stop = false) := by
  refine ⟨fun h => Nat.mod_eq_of_lt h, ?_, ?_⟩
  · intro h
    unfold Sender.master_step
    simp only [h, if_true]
    split_ifs with h2 h3
    · exact ⟨by simp [store2], fun hstop => by simp at hstop⟩
    · exact ⟨by simp [store2], fun _ => by rw [enqueue_send_tasks_eq]; simp⟩
    · exact ⟨by simp [store2], fun _ => by rw [enqueue_send_tasks_eq]; simp⟩
  · intro h
    unfold Sender.master_step
    simp only [h, if_false]
    simp [store2]

/-- Witness of C9: with 3 antennas, the third completion of frame 0, symbol 0
resets the counter and emits 3 send tasks. -/
theorem master_step_counter_witness :
    (to_size_t (2 + 1) = example_sender.cfg.BS_ANT_NUM)
    ∧ (example_sender.master_step
          { MasterState.zero with packet_count_per_symbol := fun _ _ => 2 }
          ⟨0, 0, 1, TagType.kAntennas⟩ 7 8).1.packet_count_per_symbol 0 0 = 0
    ∧ (example_sender.master_step
          { MasterState.zero with packet_count_per_symbol := fun _ _ => 2 }
          ⟨0, 0, 1, TagType.kAntennas⟩ 7 8).2.sends.length = 3 :=
  have h := (master_step_counter example_sender
    { MasterState.zero with packet_count_per_symbol := fun _ _ => 2 }
    ⟨0, 0, 1, TagType.kAntennas⟩ 7 8).2.1 (by decide)
  ⟨by decide, h.1, h.2 (by decide)⟩

/-- C10: every wave of send tasks of the master thread, the initial one (frame
0, symbol 0) and each later one, is the list of the tasks
`frm_sym_ant(frame, symbol, i)` for `i = 0, ..., BS_ANT_NUM - 1` in ascending
`i`, with one frame and one symbol for the whole wave, and task `i` goes
through producer token `task_ptok[i mod thread_num]`.  Hence, antenna ids
fitting their 16-bit tag field, every task of every wave goes to the worker
`ant_id mod thread_num`. -/
theorem master_thread_waves (s : Sender) :
    (∀ (st : MasterState) (t : Nat),
      (s.master_prologue st t).2.sends
        = (List.range s.cfg.BS_ANT_NUM).map
            (fun i => (i % s.thread_num, gen_tag_t.frm_sym_ant 0 0 i)))
    ∧ (∀ (st : MasterState) (ctag : gen_tag_t) (t_end t_start : Nat),
      (s.master_step st ctag t_end t_start).2.sends = []
      ∨ ∃ frame symbol, (s.master_step st ctag t_end t_start).2.sends
          = (List.range s.cfg.BS_ANT_NUM).map
              (fun i => (i % s.thread_num, gen_tag_t.frm_sym_ant frame symbol i)))
    ∧ (s.cfg.BS_ANT_NUM ≤ 2 ^ 16 →
      (∀ (st : MasterState) (t : Nat) (e : Nat × gen_tag_t),
        e ∈ (s.master_prologue st t).2.sends → e.1 = e.2.ant_id % s.thread_num)
      ∧ (∀ (st : MasterState) (ctag : gen_tag_t) (t_end t_start : Nat)
          (e : Nat × gen_tag_t),
        e ∈ (s.master_step st ctag t_end t_start).2.sends →
          e.1 = e.2.ant_id % s.thread_num)) := by
  have hpro : ∀ (st : MasterState) (t : Nat),
      (s.master_prologue st t).2.sends
        = (List.range s.cfg.BS_ANT_NUM).map
            (fun i => (i % s.thread_num, gen_tag_t.frm_sym_ant 0 0 i)) := by
    intro st t
    unfold Sender.master_prologue
    simp only []
    rw [enqueue_send_tasks_eq]
    rfl
  have hstep : ∀ (st : MasterState) (ctag : gen_tag_t) (t_end t_start : Nat),
      (s.master_step st ctag t_end t_start).2.sends = []
      ∨ ∃ frame symbol, (s.master_step st ctag t_end t_start).2.sends
          = (List.range s.cfg.BS_ANT_NUM).map
              (fun i => (i % s.thread_num, gen_tag_t.frm_sym_ant frame symbol i)) := by
    intro st ctag t_end t_start
    rcases master_step_sends s st ctag t_end t_start with h | ⟨_, _, f, hf⟩
    · exact Or.inl h
    · exact Or.inr ⟨f, _, hf⟩
  have hmem : s.cfg.BS_ANT_NUM ≤ 2 ^ 16 → ∀ (frame symbol : Nat) (e : Nat × gen_tag_t),
      e ∈ (List.range s.cfg.BS_ANT_NUM).map
            (fun i => (i % s.thread_num, gen_tag_t.frm_sym_ant frame symbol i)) →
        e.1 = e.2.ant_id % s.thread_num := by
    intro hD frame symbol e he
    rcases List.mem_map.mp he with ⟨i, hi, rfl⟩
    have hi2 : i < 2 ^ 16 := lt_of_lt_of_le (List.mem_range.mp hi) hD
    simp only [gen_tag_t.frm_sym_ant, to_uint16, Nat.mod_eq_of_lt hi2]
  refine ⟨hpro, hstep, fun hD => ⟨?_, ?_⟩⟩
  · intro st t e he
    rw [hpro] at he
    exact hmem hD _ _ e he
  · intro st ctag t_end t_start e he
    rcases hstep st ctag t_end t_start with h | ⟨f, sy, h⟩
    · rw [h] at he
      exact absurd he (List.not_mem_nil e)
    · rw [h] at he
      exact hmem hD _ _ e he

/-- Witness of C10: with 3 antennas and 2 workers, the initial wave. -/
theorem master_thread_waves_witness :
    example_sender.cfg.BS_ANT_NUM ≤ 2 ^ 16
    ∧ (example_sender.master_prologue MasterState.zero 0).2.sends
        = [(0, gen_tag_t.frm_sym_ant 0 0 0), (1, gen_tag_t.frm_sym_ant 0 0 1),
           (0, gen_tag_t.frm_sym_ant 0 0 2)]
    ∧ ∀ e ∈ (example_sender.master_prologue MasterState.zero 0).2.sends,
        e.1 = e.2.ant_id % example_sender.thread_num :=
  ⟨by decide,
    ((master_thread_waves example_sender).1 MasterState.zero 0).trans (by decide),
    fun e he =>
      ((master_thread_waves example_sender).2.2 (by decide)).1 MasterState.zero 0 e he⟩

/-! ## Claims on runs of the sender's master thread -/

theorem master_step_congr (s : Sender) (st : MasterState) (t1 t2 : gen_tag_t)
    (t_end t_start : Nat) (hf : t1.frame_id = t2.frame_id)
    (hs : t1.symbol_id = t2.symbol_id) :
    s.master_step st t1 t_end t_start = s.master_step st t2 t_end t_start := by
  unfold Sender.master_step
  rw [hf, hs]

theorem master_run_congr (s : Sender) (f y : Nat) :
    ∀ (tags1 tags2 : List gen_tag_t) (times : List (Nat × Nat)) (st : MasterState),
      tags1.length = tags2.length →
      (∀ t ∈ tags1, t.frame_id = f ∧ t.symbol_id = y) →
      (∀ t ∈ tags2, t.frame_id = f ∧ t.symbol_id = y) →
      s.master_run st (with_times tags1 times) = s.master_run st (with_times tags2 times) := by
  intro tags1
  induction tags1 with
  | nil =>
    intro tags2 times st hlen _ _
    have h2 : tags2 = [] := List.length_eq_zero.mp hlen.symm
    rw [h2]
  | cons a rest ih =>
    intro tags2 times st hlen h1 h2
    cases tags2 with
    | nil => simp at hlen
    | cons b rest2 =>
      cases times with
      | nil => rfl
      | cons x xs =>
        have ha := h1 a (List.mem_cons_self _ _)
        have hb := h2 b (List.mem_cons_self _ _)
        have hstep : s.master_step st a x.1 x.2 = s.master_step st b x.1 x.2 :=
          master_step_congr s st a b x.1 x.2 (ha.1.trans hb.1.symm) (ha.2.trans hb.2.symm)
        have hrest := ih rest2 xs (s.master_step st b x.1 x.2).1
          (by simpa using hlen)
          (fun t ht => h1 t (List.mem_cons_of_mem _ ht))
          (fun t ht => h2 t (List.mem_cons_of_mem _ ht))
        simp only [with_times, List.zipWith_cons_cons, Sender.master_run] at hrest ⊢
        rw [hstep, hrest]

/-- C11: the master's reaction to a completion does not depend on the antenna
id.  For every state and every two completion tags with the same frame and
symbol, one master step gives the same new arrays and the same emitted calls;
and for every reordering of the completions of one (frame, symbol), the
`BS_ANT_NUM` completions of a wave among them, processing them from the same
state (under the same clock readings) gives the same final arrays and the
same emitted send tasks. -/
theorem master_step_antenna_independent (s : Sender) :
    (∀ (st : MasterState) (t1 t2 : gen_tag_t) (t_end t_start : Nat),
      t1.frame_id = t2.frame_id → t1.symbol_id = t2.symbol_id →
      s.master_step st t1 t_end t_start = s.master_step st t2 t_end t_start)
    ∧ (∀ (f y : Nat) (st : MasterState) (tags1 tags2 : List gen_tag_t)
        (times : List (Nat × Nat)),
      tags1.Perm tags2 →
      (∀ t ∈ tags1, t.frame_id = f ∧ t.symbol_id = y) →
      s.master_run st (with_times tags1 times) = s.master_run st (with_times tags2 times))
    ∧ (∀ (f y : Nat) (st : MasterState) (tags : List gen_tag_t) (times : List (Nat × Nat)),
      tags.Perm ((List.range s.cfg.BS_ANT_NUM).map (gen_tag_t.frm_sym_ant f y)) →
      s.master_run st (with_times tags times)
        = s.master_run st
            (with_times ((List.range s.cfg.BS_ANT_NUM).map (gen_tag_t.frm_sym_ant f y))
              times)) := by
  refine ⟨fun st t1 t2 t_end t_start hf hs => master_step_congr s st t1 t2 t_end t_start hf hs,
    ?_, ?_⟩
  · intro f y st tags1 tags2 times hperm h1
    exact master_run_congr s f y tags1 tags2 times st hperm.length_eq h1
      (fun t ht => h1 t (hperm.mem_iff.mpr ht))
  · intro f y st tags times hperm
    have h2 : ∀ t ∈ (List.range s.cfg.BS_ANT_NUM).map (gen_tag_t.frm_sym_ant f y),
        t.frame_id = to_uint32 f ∧ t.symbol_id = to_uint16 y := by
      intro t ht
      rcases List.mem_map.mp ht with ⟨i, _, rfl⟩
      exact ⟨rfl, rfl⟩
    exact master_run_congr s (to_uint32 f) (to_uint16 y) tags _ times st hperm.length_eq
      (fun t ht => h2 t (hperm.mem_iff.mp ht)) h2

/-- Witness of C11: with 3 antennas, the completions of frame 0, symbol 0 in
the orders 2, 0, 1 and 0, 1, 2. -/
theorem master_step_antenna_independent_witness :
    example_sender.master_run MasterState.zero
        (with_times [gen_tag_t.frm_sym_ant 0 0 2, gen_tag_t.frm_sym_ant 0 0 0,
          gen_tag_t.frm_sym_ant 0 0 1] [(1, 2), (3, 4), (5, 6)])
      = example_sender.master_run MasterState.zero
        (with_times ((List.range example_sender.cfg.BS_ANT_NUM).map
          (gen_tag_t.frm_sym_ant 0 0)) [(1, 2), (3, 4), (5, 6)]) :=
  (master_step_antenna_independent example_sender).2.2 0 0 MasterState.zero
    [gen_tag_t.frm_sym_ant 0 0 2, gen_tag_t.frm_sym_ant 0 0 0, gen_tag_t.frm_sym_ant 0 0 1]
    [(1, 2), (3, 4), (5, 6)] (by decide)

theorem master_step_below (s : Sender) (st : MasterState) (ctag : gen_tag_t)
    (t_end t_start : Nat)
    (h : to_size_t (st.packet_count_per_symbol
          (ctag.frame_id % s.SOCKET_BUFFER_FRAME_NUM) ctag.symbol_id + 1)
        ≠ s.cfg.BS_ANT_NUM) :
    s.master_step st ctag t_end t_start
      = ({ st with
            packet_count_per_symbol :=
              store2 st.packet_count_per_symbol
                (ctag.frame_id % s.SOCKET_BUFFER_FRAME_NUM) ctag.symbol_id
                (to_size_t (st.packet_count_per_symbol
                  (ctag.frame_id % s.SOCKET_BUFFER_FRAME_NUM) ctag.symbol_id + 1)) },
         { sends := [], updates := [], delays := [], stop := false }) := by
  unfold Sender.master_step
  simp only [h, if_false]

theorem master_step_symbol (s : Sender) (st : MasterState) (ctag : gen_tag_t)
    (t_end t_start : Nat)
    (h : to_size_t (st.packet_count_per_symbol
          (ctag.frame_id % s.SOCKET_BUFFER_FRAME_NUM) ctag.symbol_id + 1)
        = s.cfg.BS_ANT_NUM)
    (h2 : to_size_t (st.packet_count_per_frame
          (ctag.frame_id % s.SOCKET_BUFFER_FRAME_NUM) + 1) ≠ s.get_max_symbol_id) :
    s.master_step st ctag t_end t_start
      = ({ st with
            packet_count_per_symbol :=
              store2 st.packet_count_per_symbol
                (ctag.frame_id % s.SOCKET_BUFFER_FRAME_NUM) ctag.symbol_id 0,
            packet_count_per_frame :=
              store1 st.packet_count_per_frame (ctag.frame_id % s.SOCKET_BUFFER_FRAME_NUM)
                (to_size_t (st.packet_count_per_frame
                  (ctag.frame_id % s.SOCKET_BUFFER_FRAME_NUM) + 1)) },
         { sends := s.enqueue_send_tasks ctag.frame_id
              ((ctag.symbol_id + 1) % s.get_max_symbol_id) []
           updates := [gen_tag_t.frm_sym (to_uint32 (ctag.frame_id + 1)) ctag.symbol_id]
           delays := [s.delay_for_symbol ctag.frame_id]
           stop := false }) := by
  unfold Sender.master_step
  simp only [h, h2, if_true, if_false]

theorem master_step_frame (s : Sender) (st : MasterState) (ctag : gen_tag_t)
    (t_end t_start : Nat)
    (h : to_size_t (st.packet_count_per_symbol
          (ctag.frame_id % s.SOCKET_BUFFER_FRAME_NUM) ctag.symbol_id + 1)
        = s.cfg.BS_ANT_NUM)
    (h2 : to_size_t (st.packet_count_per_frame
          (ctag.frame_id % s.SOCKET_BUFFER_FRAME_NUM) + 1) = s.get_max_symbol_id)
    (h3 : to_uint32 (ctag.frame_id + 1) ≠ s.cfg.frames_to_test) :
    s.master_step st ctag t_end t_start
      = ({ packet_count_per_symbol :=
              store2 st.packet_count_per_symbol
                (ctag.frame_id % s.SOCKET_BUFFER_FRAME_NUM) ctag.symbol_id 0
           packet_count_per_frame :=
              store1
                (store1 st.packet_count_per_frame
                  (ctag.frame_id % s.SOCKET_BUFFER_FRAME_NUM)
                  (to_size_t (st.packet_count_per_frame
                    (ctag.frame_id % s.SOCKET_BUFFER_FRAME_NUM) + 1)))
                (ctag.frame_id % s.SOCKET_BUFFER_FRAME_NUM) 0
           frame_end := store1 st.frame_end (ctag.frame_id % s.kNumStatsFrames) t_end
           frame_start :=
              store1 st.frame_start
                (to_uint32 (ctag.frame_id + 1) % s.kNumStatsFrames) t_start },
         { sends := s.enqueue_send_tasks (to_uint32 (ctag.frame_id + 1))
              ((ctag.symbol_id + 1) % s.get_max_symbol_id) []
           updates := [gen_tag_t.frm_sym (to_uint32 (ctag.frame_id + 1)) ctag.symbol_id]
           delays := s.delay_for_symbol ctag.frame_id
              :: (s.delay_for_frame ctag.frame_id).toList
           stop := false }) := by
  unfold Sender.master_step
  simp only [h, h2, h3, if_true, if_false]

theorem master_step_stop (s : Sender) (st : MasterState) (ctag : gen_tag_t)
    (t_end t_start : Nat)
    (h : to_size_t (st.packet_count_per_symbol
          (ctag.frame_id % s.SOCKET_BUFFER_FRAME_NUM) ctag.symbol_id + 1)
        = s.cfg.BS_ANT_NUM)
    (h2 : to_size_t (st.packet_count_per_frame
          (ctag.frame_id % s.SOCKET_BUFFER_FRAME_NUM) + 1) = s.get_max_symbol_id)
    (h3 : to_uint32 (ctag.frame_id + 1) = s.cfg.frames_to_test) :
    s.master_step st ctag t_end t_start
      = ({ st with
            packet_count_per_symbol :=
              store2 st.packet_count_per_symbol
                (ctag.frame_id % s.SOCKET_BUFFER_FRAME_NUM) ctag.symbol_id 0,
            packet_count_per_frame :=
              store1 st.packet_count_per_frame (ctag.frame_id % s.SOCKET_BUFFER_FRAME_NUM)
                (to_size_t (st.packet_count_per_frame
                  (ctag.frame_id % s.SOCKET_BUFFER_FRAME_NUM) + 1)) },
         { sends := [], updates := [], delays := [s.delay_for_symbol ctag.frame_id]
           stop := true }) := by
  unfold Sender.master_step
  simp only [h, h2, h3, if_true]

theorem to_size_t_of_lt (n : Nat) (h : n < 2 ^ 64) : to_size_t n = n :=
  Nat.mod_eq_of_lt h

theorem wave_pending (s : Sender) (f y : Nat) (hf : f < 2 ^ 32) (hy : y < 2 ^ 16) :
    ((s.enqueue_send_tasks f y []).map Prod.snd).length = s.cfg.BS_ANT_NUM
    ∧ ∀ t ∈ (s.enqueue_send_tasks f y []).map Prod.snd, t.frame_id = f ∧ t.symbol_id = y := by
  rw [enqueue_send_tasks_eq]
  refine ⟨by simp, ?_⟩
  intro t ht
  simp only [List.nil_append, List.map_map, List.mem_map, List.mem_range,
    Function.comp] at ht
  rcases ht with ⟨i, _, rfl⟩
  exact ⟨Nat.mod_eq_of_lt hf, Nat.mod_eq_of_lt hy⟩

/-- One completion of a pending task moves a run from its position to the
next one. -/
theorem run_step_inv (s : Sender) (hw : s.well_sized) (f y j : Nat) (rs : RunState)
    (c : Completion) (hf : f < s.cfg.frames_to_test) (hy : y < s.get_max_symbol_id)
    (hj : j < s.cfg.BS_ANT_NUM) (hinv : RunInv s f y j rs) (hc : c.tag ∈ rs.pending) :
    ∃ rs2, s.run_step rs c = some rs2
      ∧ RunAt s ((f * s.get_max_symbol_id + y) * s.cfg.BS_ANT_NUM + j + 1) rs2
      ∧ (rs2.stopped = true → f + 1 = s.cfg.frames_to_test ∧ y + 1 = s.get_max_symbol_id) := by
  obtain ⟨hns, hlen, htags, hps, hpf, hsends⟩ := hinv
  obtain ⟨hcf, hcy⟩ := htags c.tag hc
  have hD64 := hw.ants_fit
  have hS16 := hw.syms_fit
  have hf32 := hw.frames_fit
  have hstep : s.run_step rs c = some
      { st := (s.master_step rs.st c.tag c.t_end c.t_start).1
        pending := rs.pending.erase c.tag
          ++ (s.master_step rs.st c.tag c.t_end c.t_start).2.sends.map Prod.snd
        sends := rs.sends ++ (s.master_step rs.st c.tag c.t_end c.t_start).2.sends
        updates := rs.updates ++ (s.master_step rs.st c.tag c.t_end c.t_start).2.updates
        stopped := (s.master_step rs.st c.tag c.t_end c.t_start).2.stop } := by
    unfold Sender.run_step
    rw [if_neg (by simp [hns]), if_pos hc]
  have hcount : to_size_t (rs.st.packet_count_per_symbol
      (c.tag.frame_id % s.SOCKET_BUFFER_FRAME_NUM) c.tag.symbol_id + 1) = j + 1 := by
    rw [hps, hcf, hcy, if_pos ⟨rfl, rfl⟩]
    exact to_size_t_of_lt _ (by omega)
  have hfcount : to_size_t (rs.st.packet_count_per_frame
      (c.tag.frame_id % s.SOCKET_BUFFER_FRAME_NUM) + 1) = y + 1 := by
    rw [hpf, hcf, if_pos rfl]
    exact to_size_t_of_lt _ (by omega)
  have herase : (rs.pending.erase c.tag).length = s.cfg.BS_ANT_NUM - (j + 1) := by
    rw [List.length_erase_of_mem hc, hlen]
    omega
  have herase_tags : ∀ t ∈ rs.pending.erase c.tag, t.frame_id = f ∧ t.symbol_id = y :=
    fun t ht => htags t (List.mem_of_mem_erase ht)
  refine ⟨_, hstep, ?_⟩
  by_cases h1 : j + 1 = s.cfg.BS_ANT_NUM
  · -- the wave is complete
    have hnil : rs.pending.erase c.tag = [] :=
      List.length_eq_zero.mp (by rw [herase]; omega)
    have hps0 : ∀ a b, store2 rs.st.packet_count_per_symbol
        (c.tag.frame_id % s.SOCKET_BUFFER_FRAME_NUM) c.tag.symbol_id 0 a b = 0 := by
      intro a b
      unfold store2
      rw [hps, hcf, hcy]
      split_ifs <;> rfl
    by_cases h2 : y + 1 = s.get_max_symbol_id
    · have hnext : to_uint32 (c.tag.frame_id + 1) = f + 1 := by
        rw [hcf]
        exact Nat.mod_eq_of_lt (by omega)
      by_cases h3 : f + 1 = s.cfg.frames_to_test
      · -- the last frame is complete: the loop is left
        rw [master_step_stop s rs.st c.tag c.t_end c.t_start (by rw [hcount, h1])
          (by rw [hfcount, h2]) (by rw [hnext, h3])]
        refine ⟨Or.inr ⟨?_, rfl, ?_, ?_⟩, fun _ => ⟨h3, h2⟩⟩
        · rw [← h3, ← h2, ← h1]
          ring
        · simp [hnil]
        · simp only [List.append_nil]
          rw [hsends, ← h3, ← h2]
          congr 1
          ring
      · -- a frame is complete: first wave of the next frame
        rw [master_step_frame s rs.st c.tag c.t_end c.t_start (by rw [hcount, h1])
          (by rw [hfcount, h2]) (by rw [hnext]; exact h3)]
        have hsym : (c.tag.symbol_id + 1) % s.get_max_symbol_id = 0 := by
          rw [hcy, h2, Nat.mod_self]
        have hwp := wave_pending s (f + 1) 0 (by omega) (by norm_num)
        refine ⟨Or.inl ⟨f + 1, 0, 0, by omega, hw.syms_pos, hw.ants_pos, ?_, ?_⟩,
          fun hstop => by simp at hstop⟩
        · rw [← h1, ← h2]
          ring
        · refine ⟨rfl, ?_, ?_, ?_, ?_, ?_⟩
          · simp only [hnil, List.nil_append, hnext, hsym]
            rw [hwp.1]
            rfl
          · simp only [hnil, List.nil_append, hnext, hsym]
            exact hwp.2
          · intro a b
            show store2 _ _ _ 0 a b = _
            rw [hps0]
            split_ifs <;> rfl
          · intro a
            show store1 (store1 _ _ _) _ 0 a = _
            have hpf0 : store1 (store1 rs.st.packet_count_per_frame
                (c.tag.frame_id % s.SOCKET_BUFFER_FRAME_NUM)
                (to_size_t (rs.st.packet_count_per_frame
                  (c.tag.frame_id % s.SOCKET_BUFFER_FRAME_NUM) + 1)))
                (c.tag.frame_id % s.SOCKET_BUFFER_FRAME_NUM) 0 a = 0 := by
              unfold store1
              by_cases ha : a = c.tag.frame_id % s.SOCKET_BUFFER_FRAME_NUM
              · simp [ha]
              · simp only [ha, if_false]
                rw [hpf, if_neg (by rwa [hcf] at ha)]
            rw [hpf0]
            split_ifs <;> rfl
          · show rs.sends ++ s.enqueue_send_tasks _ _ [] = _
            rw [hnext, hsym, enqueue_send_tasks_eq, hsends, List.nil_append]
            have e1 : (f + 1) * s.get_max_symbol_id + 0 + 1
                = (f * s.get_max_symbol_id + y + 1) + 1 := by
              rw [Nat.add_mul]; omega
            have e2 : (f * s.get_max_symbol_id + y + 1) / s.get_max_symbol_id = f + 1 := by
              have : f * s.get_max_symbol_id + y + 1 = (f + 1) * s.get_max_symbol_id := by
                rw [Nat.add_mul]; omega
              rw [this, Nat.mul_div_cancel _ hw.syms_pos]
            have e3 : (f * s.get_max_symbol_id + y + 1) % s.get_max_symbol_id = 0 := by
              have : f * s.get_max_symbol_id + y + 1 = (f + 1) * s.get_max_symbol_id := by
                rw [Nat.add_mul]; omega
              rw [this, Nat.mul_mod_left]
            have hw2 : s.waves (f * s.get_max_symbol_id + y + 1 + 1)
                = s.waves (f * s.get_max_symbol_id + y + 1)
                  ++ (List.range s.cfg.BS_ANT_NUM).map (fun i => (i % s.thread_num,
                      gen_tag_t.frm_sym_ant
                        ((f * s.get_max_symbol_id + y + 1) / s.get_max_symbol_id)
                        ((f * s.get_max_symbol_id + y + 1) % s.get_max_symbol_id) i)) := rfl
            rw [e1, hw2, e2, e3]
    · -- a symbol is complete: next wave of the same frame
      rw [master_step_symbol s rs.st c.tag c.t_end c.t_start (by rw [hcount, h1])
        (by rw [hfcount]; exact h2)]
      have hsym : (c.tag.symbol_id + 1) % s.get_max_symbol_id = y + 1 := by
        rw [hcy]
        exact Nat.mod_eq_of_lt (by omega)
      have hwp := wave_pending s f (y + 1) (by omega) (by omega)
      refine ⟨Or.inl ⟨f, y + 1, 0, hf, by omega, hw.ants_pos, ?_, ?_⟩,
        fun hstop => by simp at hstop⟩
      · rw [← h1]
        ring
      · refine ⟨rfl, ?_, ?_, ?_, ?_, ?_⟩
        · simp only [hnil, List.nil_append, hcf, hsym]
          rw [hwp.1]
          rfl
        · simp only [hnil, List.nil_append, hcf, hsym]
          exact hwp.2
        · intro a b
          show store2 _ _ _ 0 a b = _
          rw [hps0]
          split_ifs <;> rfl
        · intro a
          show store1 _ _ _ a = _
          unfold store1
          rw [hfcount, hpf, hcf]
          split_ifs <;> rfl
        · show rs.sends ++ s.enqueue_send_tasks _ _ [] = _
          rw [hcf, hsym, enqueue_send_tasks_eq, hsends, List.nil_append]
          have e1 : f * s.get_max_symbol_id + (y + 1) + 1
              = (f * s.get_max_symbol_id + y + 1) + 1 := by omega
          have e2 : (f * s.get_max_symbol_id + y + 1) / s.get_max_symbol_id = f := by
            rw [Nat.add_assoc, Nat.add_comm, Nat.add_mul_div_right _ _ hw.syms_pos,
              Nat.div_eq_of_lt (by omega)]
            omega
          have e3 : (f * s.get_max_symbol_id + y + 1) % s.get_max_symbol_id = y + 1 := by
            rw [Nat.add_assoc, Nat.add_comm, Nat.add_mul_mod_self_right,
              Nat.mod_eq_of_lt (by omega)]
          have hw2 : s.waves (f * s.get_max_symbol_id + y + 1 + 1)
              = s.waves (f * s.get_max_symbol_id + y + 1)
                ++ (List.range s.cfg.BS_ANT_NUM).map (fun i => (i % s.thread_num,
                    gen_tag_t.frm_sym_ant
                      ((f * s.get_max_symbol_id + y + 1) / s.get_max_symbol_id)
                      ((f * s.get_max_symbol_id + y + 1) % s.get_max_symbol_id) i)) := rfl
          rw [e1, hw2, e2, e3]
  · -- the wave is not complete yet
    rw [master_step_below s rs.st c.tag c.t_end c.t_start (by rw [hcount]; exact h1)]
    refine ⟨Or.inl ⟨f, y, j + 1, hf, hy, by omega, by omega, ?_⟩,
      fun hstop => by simp at hstop⟩
    refine ⟨rfl, ?_, ?_, ?_, ?_, ?_⟩
    · simp only [List.map_nil, List.append_nil]
      exact herase
    · simp only [List.map_nil, List.append_nil]
      exact herase_tags
    · intro a b
      show store2 _ _ _ _ a b = _
      unfold store2
      rw [hcount, hps, hcf, hcy]
      split_ifs <;> rfl
    · exact hpf
    · simp only [List.append_nil]
      exact hsends

theorem run_step_at (s : Sender) (hw : s.well_sized) (n : Nat) (rs rs2 : RunState)
    (c : Completion) (hat : RunAt s n rs) (hstep : s.run_step rs c = some rs2) :
    RunAt s (n + 1) rs2 ∧ c.tag ∈ rs.pending
    ∧ (rs2.stopped = true →
        c.tag.frame_id + 1 = s.cfg.frames_to_test
        ∧ c.tag.symbol_id + 1 = s.get_max_symbol_id) := by
  rcases hat with ⟨f, y, j, hf, hy, hj, hn, hinv⟩ | ⟨_, hstopped, _, _⟩
  · have hc : c.tag ∈ rs.pending := by
      by_contra hc
      unfold Sender.run_step at hstep
      rw [if_neg (by simp [hinv.not_stopped]), if_neg hc] at hstep
      exact absurd hstep (by simp)
    obtain ⟨rs3, h3, hat3, hstop3⟩ := run_step_inv s hw f y j rs c hf hy hj hinv hc
    have heq : rs3 = rs2 := Option.some.inj (h3.symm.trans hstep)
    subst heq
    obtain ⟨hcf, hcy⟩ := hinv.pending_tags c.tag hc
    refine ⟨by rw [← hn]; exact hat3, hc, fun hs => ?_⟩
    rw [hcf, hcy]
    exact hstop3 hs
  · unfold Sender.run_step at hstep
    rw [if_pos hstopped] at hstep
    exact absurd hstep (by simp)

theorem run_at (s : Sender) (hw : s.well_sized) :
    ∀ (cs : List Completion) (n : Nat) (rs rs2 : RunState),
      RunAt s n rs → s.run rs cs = some rs2 → RunAt s (n + cs.length) rs2 := by
  intro cs
  induction cs with
  | nil =>
    intro n rs rs2 hat hrun
    simp only [Sender.run, Option.some.injEq] at hrun
    subst hrun
    exact hat
  | cons c cs ih =>
    intro n rs rs2 hat hrun
    rw [Sender.run] at hrun
    cases hstep : s.run_step rs c with
    | none => rw [hstep] at hrun; exact absurd hrun (by simp)
    | some rs1 =>
      rw [hstep] at hrun
      have h1 := (run_step_at s hw n rs rs1 c hat hstep).1
      have h2 := ih (n + 1) rs1 rs2 h1 hrun
      rw [List.length_cons]
      rw [show n + (cs.length + 1) = n + 1 + cs.length by omega]
      exact h2

theorem run_snoc (s : Sender) :
    ∀ (cs : List Completion) (c : Completion) (rs : RunState),
      s.run rs (cs ++ [c]) = (s.run rs cs).bind (fun r => s.run_step r c) := by
  intro cs
  induction cs with
  | nil =>
    intro c rs
    simp only [List.nil_append, Sender.run, Option.some_bind]
    cases s.run_step rs c <;> rfl
  | cons a cs ih =>
    intro c rs
    simp only [List.cons_append, Sender.run]
    cases s.run_step rs a with
    | none => rfl
    | some r => exact ih c r

theorem run_init_at (s : Sender) (hw : s.well_sized) (t_start : Nat) :
    RunAt s 0 (s.run_init t_start) := by
  have hwp := wave_pending s 0 0 (by norm_num) (by norm_num)
  refine Or.inl ⟨0, 0, 0, hw.frames_pos, hw.syms_pos, hw.ants_pos, by simp, ?_⟩
  refine ⟨rfl, ?_, ?_, ?_, ?_, ?_⟩
  · show ((s.enqueue_send_tasks 0 0 []).map Prod.snd).length = _
    rw [hwp.1]
    rfl
  · exact hwp.2
  · intro a b
    show (0 : Nat) = _
    split_ifs <;> rfl
  · intro a
    show (0 : Nat) = _
    split_ifs <;> rfl
  · show s.enqueue_send_tasks 0 0 [] = _
    rw [enqueue_send_tasks_eq]
    simp [Sender.waves]

theorem run_position_lt (S D F f y j : Nat) (hf : f < F) (hy : y < S) (hj : j < D) :
    (f * S + y) * D + j < F * S * D := by
  have h2 : f * S + y + 1 ≤ F * S := by
    have : (f + 1) * S ≤ F * S := Nat.mul_le_mul_right _ hf
    rw [Nat.add_mul] at this
    omega
  have h3 : (f * S + y + 1) * D ≤ F * S * D := Nat.mul_le_mul_right _ h2
  rw [Nat.add_mul] at h3
  omega

theorem waves_frame_lt (s : Sender) (hS : 0 < s.get_max_symbol_id) (F : Nat) :
    ∀ n, n ≤ F * s.get_max_symbol_id → ∀ e ∈ s.waves n, e.2.frame_id < F := by
  intro n
  induction n with
  | zero => intro _ e he; simp [Sender.waves] at he
  | succ n ih =>
    intro hn e he
    rw [Sender.waves, List.mem_append] at he
    rcases he with he | he
    · exact ih (by omega) e he
    · rcases List.mem_map.mp he with ⟨i, _, rfl⟩
      have h1 : n / s.get_max_symbol_id < F :=
        (Nat.div_lt_iff_lt_mul hS).mpr (by omega)
      exact lt_of_le_of_lt (Nat.mod_le _ _) h1

theorem waves_mono (s : Sender) (m : Nat) : ∀ k, ∀ e ∈ s.waves m, e ∈ s.waves (m + k) := by
  intro k
  induction k with
  | zero => intro e he; exact he
  | succ k ih =>
    intro e he
    rw [← Nat.add_assoc, Sender.waves]
    exact List.mem_append_left _ (ih e he)

/-- What the position of a run says about its state. -/
theorem run_at_facts (s : Sender) (hw : s.well_sized) (n : Nat) (rs : RunState)
    (hat : RunAt s n rs) :
    n ≤ s.cfg.frames_to_test * s.get_max_symbol_id * s.cfg.BS_ANT_NUM
    ∧ (rs.stopped = true
        ↔ n = s.cfg.frames_to_test * s.get_max_symbol_id * s.cfg.BS_ANT_NUM)
    ∧ (rs.stopped = false → rs.pending ≠ [])
    ∧ (∀ e ∈ rs.sends, e.2.frame_id < s.cfg.frames_to_test) := by
  rcases hat with ⟨f, y, j, hf, hy, hj, hn, hinv⟩ | ⟨hn, hstopped, _, hsends⟩
  · have hlt := run_position_lt s.get_max_symbol_id s.cfg.BS_ANT_NUM s.cfg.frames_to_test
      f y j hf hy hj
    rw [hn] at hlt
    refine ⟨le_of_lt hlt, ?_, ?_, ?_⟩
    · rw [hinv.not_stopped]
      constructor
      · intro h; exact absurd h (by simp)
      · intro h; omega
    · intro _ hnil
      have := hinv.pending_length
      rw [hnil] at this
      simp at this
      omega
    · intro e he
      rw [hinv.sends_eq] at he
      refine waves_frame_lt s hw.syms_pos s.cfg.frames_to_test _ ?_ e he
      have : (f + 1) * s.get_max_symbol_id ≤ s.cfg.frames_to_test * s.get_max_symbol_id :=
        Nat.mul_le_mul_right _ hf
      rw [Nat.add_mul] at this
      omega
  · refine ⟨le_of_eq hn, ?_, ?_, ?_⟩
    · rw [hstopped]
      simp [hn]
    · intro h
      rw [hstopped] at h
      exact absurd h (by simp)
    · intro e he
      rw [hsends] at he
      exact waves_frame_lt s hw.syms_pos s.cfg.frames_to_test _ (le_refl _) e he

theorem run_can_finish (s : Sender) (hw : s.well_sized) :
    ∀ (k n : Nat) (rs : RunState),
      n + k = s.cfg.frames_to_test * s.get_max_symbol_id * s.cfg.BS_ANT_NUM →
      RunAt s n rs → ∃ cs rs2, s.run rs cs = some rs2 ∧ rs2.stopped = true := by
  intro k
  induction k with
  | zero =>
    intro n rs hn hat
    exact ⟨[], rs, rfl, ((run_at_facts s hw n rs hat).2.1).mpr (by omega)⟩
  | succ k ih =>
    intro n rs hn hat
    have hfacts := run_at_facts s hw n rs hat
    have hns : rs.stopped = false := by
      cases h : rs.stopped with
      | false => rfl
      | true => have := hfacts.2.1.mp h; omega
    have hne := hfacts.2.2.1 hns
    obtain ⟨t, rest, hp⟩ := List.exists_cons_of_ne_nil hne
    have hmem : t ∈ rs.pending := by rw [hp]; exact List.mem_cons_self _ _
    have hsome : ∃ rs1, s.run_step rs { tag := t, t_end := 0, t_start := 0 } = some rs1 := by
      unfold Sender.run_step
      rw [if_neg (by simp [hns]), if_pos hmem]
      exact ⟨_, rfl⟩
    obtain ⟨rs1, h1⟩ := hsome
    have hat1 := (run_step_at s hw n rs rs1 _ hat h1).1
    obtain ⟨cs, rs2, hrun, hstop⟩ := ih (n + 1) rs1 (by omega) hat1
    refine ⟨{ tag := t, t_end := 0, t_start := 0 } :: cs, rs2, ?_, hstop⟩
    rw [Sender.run, h1]
    exact hrun

/-- C12: a run of `master_thread` in which every emitted send task is
completed exactly once, with at least one frame slot, antenna, symbol and
frame, and counts that fit their fields (`BS_ANT_NUM < 2^64`, at most `2^16`
symbols per frame, `frames_to_test < 2^32`).  After the completions `cs` the
loop is left if and only if `cs` has `frames_to_test * S * D` completions,
never more; until then a task is pending, and the run can be carried on to
the point where the loop is left; the completion on which it is left is of
the last symbol of frame `frames_to_test - 1`; and no send task with
`frame_id ≥ frames_to_test` is ever emitted. -/
theorem master_thread_leaves_after_last_frame (s : Sender)
    (hF : 0 < s.SOCKET_BUFFER_FRAME_NUM)
    (hD : 0 < s.cfg.BS_ANT_NUM) (hD64 : s.cfg.BS_ANT_NUM < 2 ^ 64)
    (hS : 0 < s.get_max_symbol_id) (hS16 : s.get_max_symbol_id ≤ 2 ^ 16)
    (hft : 1 ≤ s.cfg.frames_to_test) (hft32 : s.cfg.frames_to_test < 2 ^ 32)
    (t0 : Nat) (cs : List Completion) (rs : RunState)
    (hrun : s.run (s.run_init t0) cs = some rs) :
    cs.length ≤ s.cfg.frames_to_test * s.get_max_symbol_id * s.cfg.BS_ANT_NUM
    ∧ (rs.stopped = true
        ↔ cs.length = s.cfg.frames_to_test * s.get_max_symbol_id * s.cfg.BS_ANT_NUM)
    ∧ (rs.stopped = false → rs.pending ≠ [])
    ∧ (∃ cs2 rs2, s.run rs cs2 = some rs2 ∧ rs2.stopped = true)
    ∧ (rs.stopped = true → ∃ c, cs.getLast? = some c
        ∧ c.tag.frame_id = s.cfg.frames_to_test - 1
        ∧ c.tag.symbol_id = s.get_max_symbol_id - 1)
    ∧ (∀ e ∈ rs.sends, e.2.frame_id < s.cfg.frames_to_test) := by
  have hw : s.well_sized := ⟨hF, hD, hD64, hS, hS16, hft, hft32⟩
  have hat := run_at s hw cs 0 (s.run_init t0) rs (run_init_at s hw t0) hrun
  rw [Nat.zero_add] at hat
  have hfacts := run_at_facts s hw cs.length rs hat
  refine ⟨hfacts.1, hfacts.2.1, hfacts.2.2.1, ?_, ?_, hfacts.2.2.2⟩
  · exact run_can_finish s hw
      (s.cfg.frames_to_test * s.get_max_symbol_id * s.cfg.BS_ANT_NUM - cs.length)
      cs.length rs (by have := hfacts.1; omega) hat
  · intro hstop
    rcases List.eq_nil_or_concat cs with hnil | ⟨cs1, c, hcs⟩
    · exfalso
      rw [hnil] at hrun
      simp only [Sender.run, Option.some.injEq] at hrun
      rw [← hrun] at hstop
      simp [Sender.run_init] at hstop
    · rw [List.concat_eq_append] at hcs
      rw [hcs, run_snoc] at hrun
      cases h1 : s.run (s.run_init t0) cs1 with
      | none => rw [h1] at hrun; exact absurd hrun (by simp)
      | some rs1 =>
        rw [h1, Option.some_bind] at hrun
        have hat1 := run_at s hw cs1 0 (s.run_init t0) rs1 (run_init_at s hw t0) h1
        have hlast := (run_step_at s hw _ rs1 rs c hat1 hrun).2.2 hstop
        refine ⟨c, by rw [hcs]; simp, ?_, ?_⟩
        · omega
        · omega

/-- Witness of C12: the run `example_run` of 2 frames of 2 symbols and 3
antennas leaves the loop after its 12 completions. -/
theorem master_thread_leaves_after_last_frame_witness :
    example_run.length = 2 * 2 * 3
    ∧ ∃ rs, example_sender.run (example_sender.run_init 0) example_run = some rs
        ∧ rs.stopped = true
        ∧ ∀ e ∈ rs.sends, e.2.frame_id < 2 := by
  have hsome : (example_sender.run (example_sender.run_init 0) example_run).isSome = true := by
    decide
  obtain ⟨rs, hrs⟩ := Option.isSome_iff_exists.mp hsome
  have h := master_thread_leaves_after_last_frame example_sender (by decide) (by decide)
    (by decide) (by decide) (by decide) (by decide) (by decide) 0 example_run rs hrs
  exact ⟨by decide, rs, hrs, h.2.1.mpr (by decide), h.2.2.2.2.2⟩

/-- The iteration that leaves the loop stores no `frame_end`. -/
theorem master_step_stop_frame_end (s : Sender) (st : MasterState) (ctag : gen_tag_t)
    (t_end t_start : Nat) (h : (s.master_step st ctag t_end t_start).2.stop = true) :
    (s.master_step st ctag t_end t_start).1.frame_end = st.frame_end := by
  unfold Sender.master_step at h ⊢
  simp only [] at h ⊢
  split_ifs at h ⊢
  rfl

/-- C13, the code at the failing input: `example_sender` runs its
2 frames of 2 symbols and 3 antennas, the `k`-th completion under the clock
reading `100 + k`.  Frame 0 completes on the 6th completion and frame 1 on
the 12th, on which the loop is left; `write_stats_to_file(2)` then prints
106 for frame 0 and, for frame 1, the 0 the array was initialised with: the
`frame_end` of the last frame was never stored. -/
theorem write_stats_misses_last_frame :
    (example_sender.run (example_sender.run_init 0) example_timed_run).map
        (fun rs => (rs.stopped,
          example_sender.write_stats_to_file rs.st example_sender.cfg.frames_to_test))
      = some (true, [106, 0]) := by
  decide

/-! ## Claims on the data-update thread -/

theorem for_loop_eq_foldl {σ : Type} (n : Nat) (body : Nat → σ → σ) :
    ∀ (fuel i : Nat) (acc : σ), i + fuel = n →
      for_loop n body fuel i acc
        = (List.range' i fuel).foldl (fun a k => body k a) acc := by
  intro fuel
  induction fuel with
  | zero => intro i acc _; rfl
  | succ fuel ih =>
    intro i acc h
    have hi : i < n := by omega
    rw [for_loop, if_pos hi, ih (i + 1) (body i acc) (by omega)]
    rfl

theorem data_update_calls (s : Sender) (src : TxSource) (tag : gen_tag_t) :
    ∀ (l : List Nat) (acc : (Nat → Packet) × List gen_tag_t),
      (l.foldl (fun a k =>
          (s.update_tx_buffer src a.1 (gen_tag_t.frm_sym_ant tag.frame_id tag.symbol_id k),
            a.2 ++ [gen_tag_t.frm_sym_ant tag.frame_id tag.symbol_id k])) acc).2
        = acc.2 ++ l.map (gen_tag_t.frm_sym_ant tag.frame_id tag.symbol_id) := by
  intro l
  induction l with
  | nil => intro acc; simp
  | cons k rest ih =>
    intro acc
    rw [List.foldl_cons, ih]
    simp

theorem data_update_iteration_calls (s : Sender) (src : TxSource)
    (tx_buffers_ : Nat → Packet) (tag : gen_tag_t) :
    (s.data_update_iteration src tx_buffers_ tag).2
      = (List.range s.cfg.BS_ANT_NUM).map
          (gen_tag_t.frm_sym_ant tag.frame_id tag.symbol_id) := by
  unfold Sender.data_update_iteration
  rw [for_loop_eq_foldl _ _ _ 0 _ (by omega), ← List.range_eq_range']
  simp only []
  rw [data_update_calls]
  rfl

theorem frm_sym_ant_of_frm_sym (f y i : Nat) :
    gen_tag_t.frm_sym_ant (gen_tag_t.frm_sym f y).frame_id (gen_tag_t.frm_sym f y).symbol_id i
      = gen_tag_t.frm_sym_ant f y i := by
  simp [gen_tag_t.frm_sym_ant, gen_tag_t.frm_sym, to_uint32, to_uint16]

theorem update_tx_buffer_other (s : Sender) (src : TxSource) (bufs : Nat → Packet)
    (tag : gen_tag_t) (row : Nat) (h : row ≠ s.tag_to_tx_buffers_index tag) :
    s.update_tx_buffer src bufs tag row = bufs row := by
  unfold Sender.update_tx_buffer
  simp only [h, if_false]

theorem update_tx_buffer_congr (s : Sender) (src : TxSource) (b1 b2 : Nat → Packet)
    (tag : gen_tag_t)
    (h : b1 (s.tag_to_tx_buffers_index tag) = b2 (s.tag_to_tx_buffers_index tag)) :
    s.update_tx_buffer src b1 tag (s.tag_to_tx_buffers_index tag)
      = s.update_tx_buffer src b2 tag (s.tag_to_tx_buffers_index tag) := by
  unfold Sender.update_tx_buffer
  simp only [if_true, h]

theorem data_update_buffers (s : Sender) (src : TxSource) (tag : gen_tag_t) :
    ∀ (l : List Nat) (acc : (Nat → Packet) × List gen_tag_t),
      (l.foldl (fun a k =>
          (s.update_tx_buffer src a.1 (gen_tag_t.frm_sym_ant tag.frame_id tag.symbol_id k),
            a.2 ++ [gen_tag_t.frm_sym_ant tag.frame_id tag.symbol_id k])) acc).1
        = l.foldl (fun b k =>
            s.update_tx_buffer src b (gen_tag_t.frm_sym_ant tag.frame_id tag.symbol_id k))
            acc.1 := by
  intro l
  induction l with
  | nil => intro acc; rfl
  | cons k rest ih =>
    intro acc
    rw [List.foldl_cons, List.foldl_cons, ih]

/-- The rows of `tx_buffers_` after one iteration of `data_update_thread`:
the calls of `update_tx_buffer` applied one after the other. -/
theorem data_update_iteration_buffers (s : Sender) (src : TxSource)
    (tx_buffers_ : Nat → Packet) (tag : gen_tag_t) :
    (s.data_update_iteration src tx_buffers_ tag).1
      = (List.range s.cfg.BS_ANT_NUM).foldl (fun b k =>
          s.update_tx_buffer src b (gen_tag_t.frm_sym_ant tag.frame_id tag.symbol_id k))
          tx_buffers_ := by
  unfold Sender.data_update_iteration
  rw [for_loop_eq_foldl _ _ _ 0 _ (by omega), ← List.range_eq_range']
  simp only []
  rw [data_update_buffers]

theorem foldl_update_other (s : Sender) (src : TxSource) (T : Nat → gen_tag_t) :
    ∀ (l : List Nat) (b : Nat → Packet) (row : Nat),
      (∀ k ∈ l, row ≠ s.tag_to_tx_buffers_index (T k)) →
      (l.foldl (fun b k => s.update_tx_buffer src b (T k)) b) row = b row := by
  intro l
  induction l with
  | nil => intro b row _; rfl
  | cons k rest ih =>
    intro b row h
    rw [List.foldl_cons, ih _ row (fun j hj => h j (List.mem_cons_of_mem _ hj))]
    exact update_tx_buffer_other s src b (T k) row (h k (List.mem_cons_self _ _))

theorem foldl_update_at (s : Sender) (src : TxSource) (T : Nat → gen_tag_t) (i : Nat) :
    ∀ (l : List Nat) (b : Nat → Packet), l.Nodup → i ∈ l →
      (∀ k ∈ l, k ≠ i → s.tag_to_tx_buffers_index (T k) ≠ s.tag_to_tx_buffers_index (T i)) →
      (l.foldl (fun b k => s.update_tx_buffer src b (T k)) b)
          (s.tag_to_tx_buffers_index (T i))
        = s.update_tx_buffer src b (T i) (s.tag_to_tx_buffers_index (T i)) := by
  intro l
  induction l with
  | nil => intro b _ hi; exact absurd hi (List.not_mem_nil i)
  | cons k rest ih =>
    intro b hnd hi hinj
    obtain ⟨hk, hrest⟩ := List.nodup_cons.mp hnd
    rw [List.foldl_cons]
    by_cases hki : k = i
    · subst hki
      apply foldl_update_other
      intro j hj
      have hjk : j ≠ k := fun h => hk (h ▸ hj)
      exact fun h => hinj j (List.mem_cons_of_mem _ hj) hjk h.symm
    · have hi2 : i ∈ rest := by
        rcases List.mem_cons.mp hi with h | h
        · exact absurd h.symm hki
        · exact h
      rw [ih _ hrest hi2 (fun j hj => hinj j (List.mem_cons_of_mem _ hj))]
      apply update_tx_buffer_congr
      exact update_tx_buffer_other s src b (T k) _
        (fun h => hinj k (List.mem_cons_self _ _) hki h.symm)

theorem tx_index_ant_inj (s : Sender) (f y i k : Nat) (hi : i < 2 ^ 16) (hk : k < 2 ^ 16)
    (h : s.tag_to_tx_buffers_index (gen_tag_t.frm_sym_ant f y i)
        = s.tag_to_tx_buffers_index (gen_tag_t.frm_sym_ant f y k)) : i = k := by
  rw [tag_to_tx_buffers_index_mod, tag_to_tx_buffers_index_mod] at h
  unfold canonical_offset to_size_t SIZE_RANGE gen_tag_t.frm_sym_ant to_uint16 at h
  simp only [] at h
  rw [Nat.mod_eq_of_lt hi, Nat.mod_eq_of_lt hk] at h
  have h2 : i % 2 ^ 64 = k % 2 ^ 64 := Nat.ModEq.add_left_cancel' _ h
  rw [Nat.mod_eq_of_lt (by omega), Nat.mod_eq_of_lt (by omega)] at h2
  exact h2

theorem canonical_offset_slot (F S D f y i : Nat) (hy : y < S) (hi : i < D) :
    (f % F) * (S * D) ≤ canonical_offset F S D f y i
    ∧ canonical_offset F S D f y i < (f % F + 1) * (S * D) := by
  unfold canonical_offset
  have h1 : (y + 1) * D ≤ S * D := Nat.mul_le_mul_right _ hy
  have h2 : (f % F * S + y) * D = f % F * (S * D) + y * D := by ring
  have h3 : (f % F + 1) * (S * D) = f % F * (S * D) + S * D := by ring
  rw [Nat.add_mul, Nat.one_mul] at h1
  rw [h2, h3]
  constructor
  · omega
  · omega

/-- C14: when the master processes the completion that brings the count of
symbol `y` of frame `f` to `BS_ANT_NUM` and does not leave its loop on it, it
issues the one data-update request `frm_sym(f + 1, y)`.  Serving that request,
`data_update_thread` calls `update_tx_buffer` for the tags
`frm_sym_ant(f + 1, y, i)`, `i < BS_ANT_NUM`, in ascending `i` and for no
other tag.  Each such call leaves every row of `tx_buffers_` other than row
`tag_to_tx_buffers_index(f + 1, y, i)` as it was; that row is the canonical
offset of slot `(f + 1) mod F`, symbol `y`, antenna `i` (as a `size_t`), and
its header becomes `frame_id = f + 1`, `cell_id = 0`, `ant_id = i` (the
values the tag holds: `f + 1` below `2^32`, `y` and `i` below `2^16`).
For the rows of `tx_buffers_` after the request is served: every row that is
the index of none of these tags is as it was before; with at most `2^16`
antennas the row of each antenna `i` is what the one call for `i` makes of
the row as it was before the request, with the header `frame_id = f + 1`,
`symbol_id = getSymbolId(y)`, `cell_id = 0`, `ant_id = i`; and when the
buffer is representable (`F * S * D ≤ 2^64`, `F ≥ 1`, `y < S`) that row is
`((f + 1) mod F * S + y) * D + i`, inside the rows of slot `(f + 1) mod F`. -/
theorem data_update_one_frame_ahead (s : Sender) (st : MasterState) (ctag : gen_tag_t)
    (t_end t_start : Nat) (src : TxSource) (tx_buffers_ : Nat → Packet)
    (hlast : to_size_t (st.packet_count_per_symbol
        (ctag.frame_id % s.SOCKET_BUFFER_FRAME_NUM) ctag.symbol_id + 1) = s.cfg.BS_ANT_NUM)
    (hgo : (s.master_step st ctag t_end t_start).2.stop = false) :
    (s.master_step st ctag t_end t_start).2.updates
      = [gen_tag_t.frm_sym (ctag.frame_id + 1) ctag.symbol_id]
    ∧ (s.data_update_iteration src tx_buffers_
          (gen_tag_t.frm_sym (ctag.frame_id + 1) ctag.symbol_id)).2
        = (List.range s.cfg.BS_ANT_NUM).map
            (gen_tag_t.frm_sym_ant (ctag.frame_id + 1) ctag.symbol_id)
    ∧ (∀ (i : Nat) (bufs : Nat → Packet),
        (∀ row, row ≠ s.tag_to_tx_buffers_index
              (gen_tag_t.frm_sym_ant (ctag.frame_id + 1) ctag.symbol_id i) →
            s.update_tx_buffer src bufs
                (gen_tag_t.frm_sym_ant (ctag.frame_id + 1) ctag.symbol_id i) row
              = bufs row)
        ∧ (ctag.frame_id + 1 < 2 ^ 32 → ctag.symbol_id < 2 ^ 16 → i < 2 ^ 16 →
            gen_tag_t.frm_sym_ant (ctag.frame_id + 1) ctag.symbol_id i
                = { frame_id := ctag.frame_id + 1, symbol_id := ctag.symbol_id, ant_id := i,
                    tag_type := TagType.kAntennas }
            ∧ s.tag_to_tx_buffers_index
                  (gen_tag_t.frm_sym_ant (ctag.frame_id + 1) ctag.symbol_id i)
                = ((((ctag.frame_id + 1) % s.SOCKET_BUFFER_FRAME_NUM) * s.get_max_symbol_id
                      + ctag.symbol_id) * s.cfg.BS_ANT_NUM + i) % 2 ^ 64
            ∧ (s.update_tx_buffer src bufs
                  (gen_tag_t.frm_sym_ant (ctag.frame_id + 1) ctag.symbol_id i)
                  (s.tag_to_tx_buffers_index
                    (gen_tag_t.frm_sym_ant (ctag.frame_id + 1) ctag.symbol_id i))).frame_id
                = ctag.frame_id + 1
            ∧ (s.update_tx_buffer src bufs
                  (gen_tag_t.frm_sym_ant (ctag.frame_id + 1) ctag.symbol_id i)
                  (s.tag_to_tx_buffers_index
                    (gen_tag_t.frm_sym_ant (ctag.frame_id + 1) ctag.symbol_id i))).cell_id
                = 0
            ∧ (s.update_tx_buffer src bufs
                  (gen_tag_t.frm_sym_ant (ctag.frame_id + 1) ctag.symbol_id i)
                  (s.tag_to_tx_buffers_index
                    (gen_tag_t.frm_sym_ant (ctag.frame_id + 1) ctag.symbol_id i))).ant_id
                = i))
    ∧ (∀ row,
        (∀ i, i < s.cfg.BS_ANT_NUM → row ≠ s.tag_to_tx_buffers_index
            (gen_tag_t.frm_sym_ant (ctag.frame_id + 1) ctag.symbol_id i)) →
        (s.data_update_iteration src tx_buffers_
            (gen_tag_t.frm_sym (ctag.frame_id + 1) ctag.symbol_id)).1 row
          = tx_buffers_ row)
    ∧ (s.cfg.BS_ANT_NUM ≤ 2 ^ 16 → ∀ i, i < s.cfg.BS_ANT_NUM →
        (s.data_update_iteration src tx_buffers_
            (gen_tag_t.frm_sym (ctag.frame_id + 1) ctag.symbol_id)).1
            (s.tag_to_tx_buffers_index
              (gen_tag_t.frm_sym_ant (ctag.frame_id + 1) ctag.symbol_id i))
          = s.update_tx_buffer src tx_buffers_
              (gen_tag_t.frm_sym_ant (ctag.frame_id + 1) ctag.symbol_id i)
              (s.tag_to_tx_buffers_index
                (gen_tag_t.frm_sym_ant (ctag.frame_id + 1) ctag.symbol_id i)))
    ∧ (s.cfg.BS_ANT_NUM ≤ 2 ^ 16 → ctag.frame_id + 1 < 2 ^ 32 → ctag.symbol_id < 2 ^ 16 →
        ∀ i, i < s.cfg.BS_ANT_NUM →
          (s.data_update_iteration src tx_buffers_
              (gen_tag_t.frm_sym (ctag.frame_id + 1) ctag.symbol_id)).1
              (s.tag_to_tx_buffers_index
                (gen_tag_t.frm_sym_ant (ctag.frame_id + 1) ctag.symbol_id i))
            = { frame_id := ctag.frame_id + 1
                symbol_id := to_uint32 (src.getSymbolId ctag.symbol_id)
                cell_id := 0
                ant_id := i
                data :=
                  (src.IQ_data_coded
                      (to_size_t (to_size_t (ctag.symbol_id * s.cfg.BS_ANT_NUM) + i))).take
                    (2 * src.OFDM_FRAME_LEN)
                  ++ (tx_buffers_ (s.tag_to_tx_buffers_index
                        (gen_tag_t.frm_sym_ant (ctag.frame_id + 1) ctag.symbol_id i))).data.drop
                      (2 * src.OFDM_FRAME_LEN) })
    ∧ (0 < s.SOCKET_BUFFER_FRAME_NUM →
        s.SOCKET_BUFFER_FRAME_NUM * s.get_max_symbol_id * s.cfg.BS_ANT_NUM ≤ 2 ^ 64 →
        ctag.frame_id + 1 < 2 ^ 32 → ctag.symbol_id < 2 ^ 16 →
        ctag.symbol_id < s.get_max_symbol_id →
        ∀ i, i < s.cfg.BS_ANT_NUM → i < 2 ^ 16 →
          s.tag_to_tx_buffers_index
              (gen_tag_t.frm_sym_ant (ctag.frame_id + 1) ctag.symbol_id i)
            = (((ctag.frame_id + 1) % s.SOCKET_BUFFER_FRAME_NUM) * s.get_max_symbol_id
                + ctag.symbol_id) * s.cfg.BS_ANT_NUM + i
          ∧ ((ctag.frame_id + 1) % s.SOCKET_BUFFER_FRAME_NUM)
                * (s.get_max_symbol_id * s.cfg.BS_ANT_NUM)
              ≤ s.tag_to_tx_buffers_index
                  (gen_tag_t.frm_sym_ant (ctag.frame_id + 1) ctag.symbol_id i)
          ∧ s.tag_to_tx_buffers_index
                (gen_tag_t.frm_sym_ant (ctag.frame_id + 1) ctag.symbol_id i)
              < ((ctag.frame_id + 1) % s.SOCKET_BUFFER_FRAME_NUM + 1)
                  * (s.get_max_symbol_id * s.cfg.BS_ANT_NUM)) := by
  have hreq : gen_tag_t.frm_sym (to_uint32 (ctag.frame_id + 1)) ctag.symbol_id
      = gen_tag_t.frm_sym (ctag.frame_id + 1) ctag.symbol_id := by
    simp [gen_tag_t.frm_sym, to_uint32]
  have htagof : ∀ i, ctag.frame_id + 1 < 2 ^ 32 → ctag.symbol_id < 2 ^ 16 → i < 2 ^ 16 →
      gen_tag_t.frm_sym_ant (ctag.frame_id + 1) ctag.symbol_id i
        = { frame_id := ctag.frame_id + 1, symbol_id := ctag.symbol_id, ant_id := i,
            tag_type := TagType.kAntennas } := by
    intro i hf hy hi
    unfold gen_tag_t.frm_sym_ant to_uint32 to_uint16
    rw [Nat.mod_eq_of_lt hf, Nat.mod_eq_of_lt hy, Nat.mod_eq_of_lt hi]
  have hbufs : (s.data_update_iteration src tx_buffers_
        (gen_tag_t.frm_sym (ctag.frame_id + 1) ctag.symbol_id)).1
      = (List.range s.cfg.BS_ANT_NUM).foldl (fun b k =>
          s.update_tx_buffer src b
            (gen_tag_t.frm_sym_ant (ctag.frame_id + 1) ctag.symbol_id k)) tx_buffers_ := by
    rw [data_update_iteration_buffers]
    congr 1
    funext b k
    rw [frm_sym_ant_of_frm_sym]
  have hat : s.cfg.BS_ANT_NUM ≤ 2 ^ 16 → ∀ i, i < s.cfg.BS_ANT_NUM →
      (s.data_update_iteration src tx_buffers_
          (gen_tag_t.frm_sym (ctag.frame_id + 1) ctag.symbol_id)).1
          (s.tag_to_tx_buffers_index
            (gen_tag_t.frm_sym_ant (ctag.frame_id + 1) ctag.symbol_id i))
        = s.update_tx_buffer src tx_buffers_
            (gen_tag_t.frm_sym_ant (ctag.frame_id + 1) ctag.symbol_id i)
            (s.tag_to_tx_buffers_index
              (gen_tag_t.frm_sym_ant (ctag.frame_id + 1) ctag.symbol_id i)) := by
    intro hA i hi
    rw [hbufs]
    apply foldl_update_at s src
      (fun k => gen_tag_t.frm_sym_ant (ctag.frame_id + 1) ctag.symbol_id k) i
      (List.range s.cfg.BS_ANT_NUM) tx_buffers_ (List.nodup_range _) (List.mem_range.mpr hi)
    intro k hk hki h
    have hk2 := List.mem_range.mp hk
    exact hki (tx_index_ant_inj s _ _ k i (by omega) (by omega) h)
  refine ⟨?_, ?_, ?_, ?_, hat, ?_, ?_⟩
  · unfold Sender.master_step at hgo ⊢
    simp only [hlast, if_true] at hgo ⊢
    split_ifs at hgo ⊢ <;> exact congrArg (fun t => [t]) hreq
  · rw [data_update_iteration_calls]
    congr 1
    funext i
    exact frm_sym_ant_of_frm_sym _ _ i
  · intro i bufs
    refine ⟨?_, ?_⟩
    · intro row hrow
      exact update_tx_buffer_other s src bufs _ row hrow
    · intro hf hy hi
      have htag := htagof i hf hy hi
      refine ⟨htag, ?_, ?_, ?_, ?_⟩
      · rw [htag]
        exact (tag_to_tx_buffers_index_mod s _)
      · unfold Sender.update_tx_buffer
        simp only [if_true]
        rw [htag]
      · unfold Sender.update_tx_buffer
        simp only [if_true]
      · unfold Sender.update_tx_buffer
        simp only [if_true]
        rw [htag]
  · intro row hrow
    rw [hbufs]
    apply foldl_update_other s src
      (fun k => gen_tag_t.frm_sym_ant (ctag.frame_id + 1) ctag.symbol_id k)
    intro k hk
    exact hrow k (List.mem_range.mp hk)
  · intro hA hf hy i hi
    rw [hat hA i hi]
    have htag := htagof i hf hy (by omega)
    unfold Sender.update_tx_buffer
    simp only [if_true]
    rw [htag]
  · intro hF hfit hf hy hyS i hi hi16
    have htag := htagof i hf hy hi16
    have hidx : s.tag_to_tx_buffers_index
          (gen_tag_t.frm_sym_ant (ctag.frame_id + 1) ctag.symbol_id i)
        = canonical_offset s.SOCKET_BUFFER_FRAME_NUM s.get_max_symbol_id s.cfg.BS_ANT_NUM
            (ctag.frame_id + 1) ctag.symbol_id i := by
      rw [tag_to_tx_buffers_index_mod, htag]
      exact to_size_t_of_lt _ (lt_of_lt_of_le
        (canonical_offset_lt s.SOCKET_BUFFER_FRAME_NUM s.get_max_symbol_id
          s.cfg.BS_ANT_NUM (ctag.frame_id + 1) ctag.symbol_id i hF hyS hi) hfit)
    have hslot := canonical_offset_slot s.SOCKET_BUFFER_FRAME_NUM s.get_max_symbol_id
      s.cfg.BS_ANT_NUM (ctag.frame_id + 1) ctag.symbol_id i hyS hi
    rw [hidx]
    exact ⟨rfl, hslot.1, hslot.2⟩

/-- Witness of C14: with 3 antennas, the third completion of frame 0, symbol 1
makes the master request `frm_sym(1, 1)`; serving it for antenna 2 rewrites
row `(1 * 2 + 1) * 3 + 2 = 11`, which afterwards holds the header of frame 1,
antenna 2, and leaves row 0 as it was. -/
theorem data_update_one_frame_ahead_witness :
    (example_sender.master_step
        { MasterState.zero with packet_count_per_symbol := fun _ _ => 2 }
        (gen_tag_t.frm_sym_ant 0 1 0) 7 8).2.updates = [gen_tag_t.frm_sym 1 1]
    ∧ (example_sender.data_update_iteration example_source zero_buffers
          (gen_tag_t.frm_sym 1 1)).2
        = [gen_tag_t.frm_sym_ant 1 1 0, gen_tag_t.frm_sym_ant 1 1 1,
            gen_tag_t.frm_sym_ant 1 1 2]
    ∧ example_sender.tag_to_tx_buffers_index (gen_tag_t.frm_sym_ant 1 1 2) = 11
    ∧ (example_sender.update_tx_buffer example_source zero_buffers
          (gen_tag_t.frm_sym_ant 1 1 2) 11).frame_id = 1
    ∧ (example_sender.data_update_iteration example_source zero_buffers
          (gen_tag_t.frm_sym 1 1)).1 11
        = { frame_id := 1, symbol_id := 1, cell_id := 0, ant_id := 2,
            data := [5, 6, 7, 8] }
    ∧ (example_sender.data_update_iteration example_source zero_buffers
          (gen_tag_t.frm_sym 1 1)).1 0 = zero_buffers 0 :=
  have h := data_update_one_frame_ahead example_sender
    { MasterState.zero with packet_count_per_symbol := fun _ _ => 2 }
    (gen_tag_t.frm_sym_ant 0 1 0) 7 8 example_source zero_buffers (by decide) (by decide)
  ⟨h.1, h.2.1.trans (by decide),
    ((h.2.2.1 2 zero_buffers).2 (by decide) (by decide) (by decide)).2.1.trans (by decide),
    by decide,
    (h.2.2.2.2.2.1 (by decide) (by decide) (by decide) 2 (by decide)).trans (by decide),
    h.2.2.2.1 0 (by decide)⟩

/-! ## Claims on the channel simulator -/

theorem to_int_of_lt (n : Nat) (h : n < 2 ^ 31) : to_int n = (n : Int) := by
  unfold to_int
  have h1 : n % 2 ^ 32 = n := Nat.mod_eq_of_lt (by omega)
  rw [h1, if_pos h]

theorem int_to_size_t_natCast (n : Nat) (h : n < 2 ^ 64) : int_to_size_t (n : Int) = n := by
  unfold int_to_size_t
  have h1 : ((n : Int) % 2 ^ 64) = (n : Int) := Int.emod_eq_of_lt (by omega) (by exact_mod_cast h)
  rw [h1]
  simp

theorem shard_cut_le (N T t : Nat) (hT : 0 < T) (ht : t ≤ T) : t * N / T ≤ N := by
  have h1 : t * N ≤ T * N := Nat.mul_le_mul_right _ ht
  calc t * N / T ≤ T * N / T := Nat.div_le_div_right h1
    _ = N := Nat.mul_div_cancel_left _ hT

theorem shard_cut_mono (N T t1 t2 : Nat) (h : t1 ≤ t2) : t1 * N / T ≤ t2 * N / T :=
  Nat.div_le_div_right (Nat.mul_le_mul_right _ h)

theorem shard_cut_cover (N T x : Nat) :
    ∀ k, x < k * N / T → ∃ t, t < k ∧ t * N / T ≤ x ∧ x < (t + 1) * N / T := by
  intro k
  induction k with
  | zero => intro h; simp at h
  | succ k ih =>
    intro h
    by_cases hk : x < k * N / T
    · obtain ⟨t, ht, h1, h2⟩ := ih hk
      exact ⟨t, by omega, h1, h2⟩
    · exact ⟨k, by omega, by omega, h⟩

theorem shard_lo_eq (N T t : Nat) (hT : 0 < T) (hN : N < 2 ^ 31) (hfit : T * N < 2 ^ 64)
    (ht : t ≤ T) : shard_lo (t : Int) N T = ((t * N / T : Nat) : Int) := by
  rcases Nat.eq_zero_or_pos N with h0 | hpos
  · subst h0
    simp [shard_lo, to_size_t, to_int]
  · have hTlt : T < 2 ^ 64 := by
      have : T * 1 ≤ T * N := Nat.mul_le_mul_left _ hpos
      omega
    have h1 : t * N ≤ T * N := Nat.mul_le_mul_right _ ht
    unfold shard_lo
    rw [int_to_size_t_natCast t (by omega), to_size_t_of_lt _ (by omega),
      to_int_of_lt _ (lt_of_le_of_lt (shard_cut_le N T t hT ht) hN)]

theorem shard_hi_eq (N T t : Nat) (hT : 0 < T) (hN : N < 2 ^ 31) (hfit : T * N < 2 ^ 64)
    (ht : t < T) : shard_hi (t : Int) N T = (((t + 1) * N / T : Nat) : Int) := by
  have h := shard_lo_eq N T (t + 1) hT hN hfit ht
  unfold shard_lo at h
  unfold shard_hi
  rw [← h]
  norm_cast

/-- The ranges `[t * N / T, (t + 1) * N / T)` of `T` shards cut `[0, N)` into
consecutive pieces, when `N` fits an `int` and `T * N` a `size_t`. -/
theorem shard_ranges_partition (N T : Nat) (hT : 1 ≤ T) (hN : N < 2 ^ 31)
    (hfit : T * N < 2 ^ 64) :
    RangesPartition (fun tid => shard_lo tid N T) (fun tid => shard_hi tid N T) T N := by
  refine ⟨?_, ?_, ?_, ?_, ?_, ?_⟩
  · have h := shard_lo_eq N T 0 hT hN hfit (by omega)
    simpa using h
  · have h := shard_hi_eq N T (T - 1) hT hN hfit (by omega)
    simp only [] at h ⊢
    rw [h, show T - 1 + 1 = T by omega, Nat.mul_div_cancel_left _ hT]
  · intro t ht
    simp only []
    rw [shard_hi_eq N T t hT hN hfit ht]
    have h := shard_lo_eq N T (t + 1) hT hN hfit ht
    rw [← h]
    norm_cast
  · intro t ht
    simp only []
    rw [shard_lo_eq N T t hT hN hfit (by omega), shard_hi_eq N T t hT hN hfit ht]
    refine ⟨by positivity, ?_, ?_⟩
    · exact_mod_cast shard_cut_mono N T t (t + 1) (by omega)
    · exact_mod_cast shard_cut_le N T (t + 1) hT ht
  · intro t1 t2 h12 h2
    simp only []
    rw [shard_hi_eq N T t1 hT hN hfit (by omega), shard_lo_eq N T t2 hT hN hfit (by omega)]
    exact_mod_cast shard_cut_mono N T (t1 + 1) t2 h12
  · intro x hx0 hxN
    obtain ⟨n, rfl⟩ := Int.eq_ofNat_of_zero_le hx0
    have hn : n < N := by exact_mod_cast hxN
    obtain ⟨t, ht, h1, h2⟩ := shard_cut_cover N T n T
      (by rw [Nat.mul_div_cancel_left _ hT]; exact hn)
    refine ⟨t, ht, ?_, ?_⟩
    · simp only []
      rw [shard_lo_eq N T t hT hN hfit (by omega)]
      exact_mod_cast h1
    · simp only []
      rw [shard_hi_eq N T t hT hN hfit ht]
      exact_mod_cast h2

/-- C15: for every socket count `N` and shard count `T ≥ 1` (with `N` below
`2^31`, the range of the `int` the bounds are kept in, and `T * N` below
`2^64`), the ranges `[lo_t, hi_t)`, `lo_t = t * N / T`,
`hi_t = (t + 1) * N / T`, that the BS-side RX shards `t = 0 .. T-1` of the
channel simulator compute from `bs_socket_num` and `bs_thread_num` are
pairwise disjoint and their union is `[0, N)`: `lo_0 = 0`, `hi_(T-1) = N`
and `hi_t = lo_(t+1)`.  The same holds for the radio ranges of
`Sender::worker_thread`. -/
theorem rx_shard_ranges_partition :
    (∀ cs : ChannelSim, 1 ≤ cs.bs_thread_num → cs.bs_socket_num < 2 ^ 31 →
      cs.bs_thread_num * cs.bs_socket_num < 2 ^ 64 →
      RangesPartition cs.bs_socket_lo cs.bs_socket_hi cs.bs_thread_num cs.bs_socket_num)
    ∧ (∀ (s : Sender) (nRadios : Nat), 1 ≤ s.thread_num → nRadios < 2 ^ 31 →
      s.thread_num * nRadios < 2 ^ 64 →
      RangesPartition (s.radio_lo nRadios) (s.radio_hi nRadios) s.thread_num nRadios) :=
  ⟨fun cs hT hN hfit => shard_ranges_partition cs.bs_socket_num cs.bs_thread_num hT hN hfit,
   fun s nRadios hT hN hfit => shard_ranges_partition nRadios s.thread_num hT hN hfit⟩

/-- Witness of C15: 7 sockets on 3 BS-side shards are cut into `[0, 2)`,
`[2, 4)` and `[4, 7)`. -/
theorem rx_shard_ranges_partition_witness :
    RangesPartition example_sim_three_shards.bs_socket_lo
        example_sim_three_shards.bs_socket_hi 3 7
    ∧ [example_sim_three_shards.bs_socket_lo 0, example_sim_three_shards.bs_socket_hi 0,
        example_sim_three_shards.bs_socket_hi 1, example_sim_three_shards.bs_socket_hi 2]
      = [0, 2, 4, 7] :=
  ⟨rx_shard_ranges_partition.1 example_sim_three_shards (by decide) (by decide) (by decide),
    by decide⟩

/-- C16, the code at the failing input: with one BS-side shard,
one UE-side shard and one UE-side socket, `ChannelSim::start` gives the
UE-side shard the thread id `0 + bs_thread_num = 1`, and `ue_rx_loop(1)`
computes the socket range `[1, 2)`: it lies outside `[0, user_socket_num)`,
the only socket 0 is in no shard's range, and the shard indexes
`udp_server_uerx[1]`, which does not exist. -/
theorem ue_rx_socket_range_shifted :
    example_sim.ue_rx_tid 0 = 1
    ∧ example_sim.ue_socket_lo (example_sim.ue_rx_tid 0) = 1
    ∧ example_sim.ue_socket_hi (example_sim.ue_rx_tid 0) = 2
    ∧ ¬ (example_sim.ue_socket_hi (example_sim.ue_rx_tid 0)
          ≤ (example_sim.user_socket_num : Int))
    ∧ ¬ (example_sim.ue_socket_lo (example_sim.ue_rx_tid 0) ≤ 0
          ∧ 0 < example_sim.ue_socket_hi (example_sim.ue_rx_tid 0)) := by
  decide

/-- C18, the code at the failing input: 2 users, frame schedule
"PUU", counters zero.  The master processes the `kPacketRX` event of user 0
for frame 0, symbol 1 (uplink symbol 0) and then that of user 0 for frame 0,
symbol 2 (uplink symbol 1).  Both events count on
`user_rx_counter_[(0 % F) * ul_symbol_id] = user_rx_counter_[0]`, so the
second one schedules the BS-side TX task for frame 0, symbol 2, of which one
packet only has arrived. -/
theorem channel_sim_rx_counter_collision :
    (example_sim.handle_events SimCounters.zero
        [{ event_type := EventType.kPacketRX, tag := gen_tag_t.frm_sym_ue 0 1 0 },
         { event_type := EventType.kPacketRX, tag := gen_tag_t.frm_sym_ue 0 2 0 }]).2
      = [{ task_queue_bs := [], task_queue_user := [] },
         { task_queue_bs :=
             [{ event_type := EventType.kPacketTX, tag := gen_tag_t.frm_sym_ue 0 2 0 }]
           task_queue_user := [] }] := by
  decide

/-- C19, the code at the failing inputs: with a task on
`task_queue_bs` (and one on `task_queue_user`), one iteration of `taskThread`
dequeues the BS task and runs `do_tx_bs` and then `do_tx_user` on its tag,
leaving the UE task queued; with both queues empty it runs `do_tx_user` on
the tag left in `event` by an earlier iteration. -/
theorem task_thread_always_runs_do_tx_user :
    example_sim.taskThread_iteration 0
        { task_queue_bs := [{ event_type := EventType.kPacketTX,
                              tag := gen_tag_t.frm_sym_ue 3 1 0 }]
          task_queue_user := [{ event_type := EventType.kPacketTX,
                                tag := gen_tag_t.frm_sym_ant 5 2 0 }]
          event := { event_type := EventType.kPacketRX, tag := gen_tag_t.frm_sym 0 0 } }
      = ({ task_queue_bs := []
           task_queue_user := [{ event_type := EventType.kPacketTX,
                                 tag := gen_tag_t.frm_sym_ant 5 2 0 }]
           event := { event_type := EventType.kPacketTX,
                      tag := gen_tag_t.frm_sym_ue 3 1 0 } },
         [TxCall.do_tx_bs 0 (gen_tag_t.frm_sym_ue 3 1 0),
          TxCall.do_tx_user 0 (gen_tag_t.frm_sym_ue 3 1 0)])
    ∧ (example_sim.taskThread_iteration 0
        { task_queue_bs := []
          task_queue_user := []
          event := { event_type := EventType.kPacketTX,
                     tag := gen_tag_t.frm_sym_ue 3 1 0 } }).2
      = [TxCall.do_tx_user 0 (gen_tag_t.frm_sym_ue 3 1 0)] := by
  decide

/-! ## Claims on demodulation -/

/-- C20, counterexample: with `demul_block_size = 4` and
`OFDM_DATA_NUM = 8`, `launch` with assertions compiled in is called on the tag
of frame 0, subcarrier 0: `max_sc_ite` is 4, the assertion
`max_sc_ite % kSCsPerCacheline == 0` fails and no event is returned. -/
theorem demul_launch_assert_counterexample :
    DoDemul.max_sc_ite { demul_block_size := 4, OFDM_DATA_NUM := 8 }
        (gen_tag_t.frm_sc 0 0).sc_id = 4
    ∧ DoDemul.launch true { demul_block_size := 4, OFDM_DATA_NUM := 8 }
        (gen_tag_t.frm_sc 0 0) = none := by
  decide

/-- C20, amended: for every tag on which the assertion of `launch` holds,
`max_sc_ite % kSCsPerCacheline == 0`, `DoDemul::launch(tag)` returns a
completion event whose kind is `EventType::kDemul` and whose tag is the input
tag, unchanged, whether assertions are compiled in or not; whenever
`launch` returns an event, it is that one; and for every tag on which the
assertion fails, `launch` with assertions compiled in aborts and returns no
event. -/
theorem demul_launch_event (assertions : Bool) (cfg : DemulConfig) (tag : gen_tag_t) :
    (DoDemul.max_sc_ite cfg tag.sc_id % kSCsPerCacheline = 0 →
      DoDemul.launch assertions cfg tag
        = some { event_type := EventType.kDemul, tag := tag })
    ∧ (∀ e, DoDemul.launch assertions cfg tag = some e →
        e.event_type = EventType.kDemul ∧ e.tag = tag)
    ∧ (DoDemul.max_sc_ite cfg tag.sc_id % kSCsPerCacheline ≠ 0 →
        DoDemul.launch true cfg tag = none) := by
  refine ⟨?_, ?_, ?_⟩
  · intro h
    have hlt : DoDemul.max_sc_ite cfg tag.sc_id < SIZE_RANGE := by
      unfold DoDemul.max_sc_ite
      exact lt_of_le_of_lt (Nat.min_le_right _ _) (Nat.mod_lt _ (by unfold SIZE_RANGE; norm_num))
    have hwrap : ¬ SIZE_RANGE - kSCsPerCacheline < DoDemul.max_sc_ite cfg tag.sc_id := by
      unfold SIZE_RANGE kSCsPerCacheline at *
      omega
    unfold DoDemul.launch
    simp only []
    rw [if_neg (by simp [h]), if_neg hwrap]
  · intro e he
    unfold DoDemul.launch at he
    simp only [] at he
    split_ifs at he
    rw [← Option.some.inj he]
    exact ⟨rfl, rfl⟩
  · intro h
    unfold DoDemul.launch
    simp only [true_and]
    rw [if_pos h]

/-- Witness of C20, amended: blocks of 8 subcarriers out of 16, the tag of
frame 3, subcarrier 8, returns its event; blocks of 12 out of 24, the tag of
frame 3, subcarrier 12, fails the assertion and returns none. -/
theorem demul_launch_event_witness :
    DoDemul.max_sc_ite { demul_block_size := 8, OFDM_DATA_NUM := 16 }
        (gen_tag_t.frm_sc 3 8).sc_id % kSCsPerCacheline = 0
    ∧ DoDemul.launch true { demul_block_size := 8, OFDM_DATA_NUM := 16 }
        (gen_tag_t.frm_sc 3 8)
      = some { event_type := EventType.kDemul, tag := gen_tag_t.frm_sc 3 8 }
    ∧ DoDemul.max_sc_ite { demul_block_size := 12, OFDM_DATA_NUM := 24 }
        (gen_tag_t.frm_sc 3 12).sc_id % kSCsPerCacheline ≠ 0
    ∧ DoDemul.launch true { demul_block_size := 12, OFDM_DATA_NUM := 24 }
        (gen_tag_t.frm_sc 3 12) = none :=
  ⟨by decide,
    (demul_launch_event true { demul_block_size := 8, OFDM_DATA_NUM := 16 }
      (gen_tag_t.frm_sc 3 8)).1 (by decide),
    by decide,
    (demul_launch_event true { demul_block_size := 12, OFDM_DATA_NUM := 24 }
      (gen_tag_t.frm_sc 3 12)).2.2 (by decide)⟩

/-! ## Claims on the legacy sender -/

/-- C21, counterexample: with slow start and the tick budgets of
`example_sender`, at `tx_frame_count = 0` both legacy loops wait `ticks_100`
where `Sender::delay_for_symbol` waits `ticks_5`. -/
theorem legacy_wait_counterexample :
    PackageSender.startTX_wait example_sender.legacy_ticks 0 = example_sender.ticks_100
    ∧ PackageSender.loopSend_main_wait example_sender.legacy_ticks 0
        = example_sender.ticks_100
    ∧ example_sender.enable_slow_start = true
    ∧ example_sender.delay_for_symbol 0 = example_sender.ticks_5
    ∧ PackageSender.startTX_wait example_sender.legacy_ticks 0
        ≠ example_sender.delay_for_symbol 0
    ∧ PackageSender.loopSend_main_wait example_sender.legacy_ticks 0
        ≠ example_sender.delay_for_symbol 0 := by
  decide

/-- C21, amended: the legacy `PackageSender` master loops (`startTX` and
`loopSend_main`) select the per-subframe wait by `tx_frame_count`: `ticks_5`
when it equals 5, otherwise `ticks_100` when below 100 (so also for 0..4),
`ticks_200` when below 200, `ticks_500` when below 500, else `ticks_all`.
For every frame count from 5 on they pick the same tier as
`Sender::delay_for_symbol` with slow start enabled; for 0..4 they pick
`ticks_100` where `delay_for_symbol` picks `ticks_5`. -/
theorem legacy_wait_schedule (t : LegacyTicks) (s : Sender) (n : Nat) :
    PackageSender.loopSend_main_wait t n = PackageSender.startTX_wait t n
    ∧ (n = 5 → PackageSender.startTX_wait t n = t.ticks_5)
    ∧ (n ≠ 5 → n < 100 → PackageSender.startTX_wait t n = t.ticks_100)
    ∧ (100 ≤ n → n < 200 → PackageSender.startTX_wait t n = t.ticks_200)
    ∧ (200 ≤ n → n < 500 → PackageSender.startTX_wait t n = t.ticks_500)
    ∧ (500 ≤ n → PackageSender.startTX_wait t n = t.ticks_all)
    ∧ (s.enable_slow_start = true → 5 ≤ n →
        PackageSender.startTX_wait s.legacy_ticks n = s.delay_for_symbol n
        ∧ PackageSender.loopSend_main_wait s.legacy_ticks n = s.delay_for_symbol n)
    ∧ (s.enable_slow_start = true → n < 5 →
        PackageSender.startTX_wait s.legacy_ticks n = s.ticks_100
        ∧ PackageSender.loopSend_main_wait s.legacy_ticks n = s.ticks_100
        ∧ s.delay_for_symbol n = s.ticks_5) := by
  refine ⟨rfl, ?_, ?_, ?_, ?_, ?_, ?_, ?_⟩
  · intro h
    simp [PackageSender.startTX_wait, h]
  · intro h1 h2
    simp [PackageSender.startTX_wait, h1, h2]
  · intro h1 h2
    unfold PackageSender.startTX_wait
    rw [if_neg (by omega), if_neg (by omega), if_pos h2]
  · intro h1 h2
    unfold PackageSender.startTX_wait
    rw [if_neg (by omega), if_neg (by omega), if_neg (by omega), if_pos h2]
  · intro h1
    unfold PackageSender.startTX_wait
    rw [if_neg (by omega), if_neg (by omega), if_neg (by omega), if_neg (by omega)]
  · intro hs h5
    have key : PackageSender.startTX_wait s.legacy_ticks n = s.delay_for_symbol n := by
      unfold PackageSender.startTX_wait Sender.delay_for_symbol Sender.legacy_ticks
      simp only [hs, if_true]
      by_cases h : n = 5
      · subst h
        simp
      · have h6 : ¬ n ≤ 5 := by omega
        simp only [h, h6, if_false]
    exact ⟨key, key⟩
  · intro hs h5
    have key : PackageSender.startTX_wait s.legacy_ticks n = s.ticks_100 := by
      unfold PackageSender.startTX_wait Sender.legacy_ticks
      rw [if_neg (by omega), if_pos (by omega)]
    refine ⟨key, key, ?_⟩
    unfold Sender.delay_for_symbol
    rw [if_pos hs, if_pos (by omega)]

/-- Witness of C21, amended: at `tx_frame_count = 150` the legacy loop and
`delay_for_symbol` both wait `ticks_200`. -/
theorem legacy_wait_schedule_witness :
    (example_sender.enable_slow_start = true ∧ 5 ≤ 150)
    ∧ PackageSender.startTX_wait example_sender.legacy_ticks 150
        = example_sender.delay_for_symbol 150 :=
  ⟨by decide,
    ((legacy_wait_schedule example_sender.legacy_ticks example_sender 150).2.2.2.2.2.2.1
      (by decide) (by decide)).1⟩

/-! ## Claims on the order of the sender's waves -/

theorem waves_length (s : Sender) : ∀ n, (s.waves n).length = n * s.cfg.BS_ANT_NUM := by
  intro n
  induction n with
  | zero => simp [Sender.waves]
  | succ n ih =>
    rw [Sender.waves, List.length_append, ih, List.length_map, List.length_range]
    ring

theorem waves_getElem (s : Sender) (k i : Nat) (hi : i < s.cfg.BS_ANT_NUM) :
    ∀ n, k < n → (s.waves n)[k * s.cfg.BS_ANT_NUM + i]?
      = some (i % s.thread_num,
          gen_tag_t.frm_sym_ant (k / s.get_max_symbol_id) (k % s.get_max_symbol_id) i) := by
  intro n
  induction n with
  | zero => intro h; omega
  | succ n ih =>
    intro hk
    rw [Sender.waves]
    rcases Nat.lt_or_ge k n with h | h
    · have hlt : k * s.cfg.BS_ANT_NUM + i < (s.waves n).length := by
        rw [waves_length]
        have : (k + 1) * s.cfg.BS_ANT_NUM ≤ n * s.cfg.BS_ANT_NUM :=
          Nat.mul_le_mul_right _ h
        rw [Nat.add_mul] at this
        omega
      rw [List.getElem?_append_left hlt]
      exact ih h
    · have hkn : k = n := by omega
      subst hkn
      have hge : (s.waves k).length ≤ k * s.cfg.BS_ANT_NUM + i := by
        rw [waves_length]
        omega
      rw [List.getElem?_append_right hge, waves_length, Nat.add_sub_cancel_left,
        List.getElem?_map, List.getElem?_range hi]
      rfl

theorem position_div (S D f y j : Nat) (hy : y < S) (hj : j < D) :
    ((f * S + y) * D + j) / D = f * S + y
    ∧ (f * S + y) / S = f ∧ (f * S + y) % S = y := by
  have hD : 0 < D := by omega
  have hS : 0 < S := by omega
  refine ⟨?_, ?_, ?_⟩
  · rw [Nat.add_comm, Nat.add_mul_div_right _ _ hD, Nat.div_eq_of_lt hj, Nat.zero_add]
  · rw [Nat.add_comm, Nat.add_mul_div_right _ _ hS, Nat.div_eq_of_lt hy, Nat.zero_add]
  · rw [Nat.add_comm, Nat.add_mul_mod_self_right, Nat.mod_eq_of_lt hy]

theorem run_at_waves (s : Sender) (hw : s.well_sized) (n : Nat) (rs : RunState)
    (hat : RunAt s n rs) :
    rs.sends = s.waves (min (n / s.cfg.BS_ANT_NUM + 1)
        (s.cfg.frames_to_test * s.get_max_symbol_id))
    ∧ (∀ t ∈ rs.pending, t.frame_id = n / s.cfg.BS_ANT_NUM / s.get_max_symbol_id
        ∧ t.symbol_id = n / s.cfg.BS_ANT_NUM % s.get_max_symbol_id) := by
  rcases hat with ⟨f, y, j, hf, hy, hj, hn, hinv⟩ | ⟨hn, _, hpending, hsends⟩
  · obtain ⟨h1, h2, h3⟩ := position_div s.get_max_symbol_id s.cfg.BS_ANT_NUM f y j hy hj
    rw [hn] at h1
    rw [h1, h2, h3]
    have hle : f * s.get_max_symbol_id + y + 1
        ≤ s.cfg.frames_to_test * s.get_max_symbol_id := by
      have : (f + 1) * s.get_max_symbol_id ≤ s.cfg.frames_to_test * s.get_max_symbol_id :=
        Nat.mul_le_mul_right _ hf
      rw [Nat.add_mul] at this
      omega
    rw [Nat.min_eq_left hle]
    exact ⟨hinv.sends_eq, hinv.pending_tags⟩
  · rw [hn, Nat.mul_div_cancel _ hw.ants_pos, Nat.min_eq_right (Nat.le_succ _), hpending]
    refine ⟨hsends, ?_⟩
    intro t ht
    exact absurd ht (List.not_mem_nil t)

/-- C22: a run of `master_thread` started on zeroed counters in which every
emitted send task is completed exactly once, with `S = get_max_symbol_id()
≥ 1`, `D = BS_ANT_NUM ≥ 1`, at least one frame slot and one frame, and
counts that fit their fields (`D < 2^64`, `S ≤ 2^16`, `frames_to_test <
2^32`).  After the completions `cs` the master has emitted
`min (|cs| / D + 1) (frames_to_test * S)` waves of `D` send tasks each and
nothing else; the `k`-th wave (`k = 0` the initial one), for every `k` with
`k / S < frames_to_test` that is emitted so far, consists of the tasks
`frm_sym_ant(k / S, k mod S, i)` for `i = 0 .. D-1` in that order; and every
task still pending is of the one wave `k = |cs| / D`, so at most one
(frame, symbol) wave is in flight. -/
theorem master_thread_wave_order (s : Sender)
    (hF : 0 < s.SOCKET_BUFFER_FRAME_NUM)
    (hD : 1 ≤ s.cfg.BS_ANT_NUM) (hD64 : s.cfg.BS_ANT_NUM < 2 ^ 64)
    (hS : 1 ≤ s.get_max_symbol_id) (hS16 : s.get_max_symbol_id ≤ 2 ^ 16)
    (hft : 1 ≤ s.cfg.frames_to_test) (hft32 : s.cfg.frames_to_test < 2 ^ 32)
    (t0 : Nat) (cs : List Completion) (rs : RunState)
    (hrun : s.run (s.run_init t0) cs = some rs) :
    rs.sends.length
      = min (cs.length / s.cfg.BS_ANT_NUM + 1)
          (s.cfg.frames_to_test * s.get_max_symbol_id) * s.cfg.BS_ANT_NUM
    ∧ (∀ k i, k ≤ cs.length / s.cfg.BS_ANT_NUM →
        k / s.get_max_symbol_id < s.cfg.frames_to_test → i < s.cfg.BS_ANT_NUM →
        rs.sends[k * s.cfg.BS_ANT_NUM + i]?
          = some (i % s.thread_num,
              gen_tag_t.frm_sym_ant (k / s.get_max_symbol_id) (k % s.get_max_symbol_id) i))
    ∧ (∀ t ∈ rs.pending,
        t.frame_id = cs.length / s.cfg.BS_ANT_NUM / s.get_max_symbol_id
        ∧ t.symbol_id = cs.length / s.cfg.BS_ANT_NUM % s.get_max_symbol_id) := by
  have hw : s.well_sized := ⟨hF, hD, hD64, hS, hS16, hft, hft32⟩
  have hat := run_at s hw cs 0 (s.run_init t0) rs (run_init_at s hw t0) hrun
  rw [Nat.zero_add] at hat
  obtain ⟨hsends, hpending⟩ := run_at_waves s hw cs.length rs hat
  refine ⟨?_, ?_, hpending⟩
  · rw [hsends, waves_length]
  · intro k i hk hkf hi
    rw [hsends]
    apply waves_getElem s k i hi
    have h1 : k < s.cfg.frames_to_test * s.get_max_symbol_id :=
      (Nat.div_lt_iff_lt_mul hS).mp hkf
    exact lt_min (by omega) h1

/-- Witness of C22: in the run `example_run` (2 frames of 2 symbols, 3
antennas), the wave `k = 3` is that of frame 1, symbol 1. -/
theorem master_thread_wave_order_witness :
    ∃ rs, example_sender.run (example_sender.run_init 0) example_run = some rs
      ∧ rs.sends.length = 12
      ∧ rs.sends[3 * 3 + 2]? = some (0, gen_tag_t.frm_sym_ant 1 1 2) := by
  have hsome : (example_sender.run (example_sender.run_init 0) example_run).isSome = true := by
    decide
  obtain ⟨rs, hrs⟩ := Option.isSome_iff_exists.mp hsome
  have h := master_thread_wave_order example_sender (by decide) (by decide)
    (by decide) (by decide) (by decide) (by decide) (by decide) 0 example_run rs hrs
  exact ⟨rs, hrs, h.1.trans (by decide), (h.2.1 3 2 (by decide) (by decide) (by decide)).trans
    (by decide)⟩

/-! ## Claims on the counters of the sender's master thread -/

theorem master_step_counters (s : Sender)
    (hD : s.cfg.BS_ANT_NUM < 2 ^ 64) (hS : s.get_max_symbol_id < 2 ^ 64)
    (st : MasterState) (hinv : st.counters_below s) (ctag : gen_tag_t)
    (t_end t_start : Nat) :
    st.counters_step s (s.master_step st ctag t_end t_start).1
    ∧ ((s.master_step st ctag t_end t_start).2.stop = false →
        (s.master_step st ctag t_end t_start).1.counters_below s) := by
  obtain ⟨hps, hpf⟩ := hinv
  have hc : to_size_t (st.packet_count_per_symbol
      (ctag.frame_id % s.SOCKET_BUFFER_FRAME_NUM) ctag.symbol_id + 1)
      = st.packet_count_per_symbol
          (ctag.frame_id % s.SOCKET_BUFFER_FRAME_NUM) ctag.symbol_id + 1 := by
    apply to_size_t_of_lt
    have := hps (ctag.frame_id % s.SOCKET_BUFFER_FRAME_NUM) ctag.symbol_id
    omega
  have hf : to_size_t (st.packet_count_per_frame
      (ctag.frame_id % s.SOCKET_BUFFER_FRAME_NUM) + 1)
      = st.packet_count_per_frame (ctag.frame_id % s.SOCKET_BUFFER_FRAME_NUM) + 1 := by
    apply to_size_t_of_lt
    have := hpf (ctag.frame_id % s.SOCKET_BUFFER_FRAME_NUM)
    omega
  by_cases h : to_size_t (st.packet_count_per_symbol
      (ctag.frame_id % s.SOCKET_BUFFER_FRAME_NUM) ctag.symbol_id + 1) = s.cfg.BS_ANT_NUM
  · by_cases h2 : to_size_t (st.packet_count_per_frame
        (ctag.frame_id % s.SOCKET_BUFFER_FRAME_NUM) + 1) = s.get_max_symbol_id
    · by_cases h3 : to_uint32 (ctag.frame_id + 1) = s.cfg.frames_to_test
      · rw [master_step_stop s st ctag t_end t_start h h2 h3]
        rw [hc] at h
        rw [hf] at h2 ⊢
        refine ⟨⟨?_, ?_⟩, ?_⟩
        · intro a b
          simp only [store2, counter_change]
          split_ifs with hab
          · obtain ⟨rfl, rfl⟩ := hab
            exact Or.inr (Or.inr ⟨rfl, h⟩)
          · exact Or.inl rfl
        · intro a
          simp only [store1, counter_change]
          split_ifs with ha
          · subst ha
            exact Or.inr (Or.inl rfl)
          · exact Or.inl rfl
        · intro hstop
          simp at hstop
      · rw [master_step_frame s st ctag t_end t_start h h2 h3]
        rw [hc] at h
        rw [hf] at h2 ⊢
        have hS1 : 0 < s.get_max_symbol_id := by omega
        have hD1 : 0 < s.cfg.BS_ANT_NUM := by omega
        refine ⟨⟨?_, ?_⟩, ?_⟩
        · intro a b
          simp only [store2, counter_change]
          split_ifs with hab
          · obtain ⟨rfl, rfl⟩ := hab
            exact Or.inr (Or.inr ⟨rfl, h⟩)
          · exact Or.inl rfl
        · intro a
          simp only [store1, counter_change]
          split_ifs with ha
          · subst ha
            exact Or.inr (Or.inr ⟨rfl, h2⟩)
          · exact Or.inl rfl
        · intro _
          refine ⟨?_, ?_⟩
          · intro a b
            simp only [store2]
            split_ifs
            · exact hD1
            · exact hps a b
          · intro a
            simp only [store1]
            split_ifs
            · exact hS1
            · exact hpf a
    · rw [master_step_symbol s st ctag t_end t_start h h2]
      rw [hc] at h
      rw [hf] at h2 ⊢
      have hD1 : 0 < s.cfg.BS_ANT_NUM := by omega
      refine ⟨⟨?_, ?_⟩, ?_⟩
      · intro a b
        simp only [store2, counter_change]
        split_ifs with hab
        · obtain ⟨rfl, rfl⟩ := hab
          exact Or.inr (Or.inr ⟨rfl, h⟩)
        · exact Or.inl rfl
      · intro a
        simp only [store1, counter_change]
        split_ifs with ha
        · subst ha
          exact Or.inr (Or.inl rfl)
        · exact Or.inl rfl
      · intro _
        refine ⟨?_, ?_⟩
        · intro a b
          simp only [store2]
          split_ifs
          · exact hD1
          · exact hps a b
        · intro a
          simp only [store1]
          split_ifs with ha
          · subst ha
            have := hpf (ctag.frame_id % s.SOCKET_BUFFER_FRAME_NUM)
            omega
          · exact hpf a
  · rw [master_step_below s st ctag t_end t_start h]
    rw [hc] at h ⊢
    refine ⟨⟨?_, ?_⟩, ?_⟩
    · intro a b
      simp only [store2, counter_change]
      split_ifs with hab
      · obtain ⟨rfl, rfl⟩ := hab
        exact Or.inr (Or.inl rfl)
      · exact Or.inl rfl
    · intro a
      exact Or.inl rfl
    · intro _
      refine ⟨?_, hpf⟩
      intro a b
      simp only [store2]
      split_ifs with hab
      · obtain ⟨rfl, rfl⟩ := hab
        have := hps (ctag.frame_id % s.SOCKET_BUFFER_FRAME_NUM) ctag.symbol_id
        omega
      · exact hps a b

theorem master_run_counters (s : Sender)
    (hD : s.cfg.BS_ANT_NUM < 2 ^ 64) (hS : s.get_max_symbol_id < 2 ^ 64) :
    ∀ (cs : List Completion) (st : MasterState), st.counters_below s →
      (s.master_run st cs).2.stop = false → (s.master_run st cs).1.counters_below s := by
  intro cs
  induction cs with
  | nil =>
    intro st hinv _
    exact hinv
  | cons c cs ih =>
    intro st hinv hstop
    have hstep := master_step_counters s hD hS st hinv c.tag c.t_end c.t_start
    by_cases h : (s.master_step st c.tag c.t_end c.t_start).2.stop = true
    · have hrun : s.master_run st (c :: cs) = s.master_step st c.tag c.t_end c.t_start := by
        simp only [Sender.master_run, h, if_true]
      rw [hrun] at hstop
      rw [h] at hstop
      exact absurd hstop (by decide)
    · have hrun : s.master_run st (c :: cs)
          = ((s.master_run (s.master_step st c.tag c.t_end c.t_start).1 cs).1,
             (s.master_step st c.tag c.t_end c.t_start).2.append
               (s.master_run (s.master_step st c.tag c.t_end c.t_start).1 cs).2) := by
        simp [Sender.master_run, h]
      have hfalse : (s.master_step st c.tag c.t_end c.t_start).2.stop = false := by
        simpa using h
      rw [hrun] at hstop ⊢
      exact ih _ (hstep.2 hfalse) hstop

/-- C23: for `BS_ANT_NUM ≥ 1` and `get_max_symbol_id() ≥ 1` (both `size_t`
values), starting from all-zero counters and for every sequence `cs` of
completion tags with `symbol_id < get_max_symbol_id()`: if no iteration over
`cs` took the `break`, then after them every entry of
`packet_count_per_symbol` is below `BS_ANT_NUM` and every entry of
`packet_count_per_frame` is below `get_max_symbol_id()`; and the next
iteration, for any completion, leaves each counter unchanged, adds 1 to it,
or resets it to 0, the reset only when the counter plus 1 is its target, and
keeps the bounds unless it takes the `break`. -/
theorem master_thread_counters_bounded (s : Sender)
    (hD1 : 1 ≤ s.cfg.BS_ANT_NUM) (hD : s.cfg.BS_ANT_NUM < 2 ^ 64)
    (hS1 : 1 ≤ s.get_max_symbol_id) (hS : s.get_max_symbol_id < 2 ^ 64)
    (cs : List Completion) (_htags : ∀ c ∈ cs, c.tag.symbol_id < s.get_max_symbol_id)
    (hrun : (s.master_run MasterState.zero cs).2.stop = false) :
    (s.master_run MasterState.zero cs).1.counters_below s
    ∧ ∀ (c : Completion), c.tag.symbol_id < s.get_max_symbol_id →
        (s.master_run MasterState.zero cs).1.counters_step s
          (s.master_step (s.master_run MasterState.zero cs).1 c.tag c.t_end c.t_start).1
        ∧ ((s.master_step (s.master_run MasterState.zero cs).1
              c.tag c.t_end c.t_start).2.stop = false →
            (s.master_step (s.master_run MasterState.zero cs).1
              c.tag c.t_end c.t_start).1.counters_below s) := by
  have hzero : MasterState.zero.counters_below s :=
    ⟨fun _ _ => hD1, fun _ => hS1⟩
  have hinv := master_run_counters s hD hS cs MasterState.zero hzero hrun
  exact ⟨hinv, fun c _ => master_step_counters s hD hS _ hinv c.tag c.t_end c.t_start⟩

/-- Witness of C23: after the first completion of `example_sender` the
counters are below their targets. -/
theorem master_thread_counters_bounded_witness :
    (example_sender.master_run MasterState.zero
        (completions_of [gen_tag_t.frm_sym_ant 0 0 0])).2.stop = false
    ∧ (example_sender.master_run MasterState.zero
        (completions_of [gen_tag_t.frm_sym_ant 0 0 0])).1.counters_below example_sender :=
  ⟨by decide, (master_thread_counters_bounded example_sender (by decide) (by decide)
    (by decide) (by decide) (completions_of [gen_tag_t.frm_sym_ant 0 0 0])
    (by decide) (by decide)).1⟩

/-! ## Claims on the RX buffers of the channel simulator -/

/-- C24, the code at the failing input: 40 frame slots, one downlink symbol
per frame, 4 antennas, payloads of 64 elements, so `rx_buffer_bs` has 10240
elements.  For the packet of frame 1, symbol 1 (downlink symbol 0), antenna
0 the canonical position is 256, which is also where `do_tx_user` reads the
symbol, and `bs_rx_loop` computes `offset = 256` but copies the payload to
`rx_buffer_bs + offset * payload_len`, position 16384, beyond the end of the
buffer. -/
theorem bs_rx_position_scaled :
    example_downlink_sim.bscfg.get_dl_symbol_idx 1 1 = 0
    ∧ example_downlink_sim.rx_buffer_bs_size = 10240
    ∧ canonical_offset example_downlink_sim.TASK_BUFFER_FRAME_NUM
        example_downlink_sim.dl_symbol_perframe
        (example_downlink_sim.numAntennas * example_downlink_sim.payload_len)
        1 0 (0 * example_downlink_sim.payload_len) = 256
    ∧ example_downlink_sim.do_tx_user_total_offset_bs 1 1 = 256
    ∧ example_downlink_sim.bs_rx_offset 1 1 0 = 256
    ∧ example_downlink_sim.bs_rx_position 1 1 0 = 16384
    ∧ ¬ (example_downlink_sim.bs_rx_position 1 1 0 + example_downlink_sim.payload_len
          ≤ example_downlink_sim.rx_buffer_bs_size) := by
  decide

/-- C25, the code at the failing inputs: 2 users, frame schedule "PUU" (one
pilot and two uplink data symbols per frame), payloads of 64 elements and
packets of 80 bytes.  The frame stride of `ue_rx_loop` is
`64 * 2 * 2 = 256`, that of `do_tx_bs` is `64 * 2 * 3 = 384`.  The payload of
user 1 for frame 0, symbol 0 is stored at position `64 * 80 = 5120` and read
at `0 + 1 * 64 = 64`; that of user 0 for frame 1, symbol 0 is stored at
`256 * 80 = 20480`, beyond the 15360 elements of `rx_buffer_ue`, and read at
384. -/
theorem ue_rx_position_differs_from_reader :
    example_sim.ue_rx_frame_samp_size = 256
    ∧ example_sim.do_tx_bs_frame_samp_ue = 384
    ∧ example_sim.ue_rx_position 0 0 1 = 5120
    ∧ example_sim.do_tx_bs_total_offset_ue 0 0 + 1 * example_sim.payload_len = 64
    ∧ example_sim.ue_rx_position 1 0 0 = 20480
    ∧ example_sim.do_tx_bs_total_offset_ue 1 0 + 0 * example_sim.payload_len = 384
    ∧ example_sim.rx_buffer_ue_size = 15360 := by
  decide

/-! ## Claims on the cache lines of demodulation -/

/-- C26, counterexample: `demul_block_size = 12` and `OFDM_DATA_NUM = 24`
meet the stated boundaries (8 divides 24, 12 divides 24) and
`base_sc_id = 12` is a multiple of the block size below 24, yet
`max_sc_ite` is 12 and `max_sc_ite % kSCsPerCacheline` is 4. -/
theorem demul_max_sc_ite_counterexample :
    (24 % kSCsPerCacheline = 0 ∧ 1 ≤ 12 ∧ 24 % 12 = 0 ∧ 12 % 12 = 0 ∧ 12 < 24)
    ∧ DoDemul.max_sc_ite { demul_block_size := 12, OFDM_DATA_NUM := 24 } 12 = 12
    ∧ DoDemul.max_sc_ite { demul_block_size := 12, OFDM_DATA_NUM := 24 } 12
        % kSCsPerCacheline = 4 := by
  decide

/-- C26, amended: for every configuration with `demul_block_size ≥ 1`
dividing `OFDM_DATA_NUM` (a `size_t` value) and with `kSCsPerCacheline = 8`
dividing `demul_block_size`, and every `base_sc_id` that is a multiple of
`demul_block_size` below `OFDM_DATA_NUM`, `max_sc_ite` is
`demul_block_size` and the assertion `max_sc_ite % kSCsPerCacheline == 0`
of `DoDemul::launch` holds. -/
theorem demul_max_sc_ite_cacheline (cfg : DemulConfig) (base_sc_id : Nat)
    (hO : cfg.OFDM_DATA_NUM < 2 ^ 64)
    (_hb1 : 1 ≤ cfg.demul_block_size)
    (hdiv : cfg.demul_block_size ∣ cfg.OFDM_DATA_NUM)
    (h8 : kSCsPerCacheline ∣ cfg.demul_block_size)
    (hbase : cfg.demul_block_size ∣ base_sc_id)
    (hlt : base_sc_id < cfg.OFDM_DATA_NUM) :
    DoDemul.max_sc_ite cfg base_sc_id = cfg.demul_block_size
    ∧ DoDemul.max_sc_ite cfg base_sc_id % kSCsPerCacheline = 0 := by
  have hmax : DoDemul.max_sc_ite cfg base_sc_id = cfg.demul_block_size := by
    obtain ⟨r, hr⟩ := hdiv
    obtain ⟨q, hq⟩ := hbase
    have hqr : q < r := by
      rw [hr, hq] at hlt
      exact Nat.lt_of_mul_lt_mul_left hlt
    have hle : cfg.demul_block_size * (q + 1) ≤ cfg.demul_block_size * r :=
      Nat.mul_le_mul_left _ hqr
    rw [Nat.mul_add, Nat.mul_one, ← hq, ← hr] at hle
    unfold DoDemul.max_sc_ite
    rw [to_size_t_of_lt base_sc_id (by omega)]
    have hsub : to_size_t (cfg.OFDM_DATA_NUM + (SIZE_RANGE - base_sc_id))
        = cfg.OFDM_DATA_NUM - base_sc_id := by
      unfold to_size_t SIZE_RANGE
      have h1 : cfg.OFDM_DATA_NUM + (2 ^ 64 - base_sc_id)
          = (cfg.OFDM_DATA_NUM - base_sc_id) + 2 ^ 64 := by omega
      rw [h1, Nat.add_mod_right]
      exact Nat.mod_eq_of_lt (by omega)
    rw [hsub]
    exact Nat.min_eq_left (by omega)
  refine ⟨hmax, ?_⟩
  rw [hmax]
  exact Nat.mod_eq_zero_of_dvd h8

/-- Witness of C26, amended: blocks of 16 subcarriers out of 48, the block
at subcarrier 32. -/
theorem demul_max_sc_ite_cacheline_witness :
    DoDemul.max_sc_ite { demul_block_size := 16, OFDM_DATA_NUM := 48 } 32 = 16
    ∧ DoDemul.max_sc_ite { demul_block_size := 16, OFDM_DATA_NUM := 48 } 32
        % kSCsPerCacheline = 0 :=
  demul_max_sc_ite_cacheline { demul_block_size := 16, OFDM_DATA_NUM := 48 } 32
    (by decide) (by decide) (by decide) (by decide) (by decide) (by decide)

theorem for_loop_append_lists {α : Type} (n : Nat) (r : Nat → List α) :
    ∀ (fuel i : Nat) (acc : List α), i + fuel = n →
      for_loop n (fun j acc => acc ++ r j) fuel i acc
        = acc ++ (List.range' i fuel).flatMap r := by
  intro fuel
  induction fuel with
  | zero => intro i acc _; simp [for_loop]
  | succ fuel ih =>
    intro i acc h
    have hi : i < n := by omega
    rw [for_loop, if_pos hi, ih (i + 1) (acc ++ r i) (by omega)]
    simp [List.range'_succ]

theorem flatMap_rows_length {α : Type} (r : Nat → List α) (D : Nat)
    (hr : ∀ k, (r k).length = D) :
    ∀ n, ((List.range n).flatMap r).length = n * D := by
  intro n
  induction n with
  | zero => simp
  | succ n ih =>
    rw [List.range_succ, List.flatMap_append, List.length_append, ih,
      List.flatMap_singleton, hr]
    ring

theorem flatMap_rows_getElem {α : Type} (r : Nat → List α) (D : Nat)
    (hr : ∀ k, (r k).length = D) (k i : Nat) (hi : i < D) :
    ∀ n, k < n → ((List.range n).flatMap r)[k * D + i]? = (r k)[i]? := by
  intro n
  induction n with
  | zero => intro h; omega
  | succ n ih =>
    intro hk
    rw [List.range_succ, List.flatMap_append, List.flatMap_singleton]
    rcases Nat.lt_or_ge k n with h | h
    · have hlt : k * D + i < ((List.range n).flatMap r).length := by
        rw [flatMap_rows_length r D hr]
        have : (k + 1) * D ≤ n * D := Nat.mul_le_mul_right _ h
        rw [Nat.add_mul] at this
        omega
      rw [List.getElem?_append_left hlt]
      exact ih h
    · have hkn : k = n := by omega
      subst hkn
      have hge : ((List.range k).flatMap r).length ≤ k * D + i := by
        rw [flatMap_rows_length r D hr]
        omega
      rw [List.getElem?_append_right hge, flatMap_rows_length r D hr,
        Nat.add_sub_cancel_left]

theorem gather_eq (K A base i : Nat) :
    DoDemul.gather K A base i
      = (List.range kSCsPerCacheline).flatMap
          (fun j => (List.range A).map (fun ant_i => DoDemul.gather_index K A base i j ant_i)) := by
  unfold DoDemul.gather
  have hinner : (fun (j : Nat) (dst : List Nat) =>
      for_loop A (fun ant_i dst2 => dst2 ++ [DoDemul.gather_index K A base i j ant_i]) A 0 dst)
      = (fun j dst => dst ++ (List.range A).map
          (fun ant_i => DoDemul.gather_index K A base i j ant_i)) := by
    funext j dst
    rw [for_loop_append A (fun ant_i => DoDemul.gather_index K A base i j ant_i) A 0 dst
      (by omega), List.range_eq_range']
  rw [hinner, for_loop_append_lists kSCsPerCacheline _ kSCsPerCacheline 0 [] (by omega),
    List.nil_append]
  simp only [List.range_eq_range']

/-- Within one cache line the subcarriers share a partial-transpose block. -/
theorem same_transpose_block (K x j : Nat) (hK : 0 < K) (h8K : 8 ∣ K) (h8x : 8 ∣ x)
    (hj : j < 8) : (x + j) / K = x / K ∧ (x + j) % K = x % K + j := by
  have hr : 8 ∣ x % K := (Nat.dvd_mod_iff h8K).mpr h8x
  have hlt := Nat.mod_lt x hK
  have hroom : x % K + j < K := by
    obtain ⟨a, ha⟩ := hr
    obtain ⟨b, hb⟩ := h8K
    omega
  have hx : x + j = x % K + j + K * (x / K) := by
    have := Nat.mod_add_div x K
    omega
  constructor
  · rw [hx, Nat.add_mul_div_left _ _ hK, Nat.div_eq_of_lt hroom, Nat.zero_add]
  · rw [hx, Nat.add_mul_mod_self_left, Nat.mod_eq_of_lt hroom]

theorem gather_index_eq (K A base i j ant : Nat) (hK : 0 < K) (h8K : 8 ∣ K)
    (h8x : 8 ∣ base + i) (hj : j < 8) (hant : ant < A)
    (hfit : ((base + i) / K + 1) * (K * A) < 2 ^ 64) :
    (base + i + j) / K = (base + i) / K
    ∧ DoDemul.gather_index K A base i j ant
      = (base + i + j) / K * K * A + ant * K + (base + i + j) % K := by
  obtain ⟨hdiv, hmod⟩ := same_transpose_block K (base + i) j hK h8K h8x hj
  refine ⟨hdiv, ?_⟩
  have hmodlt := Nat.mod_lt (base + i + j) hK
  have hA : 1 ≤ A := by omega
  have hKA : K ≤ K * A := Nat.le_mul_of_pos_right K hA
  have hantK : ant * K + K ≤ K * A := by
    have : (ant + 1) * K ≤ A * K := Nat.mul_le_mul_right _ hant
    rw [Nat.add_mul, Nat.one_mul, Nat.mul_comm A K] at this
    exact this
  have hexp : ((base + i) / K + 1) * (K * A) = (base + i) / K * (K * A) + K * A := by ring
  have hsc : base + i + j < (base + i) / K * K + K := by
    have h1 := Nat.div_add_mod (base + i + j) K
    rw [hdiv] at h1
    rw [Nat.mul_comm] at h1
    omega
  have hblk : (base + i) / K * K ≤ (base + i) / K * (K * A) := by
    exact Nat.mul_le_mul_left _ hKA
  have hbi : base + i < 2 ^ 64 := by omega
  unfold DoDemul.gather_index DoDemul.partial_transpose_block_base
  rw [to_size_t_of_lt (base + i) hbi, to_size_t_of_lt (K * A) (by omega),
    to_size_t_of_lt ((base + i) / K * (K * A)) (by omega),
    to_size_t_of_lt (ant * K) (by omega),
    to_size_t_of_lt ((base + i) / K * (K * A) + ant * K) (by omega),
    to_size_t_of_lt (base + i + j) (by omega),
    to_size_t_of_lt _ (by omega), hdiv, Nat.mul_assoc]

/-- C27: in `DoDemul::launch`, with `kTransposeBlockSize = K ≥ 1`, when
`kSCsPerCacheline = 8` divides both `demul_block_size` and `K` and
`base_sc_id` is a multiple of `demul_block_size`, then at every cache-line
step `i` (a multiple of 8) whose partial-transpose block ends below `2^64`
elements, the gather without SIMD makes `8 * BS_ANT_NUM` stores, and for
every `j < 8` and `ant < BS_ANT_NUM` the subcarrier `sc = base_sc_id + i + j`
lies in the partial-transpose block of `base_sc_id + i` and the element
stored to `spm_buffer[j * BS_ANT_NUM + ant]` is the one at index
`(sc / K) * K * BS_ANT_NUM + ant * K + sc mod K` of `data_buf`. -/
theorem demul_gather_layout (cfg : DemulConfig) (K A base_sc_id i : Nat)
    (hK : 0 < K) (h8K : kSCsPerCacheline ∣ K)
    (h8b : kSCsPerCacheline ∣ cfg.demul_block_size)
    (hbase : cfg.demul_block_size ∣ base_sc_id)
    (hi : kSCsPerCacheline ∣ i)
    (hfit : ((base_sc_id + i) / K + 1) * (K * A) < 2 ^ 64) :
    (DoDemul.gather K A base_sc_id i).length = kSCsPerCacheline * A
    ∧ ∀ j ant, j < kSCsPerCacheline → ant < A →
        (base_sc_id + i + j) / K = (base_sc_id + i) / K
        ∧ (DoDemul.gather K A base_sc_id i)[j * A + ant]?
          = some ((base_sc_id + i + j) / K * K * A + ant * K + (base_sc_id + i + j) % K) := by
  have h8x : 8 ∣ base_sc_id + i :=
    Nat.dvd_add (Nat.dvd_trans h8b hbase) hi
  have hrow : ∀ k, ((List.range A).map
      (fun ant_i => DoDemul.gather_index K A base_sc_id i k ant_i)).length = A := by
    intro k
    rw [List.length_map, List.length_range]
  rw [gather_eq]
  refine ⟨flatMap_rows_length _ A hrow kSCsPerCacheline, ?_⟩
  intro j ant hj hant
  obtain ⟨hdiv, hidx⟩ := gather_index_eq K A base_sc_id i j ant hK h8K h8x hj hant hfit
  refine ⟨hdiv, ?_⟩
  rw [flatMap_rows_getElem _ A hrow j ant hant kSCsPerCacheline hj, List.getElem?_map,
    List.getElem?_range hant, ← hidx]
  rfl

/-- Witness of C27: blocks of 8 subcarriers, transpose blocks of 16, 2
antennas, the cache line at subcarrier 8: the store to `spm_buffer[3 * 2 + 1]`
reads index 27. -/
theorem demul_gather_layout_witness :
    (DoDemul.gather 16 2 8 0).length = 16
    ∧ (DoDemul.gather 16 2 8 0)[3 * 2 + 1]? = some 27 :=
  have h := demul_gather_layout { demul_block_size := 8, OFDM_DATA_NUM := 16 } 16 2 8 0
    (by decide) (by decide) (by decide) (by decide) (by decide) (by decide)
  ⟨h.1, (h.2 3 1 (by decide) (by decide)).2⟩

/-! ## Further claims on the data generator -/

theorem odd_dvd_mul_two_pow (p a j : Nat) (hp : Nat.Coprime p 2) :
    (a * 2 ^ j) % p = 0 ↔ a % p = 0 := by
  rw [← Nat.dvd_iff_mod_eq_zero, ← Nat.dvd_iff_mod_eq_zero]
  exact Nat.Coprime.dvd_mul_right (Nat.Coprime.pow_right j hp)

/-- C28: for every lifting size `Zc = a * 2^j` with `a` one of 2, 3, 5, 7, 9,
11, 13, 15 and every `j` (so in particular whenever `Zc` fits 16 bits, and
for all such `Zc` in 2..384), `select_base_matrix_entry Zc` is the position
of `a` in the list `[2, 3, 5, 7, 9, 11, 13, 15]`, the 3GPP set index of
`Zc`; and for every `Zc` the result is at most 7. -/
theorem select_base_matrix_entry_set_index (a j : Nat) (ha : a ∈ lifting_set_factors) :
    select_base_matrix_entry (a * 2 ^ j) = lifting_set_factors.indexOf a
    ∧ ∀ Zc, select_base_matrix_entry Zc ≤ 7 := by
  constructor
  · have h15 := odd_dvd_mul_two_pow 15 a j (by decide)
    have h13 := odd_dvd_mul_two_pow 13 a j (by decide)
    have h11 := odd_dvd_mul_two_pow 11 a j (by decide)
    have h9 := odd_dvd_mul_two_pow 9 a j (by decide)
    have h7 := odd_dvd_mul_two_pow 7 a j (by decide)
    have h5 := odd_dvd_mul_two_pow 5 a j (by decide)
    have h3 := odd_dvd_mul_two_pow 3 a j (by decide)
    unfold select_base_matrix_entry
    simp only [h15, h13, h11, h9, h7, h5, h3]
    unfold lifting_set_factors at ha ⊢
    simp only [List.mem_cons, List.mem_singleton, List.not_mem_nil, or_false] at ha
    rcases ha with rfl | rfl | rfl | rfl | rfl | rfl | rfl | rfl <;> decide
  · intro Zc
    unfold select_base_matrix_entry
    split_ifs <;> omega

/-- Witness of C28: `Zc = 384 = 3 * 2^7` has set index 1. -/
theorem select_base_matrix_entry_set_index_witness :
    3 ∈ lifting_set_factors ∧ select_base_matrix_entry (3 * 2 ^ 7) = 1 :=
  ⟨by decide, (select_base_matrix_entry_set_index 3 7 (by decide)).1.trans (by decide)⟩

/-! ## Claims on the sender's worker threads -/

theorem succ_div_mod_cases (A T : Nat) (hT : 0 < T) :
    (A % T + 1 < T ∧ (A + 1) / T = A / T ∧ (A + 1) % T = A % T + 1)
    ∨ (A % T + 1 = T ∧ (A + 1) / T = A / T + 1 ∧ (A + 1) % T = 0) := by
  have hlt := Nat.mod_lt A hT
  have hA : A + 1 = A % T + 1 + T * (A / T) := by
    have := Nat.div_add_mod A T
    omega
  rcases Nat.lt_or_ge (A % T + 1) T with h | h
  · left
    refine ⟨h, ?_, ?_⟩
    · rw [hA, Nat.add_mul_div_left _ _ hT, Nat.div_eq_of_lt h, Nat.zero_add]
    · rw [hA, Nat.add_mul_mod_self_left, Nat.mod_eq_of_lt h]
  · right
    have hT2 : A % T + 1 = T := by omega
    have hA2 : A + 1 = T * (A / T + 1) := by
      rw [Nat.mul_add, Nat.mul_one]
      omega
    refine ⟨hT2, ?_, ?_⟩
    · rw [hA2, Nat.mul_div_cancel_left _ hT]
    · rw [hA2, Nat.mul_mod_right]

theorem filter_mod_length (T tid : Nat) (hT : 0 < T) (htid : tid < T) :
    ∀ A, ((List.range A).filter (fun i => i % T = tid)).length
      = A / T + (if tid < A % T then 1 else 0) := by
  intro A
  induction A with
  | zero => simp
  | succ A ih =>
    rw [List.range_succ, List.filter_append, List.length_append, ih]
    rcases succ_div_mod_cases A T hT with ⟨h1, h2, h3⟩ | ⟨h1, h2, h3⟩
    · rw [h2, h3]
      by_cases h : A % T = tid
      · simp [h]
      · have h4 : (tid < A % T + 1) ↔ (tid < A % T) := by omega
        simp [h, h4]
    · rw [h2, h3]
      by_cases h : A % T = tid
      · simp [h]
      · have h4 : tid < A % T := by omega
        simp [h, h4]

theorem sum_indicator_lt (r : Nat) :
    ∀ T, ((List.range T).map (fun t => if t < r then 1 else 0)).sum = min r T := by
  intro T
  induction T with
  | zero => simp
  | succ T ih =>
    rw [List.range_succ, List.map_append, List.sum_append, ih]
    by_cases h : T < r
    · simp [h]; omega
    · simp [h]; omega

theorem sum_const_add (c : Nat) (f : Nat → Nat) :
    ∀ T, ((List.range T).map (fun t => c + f t)).sum
      = T * c + ((List.range T).map f).sum := by
  intro T
  induction T with
  | zero => simp
  | succ T ih =>
    rw [List.range_succ, List.map_append, List.sum_append, ih, List.map_append,
      List.sum_append]
    simp only [List.map_cons, List.map_nil, List.sum_cons, List.sum_nil]
    ring

theorem ant_num_this_thread_eq (s : Sender) (hA : s.cfg.BS_ANT_NUM < 2 ^ 64)
    (hT1 : 1 ≤ s.thread_num) (hT : s.thread_num ≤ 2 ^ 64) (tid : Nat)
    (htid : tid < s.thread_num) :
    s.ant_num_this_thread (tid : Int)
      = s.cfg.BS_ANT_NUM / s.thread_num
        + (if tid < s.cfg.BS_ANT_NUM % s.thread_num then 1 else 0) := by
  unfold Sender.ant_num_this_thread
  rw [int_to_size_t_natCast tid (by omega)]
  apply to_size_t_of_lt
  have h1 : s.cfg.BS_ANT_NUM / s.thread_num ≤ s.cfg.BS_ANT_NUM := Nat.div_le_self _ _
  split_ifs with h
  · have h2 : s.cfg.BS_ANT_NUM / s.thread_num < s.cfg.BS_ANT_NUM := by
      have hpos : 0 < s.cfg.BS_ANT_NUM := by
        have := Nat.mod_le s.cfg.BS_ANT_NUM s.thread_num
        omega
      rcases Nat.lt_or_ge 1 s.thread_num with h3 | h3
      · exact Nat.div_lt_self hpos h3
      · have h4 : s.thread_num = 1 := by omega
        rw [h4, Nat.mod_one] at h
        omega
    omega
  · omega

/-- C29: for every `thread_num = T ≥ 1`, every `BS_ANT_NUM = A` and every
`tid < T` (`A` and `T` being `size_t` values), the antenna count
`ant_num_this_thread = A / T + (1 if tid < A mod T else 0)` that
`Sender::worker_thread` computes is the number of antennas `i < A` with
`i mod T = tid`, which is the number of tasks of one wave that the master
enqueues through `task_ptok[tid]`; and the counts of the workers
`tid = 0 .. T-1` sum to `A`. -/
theorem ant_num_this_thread_count (s : Sender) (hA : s.cfg.BS_ANT_NUM < 2 ^ 64)
    (hT1 : 1 ≤ s.thread_num) (hT : s.thread_num ≤ 2 ^ 64) :
    (∀ tid : Nat, tid < s.thread_num →
      s.ant_num_this_thread (tid : Int)
          = s.cfg.BS_ANT_NUM / s.thread_num
            + (if tid < s.cfg.BS_ANT_NUM % s.thread_num then 1 else 0)
      ∧ s.ant_num_this_thread (tid : Int)
          = ((List.range s.cfg.BS_ANT_NUM).filter (fun i => i % s.thread_num = tid)).length
      ∧ ∀ frame symbol, s.ant_num_this_thread (tid : Int)
          = ((s.enqueue_send_tasks frame symbol []).filter (fun e => e.1 = tid)).length)
    ∧ ((List.range s.thread_num).map (fun (tid : Nat) => s.ant_num_this_thread (tid : Int))).sum
        = s.cfg.BS_ANT_NUM := by
  constructor
  · intro tid htid
    have h1 := ant_num_this_thread_eq s hA hT1 hT tid htid
    have h2 := filter_mod_length s.thread_num tid hT1 htid s.cfg.BS_ANT_NUM
    refine ⟨h1, h1.trans h2.symm, ?_⟩
    intro frame symbol
    rw [h1, ← h2, enqueue_send_tasks_eq, List.nil_append, List.filter_map,
      List.length_map]
    rfl
  · have hmap : (List.range s.thread_num).map (fun (tid : Nat) => s.ant_num_this_thread (tid : Int))
        = (List.range s.thread_num).map (fun (tid : Nat) => s.cfg.BS_ANT_NUM / s.thread_num
            + (if tid < s.cfg.BS_ANT_NUM % s.thread_num then 1 else 0)) := by
      apply List.map_congr_left
      intro tid htid
      exact ant_num_this_thread_eq s hA hT1 hT tid (List.mem_range.mp htid)
    rw [hmap, sum_const_add, sum_indicator_lt,
      Nat.min_eq_left (le_of_lt (Nat.mod_lt _ hT1))]
    exact Nat.div_add_mod _ _

/-- Witness of C29: 3 antennas on 2 workers, worker 0 has 2 of them. -/
theorem ant_num_this_thread_count_witness :
    (example_sender.cfg.BS_ANT_NUM < 2 ^ 64 ∧ 1 ≤ example_sender.thread_num
      ∧ example_sender.thread_num ≤ 2 ^ 64 ∧ 0 < example_sender.thread_num)
    ∧ example_sender.ant_num_this_thread ((0 : Nat) : Int)
        = ((List.range example_sender.cfg.BS_ANT_NUM).filter
            (fun i => i % example_sender.thread_num = 0)).length
    ∧ ((List.range example_sender.thread_num).map
          (fun (tid : Nat) => example_sender.ant_num_this_thread (tid : Int))).sum = 3 :=
  have h := ant_num_this_thread_count example_sender (by decide) (by decide) (by decide)
  ⟨by decide, (h.1 0 (by decide)).2.1, h.2⟩

/-! ## Claims on the accumulator of `adapt_bits_for_mod` -/

theorem adapt_for_append (m : Nat) :
    ∀ (pre post : List Nat) (st : AdaptState),
      adapt_for m (pre ++ post) st = (adapt_for m pre st).bind (adapt_for m post) := by
  intro pre
  induction pre with
  | nil => intro post st; rfl
  | cons x rest ih =>
    intro post st
    rw [List.cons_append, adapt_for, adapt_for]
    split_ifs
    · rfl
    · cases adapt_while m
          { bits := to_uint16 (st.bits ||| (bitreverse8 x <<< (8 - st.bits_avail)))
            bits_avail := st.bits_avail + 8
            vec_out := st.vec_out } with
      | none => rfl
      | some st1 => exact ih post st1

/-- The state of `adapt_bits_for_mod` at the start of iteration `i`. -/
theorem adapt_for_take (m : Nat) (hm1 : 1 ≤ m) (hm8 : m ≤ 8) (vec_in : List Nat)
    (i : Nat) (hi : i ≤ vec_in.length) :
    adapt_for m (vec_in.take i) ⟨0, 0, []⟩
      = some (acc_of (input_bit vec_in) (8 * i / m * m) (8 * i % m)
          ((List.range (8 * i / m)).map (fun k => window (input_bit vec_in) (k * m) m))) := by
  have hlen : (vec_in.take i).length = i := by
    rw [List.length_take]
    exact Nat.min_eq_left hi
  have h3 : (⟨0, 0, []⟩ : AdaptState) = acc_of (input_bit vec_in) 0 0 [] := by
    simp [acc_of, window]
  rw [h3,
    adapt_for_spec (input_bit vec_in) (input_bit_lt vec_in) m hm1 hm8 (vec_in.take i) 0 0 0 []
      rfl (by omega) (by
        intro j hj t ht
        rw [hlen] at hj
        unfold input_bit
        have e1 : (8 * (0 + j) + t) / 8 = j := by omega
        have e2 : (8 * (0 + j) + t) % 8 = t := by omega
        rw [e1, e2, List.getD_eq_getElem?_getD, List.getD_eq_getElem?_getD,
          List.getElem?_take_of_lt hj])]
  simp [hlen]

/-- C30: for `1 ≤ m ≤ 8` and every input byte array, `adapt_bits_for_mod`
returns and every value it writes is below `2^m`.  At the start of every
iteration `i` of its `for` loop fewer than `m` bits are pending, so after
`bits_avail += 8` at most 15 are, and `bits_avail` only falls from there
until the next iteration; and the accumulator then holds, in its top bits,
exactly the pending bits of the input stream, those from position
`8 * i - bits_avail` up to the last bit of byte `i`: the shifts lose no input
bit. -/
theorem adapt_bits_for_mod_accumulator (m : Nat) (hm1 : 1 ≤ m) (hm8 : m ≤ 8)
    (vec_in : List Nat) :
    (∃ out, adapt_bits_for_mod vec_in vec_in.length m = some out ∧ ∀ v ∈ out, v < 2 ^ m)
    ∧ ∀ i, i < vec_in.length →
        ∃ st, adapt_for m (vec_in.take i) ⟨0, 0, []⟩ = some st
          ∧ adapt_for m vec_in ⟨0, 0, []⟩ = adapt_for m (vec_in.drop i) st
          ∧ st.bits_avail < m
          ∧ st.bits_avail + 8 ≤ 15
          ∧ to_uint16 (st.bits ||| (bitreverse8 (vec_in.getD i 0) <<< (8 - st.bits_avail)))
              = window (input_bit vec_in) (8 * i - st.bits_avail) (st.bits_avail + 8)
                  * 2 ^ (16 - (st.bits_avail + 8)) := by
  constructor
  · refine ⟨_, adapt_bits_for_mod_eq m hm1 hm8 vec_in vec_in.length rfl, ?_⟩
    intro v hv
    rcases List.mem_map.mp hv with ⟨k, _, rfl⟩
    exact window_lt (input_bit vec_in) (input_bit_lt vec_in) (k * m) m
  · intro i hi
    have hm : 0 < m := by omega
    have hmod := Nat.mod_lt (8 * i) hm
    have hdm := Nat.div_add_mod (8 * i) m
    have hp : 8 * i / m * m = 8 * i - 8 * i % m := by
      rw [Nat.mul_comm]
      omega
    refine ⟨_, adapt_for_take m hm1 hm8 vec_in i (le_of_lt hi), ?_, hmod, ?_, ?_⟩
    · have h := adapt_for_append m (vec_in.take i) (vec_in.drop i) ⟨0, 0, []⟩
      rw [List.take_append_drop, adapt_for_take m hm1 hm8 vec_in i (le_of_lt hi),
        Option.some_bind] at h
      exact h
    · show 8 * i % m + 8 ≤ 15
      omega
    · show to_uint16 ((window (input_bit vec_in) (8 * i / m * m) (8 * i % m)
            * 2 ^ (16 - 8 * i % m))
          ||| (bitreverse8 (vec_in.getD i 0) <<< (8 - 8 * i % m)))
        = window (input_bit vec_in) (8 * i - 8 * i % m) (8 * i % m + 8)
            * 2 ^ (16 - (8 * i % m + 8))
      rw [acc_or_byte _ _ _ (bitreverse8_lt _)
        (window_lt (input_bit vec_in) (input_bit_lt vec_in) _ _) (by omega),
        ← window_byte, hp, window_add]
      have hpos : 8 * i - 8 * i % m + 8 * i % m = i * 8 := by omega
      rw [hpos]

/-- Witness of C30: three input bytes cut into 6-bit fields; at the start of
iteration 1 two bits are pending. -/
theorem adapt_bits_for_mod_accumulator_witness :
    (1 ≤ 6 ∧ 6 ≤ 8)
    ∧ (∃ out, adapt_bits_for_mod [1, 255, 165] [1, 255, 165].length 6 = some out
        ∧ ∀ v ∈ out, v < 2 ^ 6)
    ∧ ∃ st, adapt_for 6 ([1, 255, 165].take 1) ⟨0, 0, []⟩ = some st
        ∧ st.bits_avail + 8 ≤ 15 :=
  have h := adapt_bits_for_mod_accumulator 6 (by decide) (by decide) [1, 255, 165]
  ⟨by decide, h.1,
    (h.2 1 (by decide)).elim (fun st hst => ⟨st, hst.1, hst.2.2.2.1⟩)⟩

end Agora
